import Mathlib

/-!
# Chipmunk2D `cpSpace.c`: a shallow embedding and its checked properties

The development follows `src/cpSpace.c`.  Memory is a set of heaps indexed by
addresses; `NULL` is `none`.  A hard assertion that fails ends the call with
`Res.fatal`, carrying the state at the moment of the abort.  Calls that leave
the file (body activation, bounding-box updates, user callbacks, ...) are
recorded, in order, in `World.trace`.

Floating-point fields of the space (gravity, damping, slop, bias, sleep
thresholds) play no role in the functions embedded here and are left out.
-/

set_option autoImplicit false

namespace Chipmunk

/-! ## Data model -/

/-- An address.  Pointers that may be `NULL` are `Option Ptr`. -/
abbrev Ptr := Nat

/-- Modelled from the spec: the body classification behind `cpBodyIsStatic`
(`cpBodyType`, declared in a header that is not part of `src/`). -/
inductive cpBodyType where
  | CP_BODY_TYPE_DYNAMIC
  | CP_BODY_TYPE_KINEMATIC
  | CP_BODY_TYPE_STATIC
  deriving DecidableEq, Repr

/-- Modelled from the spec: the arbiter states of `enum cpArbiterState`; the
source names `CP_ARBITER_STATE_CACHED` and `CP_ARBITER_STATE_INVALIDATED`. -/
inductive cpArbiterState where
  | CP_ARBITER_STATE_FIRST_COLLISION
  | CP_ARBITER_STATE_NORMAL
  | CP_ARBITER_STATE_IGNORE
  | CP_ARBITER_STATE_CACHED
  | CP_ARBITER_STATE_INVALIDATED
  deriving DecidableEq, Repr

/-- Function pointers that fit the `beginFunc` and `preSolveFunc` slots of a
handler: the static functions of `cpSpace.c` and functions of the caller. -/
inductive cpCollisionBoolFunc where
  | DefaultBegin
  | DefaultPreSolve
  | AlwaysCollide
  | user (id : Nat)
  deriving DecidableEq, Repr

/-- Function pointers that fit the `postSolveFunc` and `separateFunc` slots. -/
inductive cpCollisionVoidFunc where
  | DefaultPostSolve
  | DefaultSeparate
  | DoNothing
  | user (id : Nat)
  deriving DecidableEq, Repr

/-- The record `cpCollisionHandler`, fields in declaration order. -/
structure cpCollisionHandler where
  typeA : Nat
  typeB : Nat
  beginFunc : cpCollisionBoolFunc
  preSolveFunc : cpCollisionBoolFunc
  postSolveFunc : cpCollisionVoidFunc
  separateFunc : cpCollisionVoidFunc
  userData : Option Ptr
  deriving DecidableEq, Repr

/-- A pointer to a handler record: the space's own `defaultHandler` field, a
heap copy made by `handlerSetTrans`, or the global `cpCollisionHandlerDoNothing`. -/
inductive HandlerRef where
  | spaceDefault
  | heap (addr : Ptr)
  | globalDoNothing
  deriving DecidableEq, Repr

/-- The fields of `cpBody` that `cpSpace.c` reads or writes. -/
structure cpBody where
  type : cpBodyType
  space : Option Ptr
  constraintList : Option Ptr
  next : Option Ptr
  deriving DecidableEq, Repr

/-- The fields of `cpShape` that `cpSpace.c` reads or writes, and the
collision type tag of the shape. -/
structure cpShape where
  body : Ptr
  space : Option Ptr
  hashid : Nat
  type : Nat
  deriving DecidableEq, Repr

/-- The fields of `cpConstraint` that `cpSpace.c` reads or writes. -/
structure cpConstraint where
  space : Option Ptr
  a : Option Ptr
  b : Option Ptr
  next_a : Option Ptr
  next_b : Option Ptr
  deriving DecidableEq, Repr

/-- The fields of `cpArbiter` that `cpSpace.c` reads or writes. -/
structure cpArbiter where
  a : Ptr
  b : Ptr
  body_a : Ptr
  body_b : Ptr
  state : cpArbiterState
  handler : HandlerRef
  deriving DecidableEq, Repr

/-- One bin of a `cpHashSet`: the hash it was stored under and the element. -/
structure cpHashSetBin where
  hash : Nat
  elt : Ptr
  deriving DecidableEq, Repr

/-- Modelled from the spec: `cpHashSet` (cpHashSet.c is not part of `src/`), an
associative container keyed by a derived hash with `find(hash,key)`,
`insert(hash,key,factory)`, `each` and `filter`.  The bins are kept in a list,
the most recently inserted first. -/
abbrev cpHashSet := List cpHashSetBin

/-- Modelled from the spec: a spatial index (cpBBTree.c / cpSpaceHash.c are
not part of `src/`) holds the objects inserted with `insert(object,id)` and not
yet taken out with `remove(object,id)`; bounding volumes are left out. -/
structure cpSpatialIndex where
  entries : List (Ptr × Nat)
  deriving DecidableEq, Repr

/-- A call that leaves `cpSpace.c`, as recorded in the trace.  Callback events
carry what the callee can observe about the walk in progress: the arbiter
state and the lock counter at the time of the call. -/
inductive Event where
  | bodyActivate (body : Ptr)
  | bodyActivateStatic (body : Ptr) (filter : Option Ptr)
  | bodyAddShape (body : Ptr) (shape : Ptr)
  | bodyRemoveShape (body : Ptr) (shape : Ptr)
  | shapeUpdate (shape : Ptr)
  | shapeCacheBB (shape : Ptr)
  | arbiterUnthread (arb : Ptr)
  | separate (func : cpCollisionVoidFunc) (arb : Ptr) (userData : Option Ptr)
      (state : cpArbiterState) (locked : Nat)
  | bodyIter (func : Nat) (body : Ptr) (data : Option Ptr) (locked : Nat)
  | shapeIter (func : Nat) (shape : Ptr) (data : Option Ptr) (locked : Nat)
  | constraintIter (func : Nat) (constraint : Ptr) (data : Option Ptr) (locked : Nat)
  | postStep (callback : Ptr)
  deriving DecidableEq, Repr

/-- The struct `cpSpace` without its floating-point tunables. -/
structure cpSpace where
  iterations : Nat
  collisionPersistence : Nat
  locked : Nat
  stamp : Nat
  shapeIDCounter : Nat
  staticShapes : cpSpatialIndex
  dynamicShapes : cpSpatialIndex
  allocatedBuffers : List Ptr
  dynamicBodies : List Ptr
  otherBodies : List Ptr
  sleepingComponents : List Ptr
  rousedBodies : List Ptr
  arbiters : List Ptr
  pooledArbiters : List Ptr
  cachedArbiters : cpHashSet
  constraints : List Ptr
  usesWildcards : Bool
  defaultHandler : cpCollisionHandler
  collisionHandlers : cpHashSet
  postStepCallbacks : List Ptr
  skipPostStep : Bool
  deriving DecidableEq, Repr

/-- The memory the functions work on: the space under study, found at address
`self` with its embedded `_staticBody` at address `staticBody`, the heaps of
the objects of the application, the heap of handler copies with the next
address `cpcalloc` hands out, and the trace of outgoing calls. -/
structure World where
  self : Ptr
  staticBody : Ptr
  space : cpSpace
  bodies : Ptr → cpBody
  shapes : Ptr → cpShape
  joints : Ptr → cpConstraint
  arbs : Ptr → cpArbiter
  handlers : Ptr → cpCollisionHandler
  handlerBrk : Ptr
  trace : List Event

/-- The reasons for which a hard assertion of `cpSpace.c` aborts. -/
inductive Fatal where
  | alreadyInThisSpace
  | alreadyInAnotherSpace
  | nullBody
  | spaceLocked
  | notInSpace
  | designatedStaticBody
  deriving DecidableEq, Repr

/-- The outcome of a call: a value and the new state, or a fatal assertion
with the state in which the process aborted. -/
inductive Res (α : Type) where
  | ok (val : α) (w : World)
  | fatal (err : Fatal) (w : World)

/-- Append one event to the trace. -/
def World.emit (w : World) (e : Event) : World :=
  { w with trace := w.trace ++ [e] }

/-- The events recorded after the state `w` on the way to `w1`. -/
def emitted (w w1 : World) : List Event :=
  w1.trace.drop w.trace.length

/-! ## Collaborators that are not part of `src/` -/

/-- Modelled from the spec: `cpArrayPush` (cpArray.c is not part of `src/`)
appends to the end of the array. -/
def cpArrayPush (arr : List Ptr) (obj : Ptr) : List Ptr :=
  arr ++ [obj]

/-- Modelled from the spec: `cpArrayDeleteObj` (cpArray.c is not part of
`src/`) deletes the first occurrence of `obj` by moving the last element into
the freed slot; an array without `obj` is left as it is. -/
def cpArrayDeleteObj (arr : List Ptr) (obj : Ptr) : List Ptr :=
  let i := arr.indexOf obj
  if i < arr.length then (arr.set i (arr.getLast?.getD obj)).dropLast else arr

/-- Modelled from the spec: the width of `cpHashValue` (`uintptr_t`, declared
in a header that is not part of `src/`), taken as 64 bits. -/
def cpHashValueBits : Nat := 64

/-- Modelled from the spec: `CP_HASH_COEF` of the absent private header. -/
def CP_HASH_COEF : Nat := 3344921057

/-- Modelled from the spec: `CP_HASH_PAIR` (a macro of the absent private
header), "a hash of an unordered pair": each tag is scaled by a fixed
coefficient in `cpHashValue` arithmetic and the two products are xor-ed. -/
def CP_HASH_PAIR (a b : Nat) : Nat :=
  Nat.xor ((a * CP_HASH_COEF) % 2 ^ cpHashValueBits) ((b * CP_HASH_COEF) % 2 ^ cpHashValueBits)

/-- Modelled from the spec: `CP_WILDCARD_COLLISION_TYPE` (absent header), the
reserved type tag of wildcard handlers: the all-ones word. -/
def CP_WILDCARD_COLLISION_TYPE : Nat := 2 ^ cpHashValueBits - 1

/-- Modelled from the spec: `cpHashSetFind(set, hash, key)` returns the
element of the first bin stored under `hash` that the set's equality function
accepts, or `NULL`. -/
def cpHashSetFind (set : cpHashSet) (hash : Nat) (eql : Ptr → Bool) : Option Ptr :=
  (set.find? (fun bin => bin.hash == hash && eql bin.elt)).map cpHashSetBin.elt

/-- Modelled from the spec: the insertion step of `cpHashSetInsert` once the
factory has produced the element `elt`: a new bin in front. -/
def cpHashSetPush (set : cpHashSet) (hash : Nat) (elt : Ptr) : cpHashSet :=
  { hash := hash, elt := elt } :: set

/-- Modelled from the spec: `cpSpatialIndexInsert(index, obj, hashid)`; an
object already stored under that id is not stored twice. -/
def cpSpatialIndexInsert (index : cpSpatialIndex) (obj : Ptr) (hashid : Nat) : cpSpatialIndex :=
  if (obj, hashid) ∈ index.entries then index else { entries := index.entries ++ [(obj, hashid)] }

/-- Modelled from the spec: `cpSpatialIndexRemove(index, obj, hashid)`. -/
def cpSpatialIndexRemove (index : cpSpatialIndex) (obj : Ptr) (hashid : Nat) : cpSpatialIndex :=
  { entries := index.entries.filter (fun e => !(e.1 == obj && e.2 == hashid)) }

/-- Modelled from the spec: `cpBodyIsStatic`, the static/dynamic
classification of a body. -/
def cpBodyIsStatic (w : World) (body : Ptr) : Bool :=
  (w.bodies body).type == cpBodyType.CP_BODY_TYPE_STATIC

/-- Modelled from the spec: `cpBodyActivate` (cpSpaceComponent.c is not part
of `src/`) wakes a body.  The call is recorded; the embedding covers bodies
that are awake, for which waking moves nothing between the collections of the
space. -/
def cpBodyActivate (w : World) (body : Ptr) : World :=
  w.emit (Event.bodyActivate body)

/-- Modelled from the spec: `cpBodyActivateStatic(body, filter)` wakes the
dynamic bodies resting against the shape `filter` of a static body.  The call
is recorded. -/
def cpBodyActivateStatic (w : World) (body : Ptr) (filter : Option Ptr) : World :=
  w.emit (Event.bodyActivateStatic body filter)

/-- Modelled from the spec: `cpBodyAddShape` threads the shape on the shape
list of the body (cpBody.c is not part of `src/`).  The call is recorded. -/
def cpBodyAddShape (w : World) (body shape : Ptr) : World :=
  w.emit (Event.bodyAddShape body shape)

/-- Modelled from the spec: `cpBodyRemoveShape` detaches the shape from the
shape list of the body.  The call is recorded. -/
def cpBodyRemoveShape (w : World) (body shape : Ptr) : World :=
  w.emit (Event.bodyRemoveShape body shape)

/-- Modelled from the spec: `cpShapeUpdate` recomputes the bounding box of the
shape under the transform of its body.  The call is recorded. -/
def cpShapeUpdate (w : World) (shape : Ptr) : World :=
  w.emit (Event.shapeUpdate shape)

/-- Modelled from the spec: `cpShapeCacheBB` recomputes the bounding box of
one shape.  The call is recorded. -/
def cpShapeCacheBB (w : World) (shape : Ptr) : World :=
  w.emit (Event.shapeCacheBB shape)

/-- Modelled from the spec: `cpArbiterUnthread` takes the arbiter off the
contact-graph links of its two bodies.  The call is recorded. -/
def cpArbiterUnthread (w : World) (arb : Ptr) : World :=
  w.emit (Event.arbiterUnthread arb)

/-- Modelled from the spec: `cpConstraintNext` (absent private header), the
successor of `node` on the intrusive constraint list of `body`. -/
def cpConstraintNext (node : cpConstraint) (body : Ptr) : Option Ptr :=
  if node.a = some body then node.next_a else node.next_b

/-- Modelled from the spec: `cpBodyRemoveConstraint` unthreads the constraint
from the constraint list of the body: the link of that list pointing at the
constraint (the head of the list or the link of its predecessor) is redirected
to its successor. -/
def cpBodyRemoveConstraint (w : World) (body : Ptr) (constraint : Ptr) : World :=
  let succ := cpConstraintNext (w.joints constraint) body
  let relink : cpConstraint → cpConstraint := fun node =>
    if node.a = some body then
      (if node.next_a = some constraint then { node with next_a := succ } else node)
    else if node.b = some body then
      (if node.next_b = some constraint then { node with next_b := succ } else node)
    else node
  { w with
    bodies := fun p =>
      if p = body ∧ (w.bodies p).constraintList = some constraint then
        { w.bodies p with constraintList := succ }
      else w.bodies p
    joints := fun p => if p = constraint then w.joints p else relink (w.joints p) }

/-- Modelled from the spec: `cpSpaceLock` (cpSpaceStep.c is not part of
`src/`) increments the lock counter. -/
def cpSpaceLock (w : World) : World :=
  { w with space := { w.space with locked := w.space.locked + 1 } }

/-- Modelled from the spec: `cpSpaceUnlock` decrements the lock counter and,
only when it reaches zero and `runPostStep` is set, drains the queue of
deferred post-step callbacks; each drained callback is recorded. -/
def cpSpaceUnlock (w : World) (runPostStep : Bool) : World :=
  let w1 : World := { w with space := { w.space with locked := w.space.locked - 1 } }
  if w1.space.locked = 0 ∧ runPostStep = true then
    { w1 with
      space := { w1.space with postStepCallbacks := [] }
      trace := w1.trace ++ w1.space.postStepCallbacks.map Event.postStep }
  else w1

/-- Modelled from the spec: `cpBodyInitStatic` leaves a static body that
belongs to no space and carries no constraint and no component link. -/
def cpBodyInitStatic : cpBody :=
  { type := cpBodyType.CP_BODY_TYPE_STATIC, space := none, constraintList := none, next := none }

/-- Dereference a handler pointer. -/
def World.handlerAt (w : World) : HandlerRef → cpCollisionHandler
  | HandlerRef.spaceDefault => w.space.defaultHandler
  | HandlerRef.heap addr => w.handlers addr
  | HandlerRef.globalDoNothing =>
    { typeA := CP_WILDCARD_COLLISION_TYPE, typeB := CP_WILDCARD_COLLISION_TYPE,
      beginFunc := cpCollisionBoolFunc.AlwaysCollide,
      preSolveFunc := cpCollisionBoolFunc.AlwaysCollide,
      postSolveFunc := cpCollisionVoidFunc.DoNothing,
      separateFunc := cpCollisionVoidFunc.DoNothing, userData := none }

/-! ## `cpSpace.c` -/

/-- Equality function of `cachedArbiters` (`arbiterSetEql`). -/
def arbiterSetEql (a b : Ptr) (arb : cpArbiter) : Bool :=
  (a == arb.a && b == arb.b) || (b == arb.a && a == arb.b)

/-- Equality function of `collisionHandlers` (`handlerSetEql`). -/
def handlerSetEql (check pair : cpCollisionHandler) : Bool :=
  (check.typeA == pair.typeA && check.typeB == pair.typeB) ||
  (check.typeB == pair.typeA && check.typeA == pair.typeB)

/-- Transformation function of `collisionHandlers` (`handlerSetTrans`): a
freshly allocated copy of the record. -/
def handlerSetTrans (w : World) (handler : cpCollisionHandler) : Ptr × World :=
  (w.handlerBrk,
    { w with handlers := Function.update w.handlers w.handlerBrk handler
             handlerBrk := w.handlerBrk + 1 })

/-- The static record `cpCollisionHandlerDefault`. -/
def cpCollisionHandlerDefault : cpCollisionHandler :=
  { typeA := CP_WILDCARD_COLLISION_TYPE, typeB := CP_WILDCARD_COLLISION_TYPE,
    beginFunc := cpCollisionBoolFunc.DefaultBegin,
    preSolveFunc := cpCollisionBoolFunc.DefaultPreSolve,
    postSolveFunc := cpCollisionVoidFunc.DefaultPostSolve,
    separateFunc := cpCollisionVoidFunc.DefaultSeparate, userData := none }

/-- The global record `cpCollisionHandlerDoNothing`. -/
def cpCollisionHandlerDoNothing : cpCollisionHandler :=
  { typeA := CP_WILDCARD_COLLISION_TYPE, typeB := CP_WILDCARD_COLLISION_TYPE,
    beginFunc := cpCollisionBoolFunc.AlwaysCollide,
    preSolveFunc := cpCollisionBoolFunc.AlwaysCollide,
    postSolveFunc := cpCollisionVoidFunc.DoNothing,
    separateFunc := cpCollisionVoidFunc.DoNothing, userData := none }

/-- The initialiser `cpSpaceInit`: every collection empty, the do-nothing
default handler, and the embedded static body pushed on `otherBodies`. -/
def cpSpaceInit (w : World) : World :=
  { w with
    space :=
      { iterations := 10
        collisionPersistence := 3
        locked := 0
        stamp := 0
        shapeIDCounter := 0
        staticShapes := { entries := [] }
        dynamicShapes := { entries := [] }
        allocatedBuffers := []
        dynamicBodies := []
        otherBodies := cpArrayPush [] w.staticBody
        sleepingComponents := []
        rousedBodies := []
        arbiters := []
        pooledArbiters := []
        cachedArbiters := []
        constraints := []
        usesWildcards := false
        defaultHandler := cpCollisionHandlerDoNothing
        collisionHandlers := []
        postStepCallbacks := []
        skipPostStep := false }
    bodies := Function.update w.bodies w.staticBody { cpBodyInitStatic with space := some w.self } }

/-- The accessor `cpSpaceGetStaticBody`: slot 0 of `otherBodies` (`NULL` when
the array holds nothing). -/
def cpSpaceGetStaticBody (w : World) : Option Ptr :=
  w.space.otherBodies.head?

/-- The switch `cpSpaceUseWildcardDefaultHandler`. -/
def cpSpaceUseWildcardDefaultHandler (w : World) : World :=
  if !w.space.usesWildcards then
    { w with space := { w.space with usesWildcards := true
                                     defaultHandler := cpCollisionHandlerDefault } }
  else w

/-- The entry point `cpSpaceAddDefaultCollisionHandler`. -/
def cpSpaceAddDefaultCollisionHandler (w : World) : HandlerRef × World :=
  (HandlerRef.spaceDefault, cpSpaceUseWildcardDefaultHandler w)

/-- Modelled from the spec: `cpHashSetInsert` on `collisionHandlers`,
"insert-with-factory": the element already stored for the key, or else a new
bin holding the copy made by `handlerSetTrans`. -/
def collisionHandlersInsert (w : World) (hash : Nat) (temp : cpCollisionHandler) : Ptr × World :=
  match cpHashSetFind w.space.collisionHandlers hash (fun p => handlerSetEql temp (w.handlers p)) with
  | some handler => (handler, w)
  | none =>
    let r := handlerSetTrans w temp
    (r.1, { r.2 with space :=
      { r.2.space with collisionHandlers := cpHashSetPush r.2.space.collisionHandlers hash r.1 } })

/-- The entry point `cpSpaceAddCollisionHandler`. -/
def cpSpaceAddCollisionHandler (w : World) (a b : Nat) : Ptr × World :=
  let hash := CP_HASH_PAIR a b
  let temp : cpCollisionHandler :=
    { typeA := a, typeB := b,
      beginFunc := cpCollisionBoolFunc.DefaultBegin,
      preSolveFunc := cpCollisionBoolFunc.DefaultPreSolve,
      postSolveFunc := cpCollisionVoidFunc.DefaultPostSolve,
      separateFunc := cpCollisionVoidFunc.DefaultSeparate, userData := none }
  match cpHashSetFind w.space.collisionHandlers hash (fun p => handlerSetEql temp (w.handlers p)) with
  | some handler => (handler, w)
  | none => collisionHandlersInsert w hash temp

/-- The entry point `cpSpaceAddWildcardHandler`. -/
def cpSpaceAddWildcardHandler (w : World) (type : Nat) : Ptr × World :=
  let w1 := cpSpaceUseWildcardDefaultHandler w
  let hash := CP_HASH_PAIR type CP_WILDCARD_COLLISION_TYPE
  let temp : cpCollisionHandler :=
    { typeA := type, typeB := CP_WILDCARD_COLLISION_TYPE,
      beginFunc := cpCollisionBoolFunc.AlwaysCollide,
      preSolveFunc := cpCollisionBoolFunc.AlwaysCollide,
      postSolveFunc := cpCollisionVoidFunc.DoNothing,
      separateFunc := cpCollisionVoidFunc.DoNothing, userData := none }
  match cpHashSetFind w1.space.collisionHandlers hash (fun p => handlerSetEql temp (w1.handlers p)) with
  | some handler => (handler, w1)
  | none => collisionHandlersInsert w1 hash temp

/-- The query `cpSpaceContainsShape`. -/
def cpSpaceContainsShape (w : World) (shape : Ptr) : Bool :=
  (w.shapes shape).space == some w.self

/-- The query `cpSpaceContainsBody`. -/
def cpSpaceContainsBody (w : World) (body : Ptr) : Bool :=
  (w.bodies body).space == some w.self

/-- The query `cpSpaceContainsConstraint`. -/
def cpSpaceContainsConstraint (w : World) (constraint : Ptr) : Bool :=
  (w.joints constraint).space == some w.self

/-- The entry point `cpSpaceAddShape`. -/
def cpSpaceAddShape (w : World) (shape : Ptr) : Res Ptr :=
  let body := (w.shapes shape).body
  if (w.shapes shape).space = some w.self then Res.fatal Fatal.alreadyInThisSpace w
  else if (w.shapes shape).space ≠ none then Res.fatal Fatal.alreadyInAnotherSpace w
  else if w.space.locked ≠ 0 then Res.fatal Fatal.spaceLocked w
  else
    let isStatic := cpBodyIsStatic w body
    let w1 := if !isStatic then cpBodyActivate w body else w
    let w2 := cpBodyAddShape w1 body shape
    let w3 : World :=
      { w2 with
        shapes := Function.update w2.shapes shape
          { w2.shapes shape with hashid := w2.space.shapeIDCounter }
        space := { w2.space with
          shapeIDCounter := (w2.space.shapeIDCounter + 1) % 2 ^ cpHashValueBits } }
    let w4 := cpShapeUpdate w3 shape
    let w5 : World :=
      if isStatic then
        { w4 with space := { w4.space with
            staticShapes := cpSpatialIndexInsert w4.space.staticShapes shape (w4.shapes shape).hashid } }
      else
        { w4 with space := { w4.space with
            dynamicShapes := cpSpatialIndexInsert w4.space.dynamicShapes shape (w4.shapes shape).hashid } }
    Res.ok shape
      { w5 with
        shapes := Function.update w5.shapes shape { w5.shapes shape with space := some w5.self } }

/-- The entry point `cpSpaceAddBody`. -/
def cpSpaceAddBody (w : World) (body : Ptr) : Res Ptr :=
  if (w.bodies body).space = some w.self then Res.fatal Fatal.alreadyInThisSpace w
  else if (w.bodies body).space ≠ none then Res.fatal Fatal.alreadyInAnotherSpace w
  else if w.space.locked ≠ 0 then Res.fatal Fatal.spaceLocked w
  else
    let w1 : World :=
      if cpBodyIsStatic w body then
        { w with space := { w.space with otherBodies := cpArrayPush w.space.otherBodies body } }
      else
        { w with space := { w.space with dynamicBodies := cpArrayPush w.space.dynamicBodies body } }
    Res.ok body
      { w1 with
        bodies := Function.update w1.bodies body { w1.bodies body with space := some w1.self } }

/-- The entry point `cpSpaceAddConstraint`. -/
def cpSpaceAddConstraint (w : World) (constraint : Ptr) : Res Ptr :=
  if (w.joints constraint).space = some w.self then Res.fatal Fatal.alreadyInThisSpace w
  else if (w.joints constraint).space ≠ none then Res.fatal Fatal.alreadyInAnotherSpace w
  else
    match (w.joints constraint).a, (w.joints constraint).b with
    | some a, some b =>
      if w.space.locked ≠ 0 then Res.fatal Fatal.spaceLocked w
      else
        let w1 := cpBodyActivate w a
        let w2 := cpBodyActivate w1 b
        let w3 : World :=
          { w2 with space := { w2.space with constraints := cpArrayPush w2.space.constraints constraint } }
        let w4 : World :=
          { w3 with
            joints := Function.update w3.joints constraint
              { w3.joints constraint with next_a := (w3.bodies a).constraintList }
            bodies := Function.update w3.bodies a
              { w3.bodies a with constraintList := some constraint } }
        let w5 : World :=
          { w4 with
            joints := Function.update w4.joints constraint
              { w4.joints constraint with next_b := (w4.bodies b).constraintList }
            bodies := Function.update w4.bodies b
              { w4.bodies b with constraintList := some constraint } }
        Res.ok constraint
          { w5 with
            joints := Function.update w5.joints constraint
              { w5.joints constraint with space := some w5.self } }
    | _, _ => Res.fatal Fatal.nullBody w

/-- The context `struct arbiterFilterContext`; its `space` member is the space
of the world. -/
structure arbiterFilterContext where
  body : Ptr
  shape : Option Ptr
  deriving DecidableEq, Repr

/-- The match test of `cachedArbitersFilter`: on the filter shape, or if it is
`NULL` on the filter body. -/
def arbiterMatches (arb : cpArbiter) (context : arbiterFilterContext) : Bool :=
  (context.body == arb.body_a && (context.shape == some arb.a || context.shape == none)) ||
  (context.body == arb.body_b && (context.shape == some arb.b || context.shape == none))

/-- The filter function `cachedArbitersFilter`: `false` evicts the arbiter. -/
def cachedArbitersFilter (w : World) (arb : Ptr) (context : arbiterFilterContext) : Bool × World :=
  if arbiterMatches (w.arbs arb) context then
    let w1 : World :=
      if context.shape ≠ none ∧ (w.arbs arb).state ≠ cpArbiterState.CP_ARBITER_STATE_CACHED then
        let wi : World :=
          { w with
            arbs := Function.update w.arbs arb
              { w.arbs arb with state := cpArbiterState.CP_ARBITER_STATE_INVALIDATED } }
        let handler := wi.handlerAt (wi.arbs arb).handler
        wi.emit (Event.separate handler.separateFunc arb handler.userData
          (wi.arbs arb).state wi.space.locked)
      else w
    let w2 := cpArbiterUnthread w1 arb
    let w3 : World :=
      { w2 with space := { w2.space with arbiters := cpArrayDeleteObj w2.space.arbiters arb } }
    let w4 : World :=
      { w3 with space := { w3.space with pooledArbiters := cpArrayPush w3.space.pooledArbiters arb } }
    (false, w4)
  else (true, w)

/-- Modelled from the spec: `cpHashSetFilter`, "filtered delete during
iteration": the function runs on every element in turn and the bins for which
it answers `false` are dropped. -/
def cpHashSetFilter (func : World → Ptr → Bool × World) : World → cpHashSet → World × cpHashSet
  | w, [] => (w, [])
  | w, bin :: rest =>
    let r := func w bin.elt
    let t := cpHashSetFilter func r.2 rest
    (t.1, if r.1 then bin :: t.2 else t.2)

/-- The routine `cpSpaceFilterArbiters`. -/
def cpSpaceFilterArbiters (w : World) (body : Ptr) (filter : Option Ptr) : World :=
  let w1 := cpSpaceLock w
  let context : arbiterFilterContext := { body := body, shape := filter }
  let r := cpHashSetFilter (fun v arb => cachedArbitersFilter v arb context) w1 w1.space.cachedArbiters
  let w2 : World := { r.1 with space := { r.1.space with cachedArbiters := r.2 } }
  cpSpaceUnlock w2 true

/-- The entry point `cpSpaceRemoveShape`. -/
def cpSpaceRemoveShape (w : World) (shape : Ptr) : Res Unit :=
  let body := (w.shapes shape).body
  if !cpSpaceContainsShape w shape then Res.fatal Fatal.notInSpace w
  else if w.space.locked ≠ 0 then Res.fatal Fatal.spaceLocked w
  else
    let isStatic := cpBodyIsStatic w body
    let w1 := if isStatic then cpBodyActivateStatic w body (some shape) else cpBodyActivate w body
    let w2 := cpBodyRemoveShape w1 body shape
    let w3 := cpSpaceFilterArbiters w2 body (some shape)
    let w4 : World :=
      if isStatic then
        { w3 with space := { w3.space with
            staticShapes := cpSpatialIndexRemove w3.space.staticShapes shape (w3.shapes shape).hashid } }
      else
        { w3 with space := { w3.space with
            dynamicShapes := cpSpatialIndexRemove w3.space.dynamicShapes shape (w3.shapes shape).hashid } }
    Res.ok ()
      { w4 with
        shapes := Function.update w4.shapes shape
          { w4.shapes shape with space := none, hashid := 0 } }

/-- The entry point `cpSpaceRemoveBody`. -/
def cpSpaceRemoveBody (w : World) (body : Ptr) : Res Unit :=
  if some body = cpSpaceGetStaticBody w then Res.fatal Fatal.designatedStaticBody w
  else if !cpSpaceContainsBody w body then Res.fatal Fatal.notInSpace w
  else if w.space.locked ≠ 0 then Res.fatal Fatal.spaceLocked w
  else
    let w1 := cpBodyActivate w body
    let w2 : World :=
      if cpBodyIsStatic w1 body then
        { w1 with space := { w1.space with otherBodies := cpArrayDeleteObj w1.space.otherBodies body } }
      else
        { w1 with space := { w1.space with dynamicBodies := cpArrayDeleteObj w1.space.dynamicBodies body } }
    Res.ok ()
      { w2 with
        bodies := Function.update w2.bodies body { w2.bodies body with space := none } }

/-- The entry point `cpSpaceRemoveConstraint`.  The endpoints of a member
constraint are not `NULL`; a `NULL` endpoint is skipped. -/
def cpSpaceRemoveConstraint (w : World) (constraint : Ptr) : Res Unit :=
  if !cpSpaceContainsConstraint w constraint then Res.fatal Fatal.notInSpace w
  else if w.space.locked ≠ 0 then Res.fatal Fatal.spaceLocked w
  else
    let onBody (f : World → Ptr → World) (v : World) (p : Option Ptr) : World :=
      match p with
      | some q => f v q
      | none => v
    let a := (w.joints constraint).a
    let b := (w.joints constraint).b
    let w1 := onBody cpBodyActivate w a
    let w2 := onBody cpBodyActivate w1 b
    let w3 : World :=
      { w2 with space := { w2.space with constraints := cpArrayDeleteObj w2.space.constraints constraint } }
    let w4 := onBody (fun v q => cpBodyRemoveConstraint v q constraint) w3 a
    let w5 := onBody (fun v q => cpBodyRemoveConstraint v q constraint) w4 b
    Res.ok ()
      { w5 with
        joints := Function.update w5.joints constraint
          { w5.joints constraint with space := none } }

/-- Modelled from the spec: `cpSpatialIndexEach` visits every stored object,
in storage order. -/
def cpSpatialIndexEach (index : cpSpatialIndex) : List Ptr :=
  index.entries.map Prod.fst

/-- The iterator `cpSpaceEachShape` (with `spaceEachShapeIterator`): the
dynamic index, then the static index, inside a lock bracket. -/
def cpSpaceEachShape (w : World) (func : Nat) (data : Option Ptr) : World :=
  let w1 := cpSpaceLock w
  let visit (v : World) (shape : Ptr) : World :=
    v.emit (Event.shapeIter func shape data v.space.locked)
  let w2 := (cpSpatialIndexEach w1.space.dynamicShapes).foldl visit w1
  let w3 := (cpSpatialIndexEach w2.space.staticShapes).foldl visit w2
  cpSpaceUnlock w3 true

/-- The routine `cpSpaceReindexStatic`; rebuilding an index keeps its
entries. -/
def cpSpaceReindexStatic (w : World) : Res Unit :=
  if w.space.locked ≠ 0 then Res.fatal Fatal.spaceLocked w
  else Res.ok () ((cpSpatialIndexEach w.space.staticShapes).foldl cpShapeUpdate w)

/-- The routine `cpSpaceReindexShape`; rehashing an object keeps the entries
of both indices. -/
def cpSpaceReindexShape (w : World) (shape : Ptr) : Res Unit :=
  if w.space.locked ≠ 0 then Res.fatal Fatal.spaceLocked w
  else Res.ok () (cpShapeCacheBB w shape)

/-- The inner `while(body)` loop of `cpSpaceEachBody`: the walk along the
`next` pointers of one sleeping component.  The fuel bounds the number of
passes through the loop; `none` means the fuel ran out before `NULL` was
reached. -/
def eachBodyComponent (func : Nat) (data : Option Ptr) : Nat → World → Option Ptr → Option World
  | _, w, none => some w
  | 0, _, some _ => none
  | fuel + 1, w, some body =>
    let next := (w.bodies body).next
    eachBodyComponent func data fuel (w.emit (Event.bodyIter func body data w.space.locked)) next

/-- The iterator `cpSpaceEachBody`: the dynamic bodies in array order, then
every sleeping component from its root, inside a lock bracket. -/
def cpSpaceEachBody (fuel : Nat) (w : World) (func : Nat) (data : Option Ptr) : Option World :=
  let w1 := cpSpaceLock w
  let w2 := w1.space.dynamicBodies.foldl
    (fun (v : World) (body : Ptr) => v.emit (Event.bodyIter func body data v.space.locked)) w1
  let w3 := w2.space.sleepingComponents.foldl
    (fun (acc : Option World) (root : Ptr) =>
      acc.bind (fun v => eachBodyComponent func data fuel v (some root))) (some w2)
  w3.map (fun v => cpSpaceUnlock v true)

/-- The iterator `cpSpaceEachConstraint`: the constraints in array order,
inside a lock bracket. -/
def cpSpaceEachConstraint (w : World) (func : Nat) (data : Option Ptr) : World :=
  let w1 := cpSpaceLock w
  let w2 := w1.space.constraints.foldl
    (fun (v : World) (constraint : Ptr) =>
      v.emit (Event.constraintIter func constraint data v.space.locked)) w1
  cpSpaceUnlock w2 true

/-- Modelled from the spec: `cpSpaceHashNew` (cpSpaceHash.c is not part of
`src/`) builds an empty grid index; the cell size and the expected occupancy
do not decide which objects it holds. -/
def cpSpaceHashNew (_dim : Rat) (_count : Int) : cpSpatialIndex :=
  { entries := [] }

/-- The visitor `copyShapes`: insert the shape under its own `hashid`. -/
def copyShapes (w : World) (shape : Ptr) (index : cpSpatialIndex) : cpSpatialIndex :=
  cpSpatialIndexInsert index shape (w.shapes shape).hashid

/-- The routine `cpSpaceUseSpatialHash`: two new grid indices, every shape of
the old indices copied over, the old indices released and replaced. -/
def cpSpaceUseSpatialHash (w : World) (dim : Rat) (count : Int) : World :=
  let staticShapes := cpSpaceHashNew dim count
  let dynamicShapes := cpSpaceHashNew dim count
  let staticShapes1 := (cpSpatialIndexEach w.space.staticShapes).foldl
    (fun index shape => copyShapes w shape index) staticShapes
  let dynamicShapes1 := (cpSpatialIndexEach w.space.dynamicShapes).foldl
    (fun index shape => copyShapes w shape index) dynamicShapes
  { w with space := { w.space with staticShapes := staticShapes1, dynamicShapes := dynamicShapes1 } }

/-- Modelled from the spec: the bodies a call `cpBodyActivateStatic(body,
filter)` wakes: for every cached arbiter against `body` whose shape on either
side is `filter` (any arbiter against `body` when `filter` is `NULL`), the
body on the other side, if it is dynamic. -/
def cpBodyActivateStaticWakes (w : World) (body : Ptr) (filter : Option Ptr) : List Ptr :=
  ((w.space.cachedArbiters.filter (fun bin =>
      ((w.arbs bin.elt).body_a == body || (w.arbs bin.elt).body_b == body) &&
      (filter == none || filter == some (w.arbs bin.elt).a ||
        filter == some (w.arbs bin.elt).b))).map
    (fun bin =>
      if (w.arbs bin.elt).body_a = body then (w.arbs bin.elt).body_b
      else (w.arbs bin.elt).body_a)).filter
    (fun p => (w.bodies p).type == cpBodyType.CP_BODY_TYPE_DYNAMIC)

/-! ## What the handler callbacks of `cpSpace.c` compute -/

/-- The side of an arbiter a wildcard call looks at. -/
inductive Side where
  | A
  | B
  deriving DecidableEq, Repr

/-- The four callbacks of a handler. -/
inductive Phase where
  | begin
  | preSolve
  | postSolve
  | separate
  deriving DecidableEq, Repr

/-- What a running callback does that can be observed from outside: a call of
one of the `cpArbiterCallWildcard...` routines, or a call of a function of the
caller. -/
inductive Invocation where
  | wildcard (phase : Phase) (side : Side) (arb : Ptr)
  | userBool (id : Nat) (arb : Ptr) (data : Option Ptr)
  | userVoid (id : Nat) (arb : Ptr) (data : Option Ptr)
  deriving DecidableEq, Repr

/-- The outcome of a callback returning `cpBool`: its value and what it
invoked; `none` when the nesting of calls exceeds the fuel. -/
abbrev BoolOutcome := Option (Bool × List Invocation)

/-- The outcome of a callback returning `void`: what it invoked. -/
abbrev VoidOutcome := Option (List Invocation)

/-- The operator `&&` of C on two calls: the right call is not made when the
left one answers false. -/
def shortCircuitAnd (x y : BoolOutcome) : BoolOutcome :=
  match x with
  | none => none
  | some (false, t) => some (false, t)
  | some (true, t) => y.map (fun r => (r.1, t ++ r.2))

/-- Two calls in sequence. -/
def inSequence (x y : VoidOutcome) : VoidOutcome :=
  match x, y with
  | some s, some t => some (s ++ t)
  | _, _ => none

/-- Modelled from the spec: the single-type wildcard handler registered for
the collision type of the shape on one side of the arbiter, if there is one. -/
def wildcardHandler (w : World) (side : Side) (arb : Ptr) : Option cpCollisionHandler :=
  let shape := match side with
    | Side.A => (w.arbs arb).a
    | Side.B => (w.arbs arb).b
  let type := (w.shapes shape).type
  let temp : cpCollisionHandler :=
    { typeA := type, typeB := CP_WILDCARD_COLLISION_TYPE,
      beginFunc := cpCollisionBoolFunc.AlwaysCollide,
      preSolveFunc := cpCollisionBoolFunc.AlwaysCollide,
      postSolveFunc := cpCollisionVoidFunc.DoNothing,
      separateFunc := cpCollisionVoidFunc.DoNothing, userData := none }
  (cpHashSetFind w.space.collisionHandlers (CP_HASH_PAIR type CP_WILDCARD_COLLISION_TYPE)
    (fun p => handlerSetEql temp (w.handlers p))).map w.handlers

/-- Modelled from the spec: `cpArbiterCallWildcardBeginA/B` and
`cpArbiterCallWildcardPreSolveA/B` (cpArbiter.c is not part of `src/`)
dispatch to the wildcard handler of the shape on that side if one is
registered, and answer true otherwise.  `call` runs a function pointer. -/
def cpArbiterCallWildcardBool (w : World)
    (call : cpCollisionBoolFunc → Ptr → Option Ptr → BoolOutcome)
    (phase : Phase) (side : Side) (arb : Ptr) : BoolOutcome :=
  match wildcardHandler w side arb with
  | none => some (true, [Invocation.wildcard phase side arb])
  | some h =>
    (call (if phase = Phase.begin then h.beginFunc else h.preSolveFunc) arb h.userData).map
      (fun r => (r.1, Invocation.wildcard phase side arb :: r.2))

/-- Modelled from the spec: `cpArbiterCallWildcardPostSolveA/B` and
`cpArbiterCallWildcardSeparateA/B` dispatch to the wildcard handler of the
shape on that side if one is registered. -/
def cpArbiterCallWildcardVoid (w : World)
    (call : cpCollisionVoidFunc → Ptr → Option Ptr → VoidOutcome)
    (phase : Phase) (side : Side) (arb : Ptr) : VoidOutcome :=
  match wildcardHandler w side arb with
  | none => some [Invocation.wildcard phase side arb]
  | some h =>
    (call (if phase = Phase.postSolve then h.postSolveFunc else h.separateFunc) arb h.userData).map
      (fun r => Invocation.wildcard phase side arb :: r)

/-- The static function `DefaultBegin`. -/
def DefaultBegin (w : World) (call : cpCollisionBoolFunc → Ptr → Option Ptr → BoolOutcome)
    (arb : Ptr) : BoolOutcome :=
  shortCircuitAnd (cpArbiterCallWildcardBool w call Phase.begin Side.A arb)
    (cpArbiterCallWildcardBool w call Phase.begin Side.B arb)

/-- The static function `DefaultPreSolve`. -/
def DefaultPreSolve (w : World) (call : cpCollisionBoolFunc → Ptr → Option Ptr → BoolOutcome)
    (arb : Ptr) : BoolOutcome :=
  shortCircuitAnd (cpArbiterCallWildcardBool w call Phase.preSolve Side.A arb)
    (cpArbiterCallWildcardBool w call Phase.preSolve Side.B arb)

/-- The static function `DefaultPostSolve`. -/
def DefaultPostSolve (w : World) (call : cpCollisionVoidFunc → Ptr → Option Ptr → VoidOutcome)
    (arb : Ptr) : VoidOutcome :=
  inSequence (cpArbiterCallWildcardVoid w call Phase.postSolve Side.A arb)
    (cpArbiterCallWildcardVoid w call Phase.postSolve Side.B arb)

/-- The static function `DefaultSeparate`. -/
def DefaultSeparate (w : World) (call : cpCollisionVoidFunc → Ptr → Option Ptr → VoidOutcome)
    (arb : Ptr) : VoidOutcome :=
  inSequence (cpArbiterCallWildcardVoid w call Phase.separate Side.A arb)
    (cpArbiterCallWildcardVoid w call Phase.separate Side.B arb)

/-- The static function `AlwaysCollide`. -/
def AlwaysCollide : BoolOutcome := some (true, [])

/-- The static function `DoNothing`. -/
def DoNothing : VoidOutcome := some []

/-- Run the function behind a `beginFunc` / `preSolveFunc` pointer on an
arbiter.  `user id arb` is the answer of the caller's function `id`; the fuel
bounds the nesting of handler calls. -/
def callBool (user : Nat → Ptr → Bool) (w : World) :
    Nat → cpCollisionBoolFunc → Ptr → Option Ptr → BoolOutcome
  | 0, _, _, _ => none
  | _ + 1, cpCollisionBoolFunc.AlwaysCollide, _, _ => AlwaysCollide
  | _ + 1, cpCollisionBoolFunc.user id, arb, data =>
    some (user id arb, [Invocation.userBool id arb data])
  | n + 1, cpCollisionBoolFunc.DefaultBegin, arb, _ =>
    DefaultBegin w (fun f a d => callBool user w n f a d) arb
  | n + 1, cpCollisionBoolFunc.DefaultPreSolve, arb, _ =>
    DefaultPreSolve w (fun f a d => callBool user w n f a d) arb

/-- Run the function behind a `postSolveFunc` / `separateFunc` pointer on an
arbiter. -/
def callVoid (w : World) : Nat → cpCollisionVoidFunc → Ptr → Option Ptr → VoidOutcome
  | 0, _, _, _ => none
  | _ + 1, cpCollisionVoidFunc.DoNothing, _, _ => DoNothing
  | _ + 1, cpCollisionVoidFunc.user id, arb, data => some [Invocation.userVoid id arb data]
  | n + 1, cpCollisionVoidFunc.DefaultPostSolve, arb, _ =>
    DefaultPostSolve w (fun f a d => callVoid w n f a d) arb
  | n + 1, cpCollisionVoidFunc.DefaultSeparate, arb, _ =>
    DefaultSeparate w (fun f a d => callVoid w n f a d) arb

/-! ## Call sequences -/

/-- The state an outcome carries. -/
def Res.world {α : Type} : Res α → World
  | Res.ok _ w => w
  | Res.fatal _ w => w

/-- A call of one of the handler registration entry points. -/
inductive HandlerCall where
  | addCollisionHandler (a b : Nat)
  | addWildcardHandler (type : Nat)
  | addDefaultCollisionHandler
  deriving DecidableEq, Repr

/-- Make one registration call; the returned record is left unedited. -/
def HandlerCall.run (w : World) : HandlerCall → World
  | HandlerCall.addCollisionHandler a b => (cpSpaceAddCollisionHandler w a b).2
  | HandlerCall.addWildcardHandler type => (cpSpaceAddWildcardHandler w type).2
  | HandlerCall.addDefaultCollisionHandler => (cpSpaceAddDefaultCollisionHandler w).2

/-- Whether the call is `cpSpaceAddWildcardHandler` or
`cpSpaceAddDefaultCollisionHandler`. -/
def HandlerCall.engagesWildcards : HandlerCall → Bool
  | HandlerCall.addCollisionHandler _ _ => false
  | _ => true

/-- The states reachable from `cpSpaceInit` by successful `cpSpaceAddBody` and
`cpSpaceRemoveBody` calls. -/
inductive ReachableByBodyCalls : World → Prop where
  | init (w0 : World) : ReachableByBodyCalls (cpSpaceInit w0)
  | addBody {w w1 : World} (body : Ptr) :
      ReachableByBodyCalls w → cpSpaceAddBody w body = Res.ok body w1 → ReachableByBodyCalls w1
  | removeBody {w w1 : World} (body : Ptr) :
      ReachableByBodyCalls w → cpSpaceRemoveBody w body = Res.ok () w1 → ReachableByBodyCalls w1

/-- The states reachable from `cpSpaceInit`, run on memory in which no shape
names the space as its owner, by successful `cpSpaceAddShape` and
`cpSpaceRemoveShape` calls; the index counts the successful adds. -/
inductive ReachableByShapeCalls : Nat → World → Prop where
  | init (w0 : World) (fresh : ∀ shape, (w0.shapes shape).space ≠ some w0.self) :
      ReachableByShapeCalls 0 (cpSpaceInit w0)
  | addShape {n : Nat} {w w1 : World} (shape : Ptr) :
      ReachableByShapeCalls n w → cpSpaceAddShape w shape = Res.ok shape w1 →
      ReachableByShapeCalls (n + 1) w1
  | removeShape {n : Nat} {w w1 : World} (shape : Ptr) :
      ReachableByShapeCalls n w → cpSpaceRemoveShape w shape = Res.ok () w1 →
      ReachableByShapeCalls n w1

/-- The states reachable from `cpSpaceInit`, run on memory in which no body
and no constraint names the space as its owner, by successful
`cpSpaceAddBody`, `cpSpaceRemoveBody`, `cpSpaceAddConstraint` and
`cpSpaceRemoveConstraint` calls. -/
inductive ReachableByBodyAndConstraintCalls : World → Prop where
  | init (w0 : World) (freshBodies : ∀ body, (w0.bodies body).space ≠ some w0.self)
      (freshJoints : ∀ constraint, (w0.joints constraint).space ≠ some w0.self) :
      ReachableByBodyAndConstraintCalls (cpSpaceInit w0)
  | addBody {w w1 : World} (body : Ptr) :
      ReachableByBodyAndConstraintCalls w → cpSpaceAddBody w body = Res.ok body w1 →
      ReachableByBodyAndConstraintCalls w1
  | removeBody {w w1 : World} (body : Ptr) :
      ReachableByBodyAndConstraintCalls w → cpSpaceRemoveBody w body = Res.ok () w1 →
      ReachableByBodyAndConstraintCalls w1
  | addConstraint {w w1 : World} (constraint : Ptr) :
      ReachableByBodyAndConstraintCalls w →
      cpSpaceAddConstraint w constraint = Res.ok constraint w1 →
      ReachableByBodyAndConstraintCalls w1
  | removeConstraint {w w1 : World} (constraint : Ptr) :
      ReachableByBodyAndConstraintCalls w →
      cpSpaceRemoveConstraint w constraint = Res.ok () w1 →
      ReachableByBodyAndConstraintCalls w1

/-- No record of `collisionHandlers` carries the tag pair `a`, `b` in either
order. -/
def Unregistered (w : World) (a b : Nat) : Prop :=
  ∀ bin ∈ w.space.collisionHandlers,
    ¬ (((w.handlers bin.elt).typeA = a ∧ (w.handlers bin.elt).typeB = b) ∨
       ((w.handlers bin.elt).typeA = b ∧ (w.handlers bin.elt).typeB = a))

/-! ## Observations on states and traces -/

/-- The shape handed to the callback, for an event of `cpSpaceEachShape`. -/
def Event.iteratedShape : Event → Option Ptr
  | Event.shapeIter _ shape _ _ => some shape
  | _ => none

/-- The shapes passed to the callback by the events `es`, in order. -/
def shapesPassed (es : List Event) : List Ptr :=
  es.filterMap Event.iteratedShape

/-- The lock counter a callback runs under, for the events that are calls of
a callback of the caller (iterator callbacks and `separate`). -/
def Event.callbackLocked : Event → Option Nat
  | Event.separate _ _ _ _ locked => some locked
  | Event.bodyIter _ _ _ locked => some locked
  | Event.shapeIter _ _ _ locked => some locked
  | Event.constraintIter _ _ _ locked => some locked
  | _ => none

/-- The lock counters under which the callbacks among the events `es` ran,
one entry for each call. -/
def callbackLocks (es : List Event) : List Nat :=
  es.filterMap Event.callbackLocked

/-- Whether the event is a call that wakes bodies: the general activation
`cpBodyActivate` or the static path `cpBodyActivateStatic`. -/
def Event.isActivation : Event → Bool
  | Event.bodyActivate _ => true
  | Event.bodyActivateStatic _ _ => true
  | _ => false

/-- The activation calls among the events `es`, in order. -/
def activations (es : List Event) : List Event :=
  es.filter Event.isActivation

/-- The bookkeeping of shapes is consistent: an entry of the dynamic index is
a member shape on a non-static body, an entry of the static index is a member
shape on a static body, both are stored under the shape's `hashid`, and every
member shape has its entry in the index its body's classification selects. -/
def ShapesIndexed (w : World) : Prop :=
  (∀ e ∈ w.space.dynamicShapes.entries,
    (w.shapes e.1).space = some w.self ∧ e.2 = (w.shapes e.1).hashid ∧
    cpBodyIsStatic w (w.shapes e.1).body = false) ∧
  (∀ e ∈ w.space.staticShapes.entries,
    (w.shapes e.1).space = some w.self ∧ e.2 = (w.shapes e.1).hashid ∧
    cpBodyIsStatic w (w.shapes e.1).body = true) ∧
  (∀ shape, (w.shapes shape).space = some w.self →
    (shape, (w.shapes shape).hashid) ∈
      (if cpBodyIsStatic w (w.shapes shape).body then w.space.staticShapes.entries
       else w.space.dynamicShapes.entries))

/-- Every entry of the two spatial indices is stored under the current
`hashid` of its shape. -/
def IndexedByHashid (w : World) : Prop :=
  (∀ e ∈ w.space.dynamicShapes.entries, e.2 = (w.shapes e.1).hashid) ∧
  (∀ e ∈ w.space.staticShapes.entries, e.2 = (w.shapes e.1).hashid)

/-- The arbiter a `separate` callback was invoked on. -/
def Event.separatedArbiter : Event → Option Ptr
  | Event.separate _ arb _ _ _ => some arb
  | _ => none

/-- The arbiters on which the events `es` invoke a `separate` callback, one
entry for each invocation. -/
def separateCalls (es : List Event) : List Ptr :=
  es.filterMap Event.separatedArbiter

/-- The state with everything `cpSpaceFilterArbiters` may touch blanked out:
arbiter states, the three arbiter collections, the post-step queue and the
trace.  Two states with the same `core` differ in nothing else. -/
def World.core (w : World) : World :=
  { w with
    arbs := fun p => { w.arbs p with state := cpArbiterState.CP_ARBITER_STATE_CACHED }
    trace := []
    space := { w.space with arbiters := [], pooledArbiters := [], cachedArbiters := [],
                            postStepCallbacks := [] } }

/-- The events one run of `cachedArbitersFilter` on `arb` appends to the
trace, read off the state before the run. -/
def filterEvents (w : World) (context : arbiterFilterContext) (arb : Ptr) : List Event :=
  if arbiterMatches (w.arbs arb) context then
    (if context.shape ≠ none ∧ (w.arbs arb).state ≠ cpArbiterState.CP_ARBITER_STATE_CACHED then
      [Event.separate (w.handlerAt (w.arbs arb).handler).separateFunc arb
        (w.handlerAt (w.arbs arb).handler).userData
        cpArbiterState.CP_ARBITER_STATE_INVALIDATED w.space.locked]
    else []) ++ [Event.arbiterUnthread arb]
  else []

/-- Whether a run of `cachedArbitersFilter` on `arb` calls the handler's
`separate` function: the arbiter matches, a filter shape was given and the
arbiter is not in the cached state. -/
def separateDue (w : World) (context : arbiterFilterContext) (arb : Ptr) : Bool :=
  arbiterMatches (w.arbs arb) context && context.shape.isSome &&
    decide ((w.arbs arb).state ≠ cpArbiterState.CP_ARBITER_STATE_CACHED)

/-- Every shape stored in a spatial index of the space has its `space` field
set to the space. -/
def IndexedShapesBelong (w : World) : Prop :=
  (∀ e ∈ w.space.dynamicShapes.entries, (w.shapes e.1).space = some w.self) ∧
  (∀ e ∈ w.space.staticShapes.entries, (w.shapes e.1).space = some w.self)

/-- The containment queries agree with the collections: a body is reported a
member exactly when it occurs in `otherBodies` (static) or `dynamicBodies`
(otherwise), a constraint exactly when it occurs in `constraints`, and no
array holds an object twice. -/
def CollectionsAgree (w : World) : Prop :=
  (∀ body, cpSpaceContainsBody w body = true ↔
    if cpBodyIsStatic w body then body ∈ w.space.otherBodies
    else body ∈ w.space.dynamicBodies) ∧
  (∀ constraint, cpSpaceContainsConstraint w constraint = true ↔
    constraint ∈ w.space.constraints) ∧
  w.space.otherBodies.Nodup ∧ w.space.dynamicBodies.Nodup ∧ w.space.constraints.Nodup

/-- A zeroed block of memory: the space at address 1, its static body at
address 0, every object dynamic, unowned and unlinked. -/
def blankWorld : World :=
  { self := 1
    staticBody := 0
    space :=
      { iterations := 0, collisionPersistence := 0, locked := 0, stamp := 0, shapeIDCounter := 0
        staticShapes := { entries := [] }, dynamicShapes := { entries := [] }
        allocatedBuffers := [], dynamicBodies := [], otherBodies := []
        sleepingComponents := [], rousedBodies := [], arbiters := [], pooledArbiters := []
        cachedArbiters := [], constraints := [], usesWildcards := false
        defaultHandler := cpCollisionHandlerDoNothing, collisionHandlers := []
        postStepCallbacks := [], skipPostStep := false }
    bodies := fun _ =>
      { type := cpBodyType.CP_BODY_TYPE_DYNAMIC, space := none, constraintList := none, next := none }
    shapes := fun p => { body := p + 10, space := none, hashid := 0, type := p }
    joints := fun p =>
      { space := none, a := some (p + 10), b := some (p + 11), next_a := none, next_b := none }
    arbs := fun p =>
      { a := p, b := p + 1, body_a := p + 10, body_b := p + 11
        state := cpArbiterState.CP_ARBITER_STATE_NORMAL, handler := HandlerRef.spaceDefault }
    handlers := fun _ => cpCollisionHandlerDoNothing
    handlerBrk := 0
    trace := [] }

/-- A freshly initialised space. -/
def freshWorld : World := cpSpaceInit blankWorld

/-- A space inside a lock bracket. -/
def lockedWorld : World := cpSpaceLock freshWorld

/-- A space to which shape 3, body 5 and constraint 2 have been added. -/
def ownedWorld : World :=
  (cpSpaceAddConstraint (cpSpaceAddBody (cpSpaceAddShape freshWorld 3).world 5).world 2).world

/-- A space in which the caller registered a wildcard handler for type 1 and
stored its own function 0 as the begin callback of the returned record. -/
def vetoWorld : World :=
  let r := cpSpaceAddWildcardHandler freshWorld 1
  { r.2 with
    handlers := Function.update r.2.handlers r.1
      { r.2.handlers r.1 with beginFunc := cpCollisionBoolFunc.user 0 } }

/-- A caller whose functions all answer false. -/
def vetoUser : Nat → Ptr → Bool := fun _ _ => false

/-- The wildcard handlers of the two shapes of an arbiter, where registered,
still carry the callbacks `cpSpaceAddWildcardHandler` installs. -/
def WildcardsUnedited (w : World) (arb : Ptr) : Prop :=
  ∀ side h, wildcardHandler w side arb = some h →
    h.beginFunc = cpCollisionBoolFunc.AlwaysCollide ∧
    h.preSolveFunc = cpCollisionBoolFunc.AlwaysCollide ∧
    h.postSolveFunc = cpCollisionVoidFunc.DoNothing ∧
    h.separateFunc = cpCollisionVoidFunc.DoNothing

/-- A space whose cache holds arbiter 1 (shapes 1 and 2, bodies 11 and 12, in
the normal state) and arbiter 3 (shapes 3 and 4, bodies 13 and 14, in the
cached state); shapes 1 to 4 are members. -/
def cacheWorld : World :=
  { freshWorld with
    shapes := fun p =>
      if 1 ≤ p ∧ p ≤ 4 then { freshWorld.shapes p with space := some freshWorld.self }
      else freshWorld.shapes p
    arbs := fun p =>
      if p = 3 then
        { freshWorld.arbs p with state := cpArbiterState.CP_ARBITER_STATE_CACHED }
      else freshWorld.arbs p
    space := { freshWorld.space with
      arbiters := [1]
      cachedArbiters := [{ hash := 0, elt := 1 }, { hash := 1, elt := 3 }] } }

/-- A fresh space to which body 5 was added and from which it was removed
again. -/
def bodyWorld : World :=
  (cpSpaceRemoveBody (cpSpaceAddBody freshWorld 5).world 5).world

/-- A fresh space to which shapes 3 and 4 were added and from which shape 3
was removed again. -/
def shapeWorld : World :=
  (cpSpaceRemoveShape (cpSpaceAddShape (cpSpaceAddShape freshWorld 3).world 4).world 3).world

/-- The space `cacheWorld` with body 11, the body of shape 1 and one side of
the cached arbiter 1, added as a member. -/
def cachedBodyWorld : World :=
  (cpSpaceAddBody cacheWorld 11).world

/-- A fresh space next to constraint 2 whose two endpoints are the same body
12, and constraint 4 whose second endpoint is `NULL`. -/
def loopWorld : World :=
  { freshWorld with
    joints := fun p =>
      if p = 2 then { freshWorld.joints p with a := some 12, b := some 12 }
      else if p = 4 then { freshWorld.joints p with b := none }
      else freshWorld.joints p }

/-- The space `cacheWorld` with body 11, the body of shape 1, made static, and
with a second cached arbiter 5 between shape 5 of that body and shape 6 of
body 16. -/
def staticShapeWorld : World :=
  { cacheWorld with
    bodies := fun p =>
      if p = 11 then { cacheWorld.bodies p with type := cpBodyType.CP_BODY_TYPE_STATIC }
      else cacheWorld.bodies p
    shapes := fun p =>
      if p = 5 then { cacheWorld.shapes p with body := 11, space := some cacheWorld.self }
      else cacheWorld.shapes p
    arbs := fun p =>
      if p = 5 then { cacheWorld.arbs p with body_a := 11, body_b := 16 }
      else cacheWorld.arbs p
    space := { cacheWorld.space with
      cachedArbiters :=
        [{ hash := 0, elt := 1 }, { hash := 1, elt := 3 }, { hash := 2, elt := 5 }] } }

/-- A fresh space with the dynamic bodies 20 and 21 and two sleeping
components: 30, 31, 32 and 40. -/
def sleepyWorld : World :=
  { freshWorld with
    bodies := fun p =>
      if p = 30 then { freshWorld.bodies p with next := some 31 }
      else if p = 31 then { freshWorld.bodies p with next := some 32 }
      else freshWorld.bodies p
    space := { freshWorld.space with
      dynamicBodies := [20, 21]
      sleepingComponents := [30, 40] } }

/-- A zeroed block of memory in which body 14 is static. -/
def staticBlankWorld : World :=
  { blankWorld with
    bodies := Function.update blankWorld.bodies 14
      { blankWorld.bodies 14 with type := cpBodyType.CP_BODY_TYPE_STATIC } }

/-- A space to which bodies 12, 13 and 14 and constraints 2 and 3 were added
and from which constraint 2 and body 12 were removed again. -/
def jointWorld : World :=
  (cpSpaceRemoveBody (cpSpaceRemoveConstraint (cpSpaceAddConstraint (cpSpaceAddConstraint
    (cpSpaceAddBody (cpSpaceAddBody (cpSpaceAddBody (cpSpaceInit staticBlankWorld) 12).world
      13).world 14).world 2).world 3).world 2).world 12).world

/-- A space in wildcard mode whose caller stored a `beginFunc` callback and user
data in the record returned by `cpSpaceAddDefaultCollisionHandler`. -/
def editedWorld : World :=
  { (cpSpaceAddDefaultCollisionHandler freshWorld).2 with
    space :=
      { (cpSpaceAddDefaultCollisionHandler freshWorld).2.space with
        defaultHandler :=
          { cpCollisionHandlerDefault with
            beginFunc := cpCollisionBoolFunc.user 7, userData := some 9 } } }

theorem emit_foldl_trace (g : Ptr → Nat → Event) (xs : List Ptr) (v : World) :
    xs.foldl (fun (u : World) (s : Ptr) => u.emit (g s u.space.locked)) v =
      { v with trace := v.trace ++ xs.map (fun s => g s v.space.locked) } := by
  induction xs generalizing v with
  | nil => simp
  | cons x xs ih =>
    rw [List.foldl_cons, ih]
    simp [World.emit]

theorem shapesPassed_append (xs ys : List Event) :
    shapesPassed (xs ++ ys) = shapesPassed xs ++ shapesPassed ys := by
  simp [shapesPassed]

theorem shapesPassed_shapeIter (f : Nat) (d : Option Ptr) (n : Nat) (xs : List Ptr) :
    shapesPassed (xs.map (fun s => Event.shapeIter f s d n)) = xs := by
  induction xs with
  | nil => rfl
  | cons x xs ih =>
    simp only [shapesPassed, List.map_cons, List.filterMap_cons, Event.iteratedShape] at ih ⊢
    rw [ih]

theorem shapesPassed_postStep (cs : List Ptr) :
    shapesPassed (cs.map Event.postStep) = [] := by
  induction cs with
  | nil => rfl
  | cons x xs ih =>
    simp only [shapesPassed, List.map_cons, List.filterMap_cons, Event.iteratedShape] at ih ⊢
    exact ih

/-- The shapes `cpSpaceEachShape` hands to the callback are those of the
dynamic index followed by those of the static index. -/
theorem shapesPassed_cpSpaceEachShape (w : World) (f : Nat) (d : Option Ptr) :
    shapesPassed (emitted w (cpSpaceEachShape w f d)) =
      cpSpatialIndexEach w.space.dynamicShapes ++ cpSpatialIndexEach w.space.staticShapes := by
  simp only [cpSpaceEachShape, emit_foldl_trace (fun s n => Event.shapeIter f s d n)]
  simp only [cpSpaceUnlock, cpSpaceLock, emitted]
  split_ifs <;>
    simp [shapesPassed_append, shapesPassed_shapeIter, shapesPassed_postStep, List.append_assoc]

/-! ## What `cpSpaceFilterArbiters` leaves alone -/

theorem cachedArbitersFilter_core (w : World) (arb : Ptr) (context : arbiterFilterContext) :
    (cachedArbitersFilter w arb context).2.core = w.core := by
  unfold cachedArbitersFilter
  split_ifs with h1 h2
  · simp only [World.core, World.emit, cpArbiterUnthread, World.mk.injEq, true_and, and_true]
    funext p
    by_cases hp : p = arb
    · subst hp; simp
    · simp [Function.update_noteq hp]
  · simp [World.core, World.emit, cpArbiterUnthread]
  · rfl

theorem cpHashSetFilter_core (context : arbiterFilterContext) (set : cpHashSet) (w : World) :
    (cpHashSetFilter (fun v arb => cachedArbitersFilter v arb context) w set).1.core = w.core := by
  induction set generalizing w with
  | nil => rfl
  | cons bin rest ih =>
    simp only [cpHashSetFilter]
    rw [ih, cachedArbitersFilter_core]

theorem cpSpaceFilterArbiters_core (w : World) (body : Ptr) (filter : Option Ptr) :
    (cpSpaceFilterArbiters w body filter).core = w.core := by
  have h := cpHashSetFilter_core { body := body, shape := filter }
    (cpSpaceLock w).space.cachedArbiters (cpSpaceLock w)
  simp only [cpSpaceFilterArbiters, cpSpaceUnlock]
  generalize cpHashSetFilter _ (cpSpaceLock w) _ = r at h ⊢
  obtain ⟨v, kept⟩ := r
  simp only [World.core, cpSpaceLock, World.mk.injEq, cpSpace.mk.injEq] at h
  obtain ⟨h1, h2, h3, h4, h5, h6, h7, h8, h9⟩ := h
  obtain ⟨g1, g2, g3, g4, g5, g6, g7, g8, g9, g10, g11, g12, g13, g14, g15, g16, g17, g18, g19,
    g20, g21⟩ := h3
  split_ifs <;>
    simp [World.core, h1, h2, h4, h5, h6, h7, h8, h9.1, g1, g2, g3, g4, g5, g6, g7, g8, g9, g10,
      g11, g12, g16, g17, g18, g19, g21]

theorem core_shapes {w v : World} (h : v.core = w.core) : v.shapes = w.shapes :=
  congrArg (fun u => u.shapes) h

theorem core_bodies {w v : World} (h : v.core = w.core) : v.bodies = w.bodies :=
  congrArg (fun u => u.bodies) h

theorem core_self {w v : World} (h : v.core = w.core) : v.self = w.self :=
  congrArg (fun u => u.self) h

theorem core_dynamicShapes {w v : World} (h : v.core = w.core) :
    v.space.dynamicShapes = w.space.dynamicShapes :=
  congrArg (fun u => u.space.dynamicShapes) h

theorem core_staticShapes {w v : World} (h : v.core = w.core) :
    v.space.staticShapes = w.space.staticShapes :=
  congrArg (fun u => u.space.staticShapes) h

theorem core_locked {w v : World} (h : v.core = w.core) : v.space.locked = w.space.locked :=
  congrArg (fun u => u.space.locked) h

/-! ## Adding and removing a shape -/

theorem not_mem_entries_of_unowned {w : World} {S : Ptr} (hS : (w.shapes S).space = none)
    {index : cpSpatialIndex} (h : ∀ e ∈ index.entries, (w.shapes e.1).space = some w.self) :
    ∀ e ∈ index.entries, e.1 ≠ S := by
  intro e he heq
  have := h e he
  rw [heq, hS] at this
  exact Option.noConfusion this

theorem cpSpatialIndexEach_insert_mem (index : cpSpatialIndex) (S : Ptr) (id : Nat) :
    S ∈ cpSpatialIndexEach (cpSpatialIndexInsert index S id) := by
  unfold cpSpatialIndexInsert cpSpatialIndexEach
  split_ifs with h
  · exact List.mem_map.mpr ⟨(S, id), h, rfl⟩
  · simp

theorem cpSpatialIndexEach_remove_insert (index : cpSpatialIndex) (S : Ptr) (id : Nat)
    (h : ∀ e ∈ index.entries, e.1 ≠ S) :
    S ∉ cpSpatialIndexEach (cpSpatialIndexRemove (cpSpatialIndexInsert index S id) S id) := by
  unfold cpSpatialIndexInsert cpSpatialIndexEach cpSpatialIndexRemove
  intro hmem
  obtain ⟨e, he, heq⟩ := List.mem_map.mp hmem
  split_ifs at he with hin
  · exact h e (List.mem_filter.mp he).1 heq
  · rcases List.mem_filter.mp he with ⟨he1, he2⟩
    rcases List.mem_append.mp he1 with he3 | he3
    · exact h e he3 heq
    · simp at he3
      subst he3
      simp at he2

theorem not_mem_cpSpatialIndexEach (index : cpSpatialIndex) (S : Ptr)
    (h : ∀ e ∈ index.entries, e.1 ≠ S) : S ∉ cpSpatialIndexEach index := by
  unfold cpSpatialIndexEach
  intro hmem
  obtain ⟨e, he, heq⟩ := List.mem_map.mp hmem
  exact h e he heq

/-- What a successful `cpSpaceAddShape` does to the fields the space keeps for
shapes. -/
theorem cpSpaceAddShape_ok (w : World) (S : Ptr) (hlock : w.space.locked = 0)
    (hS : (w.shapes S).space = none) :
    ∃ w1, cpSpaceAddShape w S = Res.ok S w1 ∧
      w1.self = w.self ∧ w1.bodies = w.bodies ∧ w1.space.locked = 0 ∧
      w1.shapes S = { w.shapes S with hashid := w.space.shapeIDCounter, space := some w.self } ∧
      (∀ p, p ≠ S → w1.shapes p = w.shapes p) ∧
      w1.space.shapeIDCounter = (w.space.shapeIDCounter + 1) % 2 ^ cpHashValueBits ∧
      w1.space.staticShapes =
        (if cpBodyIsStatic w (w.shapes S).body then
          cpSpatialIndexInsert w.space.staticShapes S w.space.shapeIDCounter
        else w.space.staticShapes) ∧
      w1.space.dynamicShapes =
        (if cpBodyIsStatic w (w.shapes S).body then w.space.dynamicShapes
        else cpSpatialIndexInsert w.space.dynamicShapes S w.space.shapeIDCounter) := by
  by_cases hst : cpBodyIsStatic w (w.shapes S).body = true
  · refine ⟨_, by simp [cpSpaceAddShape, hS, hlock, hst]; rfl, ?_⟩
    simp [cpBodyAddShape, cpShapeUpdate, World.emit, hlock, hst]
    intro p hp
    simp [Function.update_noteq hp]
  · refine ⟨_, by simp [cpSpaceAddShape, hS, hlock, hst]; rfl, ?_⟩
    simp [cpBodyAddShape, cpShapeUpdate, cpBodyActivate, World.emit, hlock, hst]
    intro p hp
    simp [Function.update_noteq hp]

/-- What a successful `cpSpaceRemoveShape` does to the fields the space keeps
for shapes. -/
theorem cpSpaceRemoveShape_ok (w : World) (S : Ptr) (hlock : w.space.locked = 0)
    (hS : (w.shapes S).space = some w.self) :
    ∃ w2, cpSpaceRemoveShape w S = Res.ok () w2 ∧
      w2.self = w.self ∧ w2.bodies = w.bodies ∧ w2.space.locked = 0 ∧
      w2.shapes S = { w.shapes S with space := none, hashid := 0 } ∧
      (∀ p, p ≠ S → w2.shapes p = w.shapes p) ∧
      w2.space.shapeIDCounter = w.space.shapeIDCounter ∧
      w2.space.staticShapes =
        (if cpBodyIsStatic w (w.shapes S).body then
          cpSpatialIndexRemove w.space.staticShapes S (w.shapes S).hashid
        else w.space.staticShapes) ∧
      w2.space.dynamicShapes =
        (if cpBodyIsStatic w (w.shapes S).body then w.space.dynamicShapes
        else cpSpatialIndexRemove w.space.dynamicShapes S (w.shapes S).hashid) := by
  by_cases hst : cpBodyIsStatic w (w.shapes S).body = true
  · have hc := cpSpaceFilterArbiters_core
      (cpBodyRemoveShape (cpBodyActivateStatic w (w.shapes S).body (some S)) (w.shapes S).body S)
      (w.shapes S).body (some S)
    have e1 : (cpSpaceFilterArbiters _ _ _).self = w.self := core_self hc
    have e2 : (cpSpaceFilterArbiters _ _ _).bodies = w.bodies := core_bodies hc
    have e3 : (cpSpaceFilterArbiters _ _ _).space.locked = w.space.locked := core_locked hc
    have e4 : (cpSpaceFilterArbiters _ _ _).shapes = w.shapes := core_shapes hc
    have e5 : (cpSpaceFilterArbiters _ _ _).space.staticShapes = w.space.staticShapes :=
      core_staticShapes hc
    have e6 : (cpSpaceFilterArbiters _ _ _).space.dynamicShapes = w.space.dynamicShapes :=
      core_dynamicShapes hc
    have e7 : (cpSpaceFilterArbiters _ _ _).space.shapeIDCounter = w.space.shapeIDCounter :=
      congrArg (fun u => u.space.shapeIDCounter) hc
    refine ⟨_, by
      simp only [cpSpaceRemoveShape, cpSpaceContainsShape, hS, hlock, hst, beq_self_eq_true,
        Bool.not_true, Bool.false_eq_true, if_false, if_true, ne_eq, not_true_eq_false]
      rfl, ?_⟩
    simp only [e1, e2, e3, e4, e5, e6, e7, hlock, hst, if_true, Function.update_same, true_and,
      and_true]
    intro p hp
    simp [Function.update_noteq hp]
  · have hc := cpSpaceFilterArbiters_core
      (cpBodyRemoveShape (cpBodyActivate w (w.shapes S).body) (w.shapes S).body S)
      (w.shapes S).body (some S)
    have e1 : (cpSpaceFilterArbiters _ _ _).self = w.self := core_self hc
    have e2 : (cpSpaceFilterArbiters _ _ _).bodies = w.bodies := core_bodies hc
    have e3 : (cpSpaceFilterArbiters _ _ _).space.locked = w.space.locked := core_locked hc
    have e4 : (cpSpaceFilterArbiters _ _ _).shapes = w.shapes := core_shapes hc
    have e5 : (cpSpaceFilterArbiters _ _ _).space.staticShapes = w.space.staticShapes :=
      core_staticShapes hc
    have e6 : (cpSpaceFilterArbiters _ _ _).space.dynamicShapes = w.space.dynamicShapes :=
      core_dynamicShapes hc
    have e7 : (cpSpaceFilterArbiters _ _ _).space.shapeIDCounter = w.space.shapeIDCounter :=
      congrArg (fun u => u.space.shapeIDCounter) hc
    refine ⟨_, by
      simp only [cpSpaceRemoveShape, cpSpaceContainsShape, hS, hlock, hst, beq_self_eq_true,
        Bool.not_true, Bool.false_eq_true, if_false, if_true, ne_eq, not_true_eq_false]
      rfl, ?_⟩
    simp only [e1, e2, e3, e4, e5, e6, e7, hlock, hst, Function.update_same, true_and, and_true,
      Bool.false_eq_true, if_false]
    intro p hp
    simp [Function.update_noteq hp]

/-- C1: in an unlocked space whose indices hold member shapes only, adding a
shape that belongs to no space succeeds, after which `cpSpaceContainsShape` is
true and `cpSpaceEachShape` passes the shape to its callback; removing it right
after succeeds, after which `cpSpaceContainsShape` is false and
`cpSpaceEachShape` no longer passes the shape to its callback. -/
theorem cpSpaceAddShape_then_cpSpaceRemoveShape (w : World) (S : Ptr) (f : Nat) (d : Option Ptr)
    (hlock : w.space.locked = 0) (hS : (w.shapes S).space = none) (hwf : IndexedShapesBelong w) :
    ∃ w1, cpSpaceAddShape w S = Res.ok S w1 ∧
      cpSpaceContainsShape w1 S = true ∧
      S ∈ shapesPassed (emitted w1 (cpSpaceEachShape w1 f d)) ∧
      ∃ w2, cpSpaceRemoveShape w1 S = Res.ok () w2 ∧
        cpSpaceContainsShape w2 S = false ∧
        S ∉ shapesPassed (emitted w2 (cpSpaceEachShape w2 f d)) := by
  have hdyn := not_mem_entries_of_unowned hS hwf.1
  have hsta := not_mem_entries_of_unowned hS hwf.2
  obtain ⟨w1, hadd, hself1, hbod1, hlock1, hS1, -, -, hsta1, hdyn1⟩ := cpSpaceAddShape_ok w S hlock hS
  have hmem1 : (w1.shapes S).space = some w1.self := by rw [hS1, hself1]
  obtain ⟨w2, hrem, hself2, -, -, hS2, -, -, hsta2, hdyn2⟩ := cpSpaceRemoveShape_ok w1 S hlock1 hmem1
  have hb : cpBodyIsStatic w1 (w1.shapes S).body = cpBodyIsStatic w (w.shapes S).body := by
    simp [cpBodyIsStatic, hbod1, hS1]
  have hid : (w1.shapes S).hashid = w.space.shapeIDCounter := by rw [hS1]
  refine ⟨w1, hadd, ?_, ?_, w2, hrem, ?_, ?_⟩
  · simp [cpSpaceContainsShape, hmem1]
  · rw [shapesPassed_cpSpaceEachShape, hsta1, hdyn1]
    by_cases hst : cpBodyIsStatic w (w.shapes S).body = true
    · simp only [hst, if_true]
      exact List.mem_append_right _ (cpSpatialIndexEach_insert_mem _ _ _)
    · simp only [hst]
      exact List.mem_append_left _ (cpSpatialIndexEach_insert_mem _ _ _)
  · simp [cpSpaceContainsShape, hS2]
  · rw [shapesPassed_cpSpaceEachShape, hsta2, hdyn2, hb, hid, hsta1, hdyn1]
    by_cases hst : cpBodyIsStatic w (w.shapes S).body = true
    · simp only [hst, if_true, List.mem_append, not_or]
      exact ⟨not_mem_cpSpatialIndexEach _ _ hdyn, cpSpatialIndexEach_remove_insert _ _ _ hsta⟩
    · simp only [hst, List.mem_append, not_or]
      exact ⟨cpSpatialIndexEach_remove_insert _ _ _ hdyn, not_mem_cpSpatialIndexEach _ _ hsta⟩

theorem indexedShapesBelong_freshWorld : IndexedShapesBelong freshWorld := by
  constructor <;> intro e he <;> simp [freshWorld, cpSpaceInit] at he

theorem cpSpaceAddShape_then_cpSpaceRemoveShape_witness :
    freshWorld.space.locked = 0 ∧ (freshWorld.shapes 3).space = none ∧
    IndexedShapesBelong freshWorld ∧
    ∃ w1, cpSpaceAddShape freshWorld 3 = Res.ok 3 w1 ∧
      cpSpaceContainsShape w1 3 = true ∧
      3 ∈ shapesPassed (emitted w1 (cpSpaceEachShape w1 7 none)) ∧
      ∃ w2, cpSpaceRemoveShape w1 3 = Res.ok () w2 ∧
        cpSpaceContainsShape w2 3 = false ∧
        3 ∉ shapesPassed (emitted w2 (cpSpaceEachShape w2 7 none)) :=
  ⟨rfl, rfl, indexedShapesBelong_freshWorld,
    cpSpaceAddShape_then_cpSpaceRemoveShape freshWorld 3 7 none rfl rfl
      indexedShapesBelong_freshWorld⟩

/-! ## Fatal paths -/

/-- C2: `cpSpaceAddShape`, `cpSpaceAddBody` and `cpSpaceAddConstraint` abort
on an object whose `space` field is not `NULL` (this space or another), and the
state at the abort is the state before the call: nothing was woken, no
collection was touched, `shapeIDCounter` did not move. -/
theorem add_of_owned_object_is_fatal (w : World) :
    (∀ shape, (w.shapes shape).space ≠ none →
      cpSpaceAddShape w shape = Res.fatal
        (if (w.shapes shape).space = some w.self then Fatal.alreadyInThisSpace
         else Fatal.alreadyInAnotherSpace) w) ∧
    (∀ body, (w.bodies body).space ≠ none →
      cpSpaceAddBody w body = Res.fatal
        (if (w.bodies body).space = some w.self then Fatal.alreadyInThisSpace
         else Fatal.alreadyInAnotherSpace) w) ∧
    (∀ constraint, (w.joints constraint).space ≠ none →
      cpSpaceAddConstraint w constraint = Res.fatal
        (if (w.joints constraint).space = some w.self then Fatal.alreadyInThisSpace
         else Fatal.alreadyInAnotherSpace) w) := by
  refine ⟨?_, ?_, ?_⟩
  · intro shape h
    unfold cpSpaceAddShape
    by_cases h1 : (w.shapes shape).space = some w.self
    · simp [h1]
    · simp [h1, h]
  · intro body h
    unfold cpSpaceAddBody
    by_cases h1 : (w.bodies body).space = some w.self
    · simp [h1]
    · simp [h1, h]
  · intro constraint h
    unfold cpSpaceAddConstraint
    by_cases h1 : (w.joints constraint).space = some w.self
    · simp [h1]
    · simp [h1, h]

/-- C3: with a lock counter above zero, each of the eight mutating entry
points aborts, whatever its other argument, and the state at the abort,
`locked` included, is the state before the call. -/
theorem locked_space_mutation_is_fatal (w : World) (hl : 0 < w.space.locked) :
    (∀ shape, ∃ err, cpSpaceAddShape w shape = Res.fatal err w) ∧
    (∀ body, ∃ err, cpSpaceAddBody w body = Res.fatal err w) ∧
    (∀ constraint, ∃ err, cpSpaceAddConstraint w constraint = Res.fatal err w) ∧
    (∀ shape, ∃ err, cpSpaceRemoveShape w shape = Res.fatal err w) ∧
    (∀ body, ∃ err, cpSpaceRemoveBody w body = Res.fatal err w) ∧
    (∀ constraint, ∃ err, cpSpaceRemoveConstraint w constraint = Res.fatal err w) ∧
    cpSpaceReindexStatic w = Res.fatal Fatal.spaceLocked w ∧
    (∀ shape, cpSpaceReindexShape w shape = Res.fatal Fatal.spaceLocked w) := by
  have hne : w.space.locked ≠ 0 := Nat.pos_iff_ne_zero.mp hl
  refine ⟨?_, ?_, ?_, ?_, ?_, ?_, ?_, ?_⟩
  · intro shape
    unfold cpSpaceAddShape
    split_ifs <;> exact ⟨_, rfl⟩
  · intro body
    unfold cpSpaceAddBody
    split_ifs <;> exact ⟨_, rfl⟩
  · intro constraint
    unfold cpSpaceAddConstraint
    split_ifs
    · exact ⟨_, rfl⟩
    · exact ⟨_, rfl⟩
    · split <;> exact ⟨_, rfl⟩
  · intro shape
    unfold cpSpaceRemoveShape
    split_ifs <;> exact ⟨_, rfl⟩
  · intro body
    unfold cpSpaceRemoveBody
    split_ifs <;> exact ⟨_, rfl⟩
  · intro constraint
    unfold cpSpaceRemoveConstraint
    split_ifs <;> exact ⟨_, rfl⟩
  · unfold cpSpaceReindexStatic
    rw [if_pos hne]
  · intro shape
    unfold cpSpaceReindexShape
    rw [if_pos hne]

theorem add_of_owned_object_is_fatal_witness :
    (ownedWorld.shapes 3).space ≠ none ∧ (ownedWorld.bodies 5).space ≠ none ∧
    (ownedWorld.joints 2).space ≠ none ∧
    cpSpaceAddShape ownedWorld 3 = Res.fatal
      (if (ownedWorld.shapes 3).space = some ownedWorld.self then Fatal.alreadyInThisSpace
       else Fatal.alreadyInAnotherSpace) ownedWorld ∧
    cpSpaceAddBody ownedWorld 5 = Res.fatal
      (if (ownedWorld.bodies 5).space = some ownedWorld.self then Fatal.alreadyInThisSpace
       else Fatal.alreadyInAnotherSpace) ownedWorld ∧
    cpSpaceAddConstraint ownedWorld 2 = Res.fatal
      (if (ownedWorld.joints 2).space = some ownedWorld.self then Fatal.alreadyInThisSpace
       else Fatal.alreadyInAnotherSpace) ownedWorld :=
  ⟨by decide, by decide, by decide,
    (add_of_owned_object_is_fatal ownedWorld).1 3 (by decide),
    (add_of_owned_object_is_fatal ownedWorld).2.1 5 (by decide),
    (add_of_owned_object_is_fatal ownedWorld).2.2 2 (by decide)⟩

theorem locked_space_mutation_is_fatal_witness :
    0 < lockedWorld.space.locked ∧
    (∀ shape, ∃ err, cpSpaceAddShape lockedWorld shape = Res.fatal err lockedWorld) ∧
    (∀ body, ∃ err, cpSpaceAddBody lockedWorld body = Res.fatal err lockedWorld) ∧
    (∀ constraint, ∃ err, cpSpaceAddConstraint lockedWorld constraint = Res.fatal err lockedWorld) ∧
    (∀ shape, ∃ err, cpSpaceRemoveShape lockedWorld shape = Res.fatal err lockedWorld) ∧
    (∀ body, ∃ err, cpSpaceRemoveBody lockedWorld body = Res.fatal err lockedWorld) ∧
    (∀ constraint, ∃ err,
      cpSpaceRemoveConstraint lockedWorld constraint = Res.fatal err lockedWorld) ∧
    cpSpaceReindexStatic lockedWorld = Res.fatal Fatal.spaceLocked lockedWorld ∧
    (∀ shape, cpSpaceReindexShape lockedWorld shape = Res.fatal Fatal.spaceLocked lockedWorld) :=
  ⟨by decide, locked_space_mutation_is_fatal lockedWorld (by decide)⟩

/-! ## The handler registry -/

theorem CP_HASH_PAIR_comm (a b : Nat) : CP_HASH_PAIR a b = CP_HASH_PAIR b a := by
  unfold CP_HASH_PAIR
  exact Nat.xor_comm _ _

theorem handlerSetEql_swap (check pair : cpCollisionHandler) :
    handlerSetEql { check with typeA := check.typeB, typeB := check.typeA } pair =
      handlerSetEql check pair := by
  simp only [handlerSetEql]
  exact Bool.or_comm _ _

theorem handlerSetEql_tags (check pair : cpCollisionHandler) :
    handlerSetEql check pair = true ↔
      (pair.typeA = check.typeA ∧ pair.typeB = check.typeB) ∨
      (pair.typeA = check.typeB ∧ pair.typeB = check.typeA) := by
  simp only [handlerSetEql, Bool.or_eq_true, Bool.and_eq_true, beq_iff_eq]
  constructor
  · rintro (⟨h1, h2⟩ | ⟨h1, h2⟩)
    · exact Or.inl ⟨h1.symm, h2.symm⟩
    · exact Or.inr ⟨h1.symm, h2.symm⟩
  · rintro (⟨h1, h2⟩ | ⟨h1, h2⟩)
    · exact Or.inl ⟨h1.symm, h2.symm⟩
    · exact Or.inr ⟨h1.symm, h2.symm⟩

/-- The lookup made by the registration entry points does not depend on the
callbacks of the probe record nor on the order of its two tags. -/
theorem find_handler_swap (w : World) (a b : Nat) (t1 t2 : cpCollisionHandler)
    (h1 : t1.typeA = a ∧ t1.typeB = b) (h2 : t2.typeA = b ∧ t2.typeB = a) :
    cpHashSetFind w.space.collisionHandlers (CP_HASH_PAIR b a)
        (fun p => handlerSetEql t2 (w.handlers p)) =
      cpHashSetFind w.space.collisionHandlers (CP_HASH_PAIR a b)
        (fun p => handlerSetEql t1 (w.handlers p)) := by
  have hp : (fun p => handlerSetEql t2 (w.handlers p)) =
      (fun p => handlerSetEql t1 (w.handlers p)) := by
    funext p
    simp only [handlerSetEql, h1.1, h1.2, h2.1, h2.2]
    exact Bool.or_comm _ _
  rw [hp, CP_HASH_PAIR_comm b a]

theorem find_handler_none_of_unregistered (w : World) (a b : Nat) (t : cpCollisionHandler)
    (ht : t.typeA = a ∧ t.typeB = b) (h : Unregistered w a b) (hash : Nat) :
    cpHashSetFind w.space.collisionHandlers hash (fun p => handlerSetEql t (w.handlers p)) =
      none := by
  unfold cpHashSetFind
  rw [Option.map_eq_none', List.find?_eq_none]
  intro bin hbin hfound
  simp only [Bool.and_eq_true] at hfound
  have := (handlerSetEql_tags t (w.handlers bin.elt)).mp hfound.2
  rw [ht.1, ht.2] at this
  exact h bin hbin this

/-- C4: after `cpSpaceAddCollisionHandler(space, a, b)`, the call with the
tags swapped returns the same handler instance and changes nothing (no new
record in `collisionHandlers`, the record itself untouched); when the first
call is the one that registered the pair the record reads `typeA = a`,
`typeB = b`; `CP_HASH_PAIR` and `handlerSetEql` are symmetric in the tags. -/
theorem cpSpaceAddCollisionHandler_symmetric (w : World) (a b : Nat) :
    (cpSpaceAddCollisionHandler (cpSpaceAddCollisionHandler w a b).2 b a).1 =
      (cpSpaceAddCollisionHandler w a b).1 ∧
    (cpSpaceAddCollisionHandler (cpSpaceAddCollisionHandler w a b).2 b a).2 =
      (cpSpaceAddCollisionHandler w a b).2 ∧
    (Unregistered w a b →
      ((cpSpaceAddCollisionHandler (cpSpaceAddCollisionHandler w a b).2 b a).2.handlers
        (cpSpaceAddCollisionHandler (cpSpaceAddCollisionHandler w a b).2 b a).1).typeA = a ∧
      ((cpSpaceAddCollisionHandler (cpSpaceAddCollisionHandler w a b).2 b a).2.handlers
        (cpSpaceAddCollisionHandler (cpSpaceAddCollisionHandler w a b).2 b a).1).typeB = b) ∧
    CP_HASH_PAIR a b = CP_HASH_PAIR b a ∧
    (∀ check pair : cpCollisionHandler,
      handlerSetEql { check with typeA := check.typeB, typeB := check.typeA } pair =
        handlerSetEql check pair) := by
  have key : cpSpaceAddCollisionHandler (cpSpaceAddCollisionHandler w a b).2 b a =
      cpSpaceAddCollisionHandler w a b := by
    cases hfind : cpHashSetFind w.space.collisionHandlers (CP_HASH_PAIR a b)
        (fun p => handlerSetEql
          { typeA := a, typeB := b,
            beginFunc := cpCollisionBoolFunc.DefaultBegin,
            preSolveFunc := cpCollisionBoolFunc.DefaultPreSolve,
            postSolveFunc := cpCollisionVoidFunc.DefaultPostSolve,
            separateFunc := cpCollisionVoidFunc.DefaultSeparate, userData := none }
          (w.handlers p)) with
    | some h =>
      have h1 : cpSpaceAddCollisionHandler w a b = (h, w) := by
        simp only [cpSpaceAddCollisionHandler, hfind]
      rw [h1]
      simp only [cpSpaceAddCollisionHandler]
      rw [find_handler_swap w a b
        { typeA := a, typeB := b,
          beginFunc := cpCollisionBoolFunc.DefaultBegin,
          preSolveFunc := cpCollisionBoolFunc.DefaultPreSolve,
          postSolveFunc := cpCollisionVoidFunc.DefaultPostSolve,
          separateFunc := cpCollisionVoidFunc.DefaultSeparate, userData := none }
        { typeA := b, typeB := a,
          beginFunc := cpCollisionBoolFunc.DefaultBegin,
          preSolveFunc := cpCollisionBoolFunc.DefaultPreSolve,
          postSolveFunc := cpCollisionVoidFunc.DefaultPostSolve,
          separateFunc := cpCollisionVoidFunc.DefaultSeparate, userData := none }
        ⟨rfl, rfl⟩ ⟨rfl, rfl⟩, hfind]
    | none =>
      have h1 : cpSpaceAddCollisionHandler w a b =
          (w.handlerBrk,
            { w with
              handlers := Function.update w.handlers w.handlerBrk
                { typeA := a, typeB := b,
                  beginFunc := cpCollisionBoolFunc.DefaultBegin,
                  preSolveFunc := cpCollisionBoolFunc.DefaultPreSolve,
                  postSolveFunc := cpCollisionVoidFunc.DefaultPostSolve,
                  separateFunc := cpCollisionVoidFunc.DefaultSeparate, userData := none }
              handlerBrk := w.handlerBrk + 1
              space := { w.space with
                collisionHandlers :=
                  cpHashSetPush w.space.collisionHandlers (CP_HASH_PAIR a b) w.handlerBrk } }) := by
        simp only [cpSpaceAddCollisionHandler, collisionHandlersInsert, hfind, handlerSetTrans]
      rw [h1]
      simp [cpSpaceAddCollisionHandler, cpHashSetFind, cpHashSetPush, CP_HASH_PAIR_comm b a,
        handlerSetEql]
  refine ⟨by rw [key], by rw [key], ?_, CP_HASH_PAIR_comm a b, handlerSetEql_swap⟩
  intro hun
  rw [key]
  have hnone := find_handler_none_of_unregistered w a b
    { typeA := a, typeB := b,
      beginFunc := cpCollisionBoolFunc.DefaultBegin,
      preSolveFunc := cpCollisionBoolFunc.DefaultPreSolve,
      postSolveFunc := cpCollisionVoidFunc.DefaultPostSolve,
      separateFunc := cpCollisionVoidFunc.DefaultSeparate, userData := none }
    ⟨rfl, rfl⟩ hun (CP_HASH_PAIR a b)
  simp [cpSpaceAddCollisionHandler, collisionHandlersInsert, hnone, handlerSetTrans]

theorem cpSpaceAddCollisionHandler_symmetric_witness :
    Unregistered freshWorld 1 2 ∧
    ((cpSpaceAddCollisionHandler (cpSpaceAddCollisionHandler freshWorld 1 2).2 2 1).2.handlers
      (cpSpaceAddCollisionHandler (cpSpaceAddCollisionHandler freshWorld 1 2).2 2 1).1).typeA = 1 ∧
    ((cpSpaceAddCollisionHandler (cpSpaceAddCollisionHandler freshWorld 1 2).2 2 1).2.handlers
      (cpSpaceAddCollisionHandler (cpSpaceAddCollisionHandler freshWorld 1 2).2 2 1).1).typeB = 2 :=
  have h : Unregistered freshWorld 1 2 := by
    intro bin hbin
    simp [freshWorld, cpSpaceInit] at hbin
  ⟨h, (cpSpaceAddCollisionHandler_symmetric freshWorld 1 2).2.2.1 h⟩

theorem callBool_unedited (user : Nat → Ptr → Bool) (v : World) (arb : Ptr) (n : Nat)
    (phase : Phase) (side : Side) (h : WildcardsUnedited v arb) :
    cpArbiterCallWildcardBool v (fun f a d => callBool user v (n + 1) f a d) phase side arb =
      some (true, [Invocation.wildcard phase side arb]) := by
  unfold cpArbiterCallWildcardBool
  cases hw : wildcardHandler v side arb with
  | none => rfl
  | some r =>
    obtain ⟨h1, h2, -, -⟩ := h side r hw
    simp only [h1, h2, ite_self, callBool, AlwaysCollide, Option.map_some']

theorem callVoid_unedited (v : World) (arb : Ptr) (n : Nat)
    (phase : Phase) (side : Side) (h : WildcardsUnedited v arb) :
    cpArbiterCallWildcardVoid v (fun f a d => callVoid v (n + 1) f a d) phase side arb =
      some [Invocation.wildcard phase side arb] := by
  unfold cpArbiterCallWildcardVoid
  cases hw : wildcardHandler v side arb with
  | none => rfl
  | some r =>
    obtain ⟨-, -, h3, h4⟩ := h side r hw
    simp only [h3, h4, ite_self, callVoid, DoNothing, Option.map_some']

/-- C5 (as the code has it): for a pair with no handler registered,
`cpSpaceAddCollisionHandler` returns a fresh record, inserted in front of
`collisionHandlers`, with `typeA = a`, `typeB = b`, null user data and the four
wildcard-dispatching callbacks `DefaultBegin`, `DefaultPreSolve`,
`DefaultPostSolve`, `DefaultSeparate`.  On an arbiter whose two wildcard
handlers are absent or unedited these are pass-through: begin and preSolve
return true, postSolve and separate call no function of the caller. -/
theorem cpSpaceAddCollisionHandler_new (w : World) (a b : Nat) (hun : Unregistered w a b) :
    (cpSpaceAddCollisionHandler w a b).1 = w.handlerBrk ∧
    (cpSpaceAddCollisionHandler w a b).2.space.collisionHandlers =
      { hash := CP_HASH_PAIR a b, elt := w.handlerBrk } :: w.space.collisionHandlers ∧
    (cpSpaceAddCollisionHandler w a b).2.handlers (cpSpaceAddCollisionHandler w a b).1 =
      { typeA := a, typeB := b,
        beginFunc := cpCollisionBoolFunc.DefaultBegin,
        preSolveFunc := cpCollisionBoolFunc.DefaultPreSolve,
        postSolveFunc := cpCollisionVoidFunc.DefaultPostSolve,
        separateFunc := cpCollisionVoidFunc.DefaultSeparate, userData := none } ∧
    (∀ (user : Nat → Ptr → Bool) (v : World) (arb : Ptr) (data : Option Ptr) (n : Nat),
      WildcardsUnedited v arb →
      callBool user v (n + 2)
          ((cpSpaceAddCollisionHandler w a b).2.handlers
            (cpSpaceAddCollisionHandler w a b).1).beginFunc arb data =
        some (true, [Invocation.wildcard Phase.begin Side.A arb,
          Invocation.wildcard Phase.begin Side.B arb]) ∧
      callBool user v (n + 2)
          ((cpSpaceAddCollisionHandler w a b).2.handlers
            (cpSpaceAddCollisionHandler w a b).1).preSolveFunc arb data =
        some (true, [Invocation.wildcard Phase.preSolve Side.A arb,
          Invocation.wildcard Phase.preSolve Side.B arb]) ∧
      callVoid v (n + 2)
          ((cpSpaceAddCollisionHandler w a b).2.handlers
            (cpSpaceAddCollisionHandler w a b).1).postSolveFunc arb data =
        some [Invocation.wildcard Phase.postSolve Side.A arb,
          Invocation.wildcard Phase.postSolve Side.B arb] ∧
      callVoid v (n + 2)
          ((cpSpaceAddCollisionHandler w a b).2.handlers
            (cpSpaceAddCollisionHandler w a b).1).separateFunc arb data =
        some [Invocation.wildcard Phase.separate Side.A arb,
          Invocation.wildcard Phase.separate Side.B arb]) := by
  have hnone := find_handler_none_of_unregistered w a b
    { typeA := a, typeB := b,
      beginFunc := cpCollisionBoolFunc.DefaultBegin,
      preSolveFunc := cpCollisionBoolFunc.DefaultPreSolve,
      postSolveFunc := cpCollisionVoidFunc.DefaultPostSolve,
      separateFunc := cpCollisionVoidFunc.DefaultSeparate, userData := none }
    ⟨rfl, rfl⟩ hun (CP_HASH_PAIR a b)
  have hrec : (cpSpaceAddCollisionHandler w a b).2.handlers (cpSpaceAddCollisionHandler w a b).1 =
      { typeA := a, typeB := b,
        beginFunc := cpCollisionBoolFunc.DefaultBegin,
        preSolveFunc := cpCollisionBoolFunc.DefaultPreSolve,
        postSolveFunc := cpCollisionVoidFunc.DefaultPostSolve,
        separateFunc := cpCollisionVoidFunc.DefaultSeparate, userData := none } := by
    simp [cpSpaceAddCollisionHandler, collisionHandlersInsert, hnone, handlerSetTrans]
  refine ⟨?_, ?_, hrec, ?_⟩
  · simp [cpSpaceAddCollisionHandler, collisionHandlersInsert, hnone, handlerSetTrans]
  · simp [cpSpaceAddCollisionHandler, collisionHandlersInsert, hnone, handlerSetTrans,
      cpHashSetPush]
  · intro user v arb data n hv
    rw [hrec]
    refine ⟨?_, ?_, ?_, ?_⟩
    · simp only [callBool, DefaultBegin, callBool_unedited user v arb n _ _ hv]
      rfl
    · simp only [callBool, DefaultPreSolve, callBool_unedited user v arb n _ _ hv]
      rfl
    · simp only [callVoid, DefaultPostSolve, callVoid_unedited v arb n _ _ hv]
      rfl
    · simp only [callVoid, DefaultSeparate, callVoid_unedited v arb n _ _ hv]
      rfl

theorem unregistered_vetoWorld : Unregistered vetoWorld 1 2 := by
  intro bin hbin
  have : bin = { hash := CP_HASH_PAIR 1 CP_WILDCARD_COLLISION_TYPE, elt := 0 } := by
    simpa [vetoWorld, cpSpaceAddWildcardHandler, cpSpaceUseWildcardDefaultHandler, freshWorld,
      cpSpaceInit, cpHashSetFind, collisionHandlersInsert, handlerSetTrans, cpHashSetPush,
      blankWorld] using hbin
  subst this
  decide

theorem cpSpaceAddCollisionHandler_new_witness :
    Unregistered vetoWorld 1 2 ∧
    (cpSpaceAddCollisionHandler vetoWorld 1 2).2.handlers
        (cpSpaceAddCollisionHandler vetoWorld 1 2).1 =
      { typeA := 1, typeB := 2,
        beginFunc := cpCollisionBoolFunc.DefaultBegin,
        preSolveFunc := cpCollisionBoolFunc.DefaultPreSolve,
        postSolveFunc := cpCollisionVoidFunc.DefaultPostSolve,
        separateFunc := cpCollisionVoidFunc.DefaultSeparate, userData := none } :=
  ⟨unregistered_vetoWorld, (cpSpaceAddCollisionHandler_new vetoWorld 1 2 unregistered_vetoWorld).2.2.1⟩

/-- C5 (counterexample to the claim as stated): types 1 and 2 have no handler
in `vetoWorld`, yet the begin callback of the handler that
`cpSpaceAddCollisionHandler` inserts for them is not `AlwaysCollide`, and on
arbiter 1 (shapes of type 1 and 2) it returns false: it hands the decision to
the wildcard handler of type 1, whose begin function says no. -/
theorem cpSpaceAddCollisionHandler_new_not_pass_through :
    Unregistered vetoWorld 1 2 ∧
    ((cpSpaceAddCollisionHandler vetoWorld 1 2).2.handlers
      (cpSpaceAddCollisionHandler vetoWorld 1 2).1).beginFunc ≠
        cpCollisionBoolFunc.AlwaysCollide ∧
    (callBool vetoUser (cpSpaceAddCollisionHandler vetoWorld 1 2).2 2
      ((cpSpaceAddCollisionHandler vetoWorld 1 2).2.handlers
        (cpSpaceAddCollisionHandler vetoWorld 1 2).1).beginFunc 1 none).map Prod.fst =
      some false := by
  exact ⟨unregistered_vetoWorld, by decide, by decide⟩

/-! ## Wildcard mode -/

theorem collisionHandlersInsert_mode (w : World) (hash : Nat) (temp : cpCollisionHandler) :
    (collisionHandlersInsert w hash temp).2.space.usesWildcards = w.space.usesWildcards ∧
    (collisionHandlersInsert w hash temp).2.space.defaultHandler = w.space.defaultHandler := by
  unfold collisionHandlersInsert
  split <;> simp [handlerSetTrans]

theorem cpSpaceAddCollisionHandler_mode (w : World) (a b : Nat) :
    (cpSpaceAddCollisionHandler w a b).2.space.usesWildcards = w.space.usesWildcards ∧
    (cpSpaceAddCollisionHandler w a b).2.space.defaultHandler = w.space.defaultHandler := by
  unfold cpSpaceAddCollisionHandler
  simp only
  split
  · exact ⟨rfl, rfl⟩
  · exact collisionHandlersInsert_mode _ _ _

theorem cpSpaceAddWildcardHandler_mode (w : World) (type : Nat) :
    (cpSpaceAddWildcardHandler w type).2.space.usesWildcards =
      (cpSpaceUseWildcardDefaultHandler w).space.usesWildcards ∧
    (cpSpaceAddWildcardHandler w type).2.space.defaultHandler =
      (cpSpaceUseWildcardDefaultHandler w).space.defaultHandler := by
  unfold cpSpaceAddWildcardHandler
  simp only
  split
  · exact ⟨rfl, rfl⟩
  · exact collisionHandlersInsert_mode _ _ _

/-- The two modes of the default handler. -/
theorem HandlerCall.run_mode (w : World) (c : HandlerCall)
    (h : (w.space.usesWildcards = false ∧ w.space.defaultHandler = cpCollisionHandlerDoNothing) ∨
      (w.space.usesWildcards = true ∧ w.space.defaultHandler = cpCollisionHandlerDefault)) :
    (c.run w).space.usesWildcards = (w.space.usesWildcards || c.engagesWildcards) ∧
    (((c.run w).space.usesWildcards = false ∧
        (c.run w).space.defaultHandler = cpCollisionHandlerDoNothing) ∨
      ((c.run w).space.usesWildcards = true ∧
        (c.run w).space.defaultHandler = cpCollisionHandlerDefault)) := by
  cases c with
  | addCollisionHandler a b =>
    obtain ⟨h1, h2⟩ := cpSpaceAddCollisionHandler_mode w a b
    simp only [HandlerCall.run, HandlerCall.engagesWildcards, h1, h2, Bool.or_false, true_and]
    exact h
  | addWildcardHandler type =>
    obtain ⟨h1, h2⟩ := cpSpaceAddWildcardHandler_mode w type
    simp only [HandlerCall.run, HandlerCall.engagesWildcards, h1, h2, Bool.or_true]
    rcases h with ⟨h3, h4⟩ | ⟨h3, h4⟩ <;> simp [cpSpaceUseWildcardDefaultHandler, h3, h4]
  | addDefaultCollisionHandler =>
    simp only [HandlerCall.run, HandlerCall.engagesWildcards, cpSpaceAddDefaultCollisionHandler,
      Bool.or_true]
    rcases h with ⟨h3, h4⟩ | ⟨h3, h4⟩ <;> simp [cpSpaceUseWildcardDefaultHandler, h3, h4]

theorem foldl_run_mode (cs : List HandlerCall) (w : World)
    (h : (w.space.usesWildcards = false ∧ w.space.defaultHandler = cpCollisionHandlerDoNothing) ∨
      (w.space.usesWildcards = true ∧ w.space.defaultHandler = cpCollisionHandlerDefault)) :
    (cs.foldl HandlerCall.run w).space.usesWildcards =
      (w.space.usesWildcards || cs.any HandlerCall.engagesWildcards) ∧
    (((cs.foldl HandlerCall.run w).space.usesWildcards = false ∧
        (cs.foldl HandlerCall.run w).space.defaultHandler = cpCollisionHandlerDoNothing) ∨
      ((cs.foldl HandlerCall.run w).space.usesWildcards = true ∧
        (cs.foldl HandlerCall.run w).space.defaultHandler = cpCollisionHandlerDefault)) := by
  induction cs generalizing w with
  | nil => simpa using h
  | cons c cs ih =>
    obtain ⟨h1, h2⟩ := HandlerCall.run_mode w c h
    obtain ⟨h3, h4⟩ := ih (c.run w) h2
    refine ⟨?_, h4⟩
    rw [List.foldl_cons, h3, h1, List.any_cons, Bool.or_assoc]

/-- C6: in every state reached from `cpSpaceInit` by registration calls,
`usesWildcards` tells whether `cpSpaceAddWildcardHandler` or
`cpSpaceAddDefaultCollisionHandler` was among them; while it is false the
default handler is `cpCollisionHandlerDoNothing`, whose callbacks answer true
and invoke nothing (no wildcard lookup); once it is true the default handler
is `cpCollisionHandlerDefault`, whose begin and preSolve return the logical
AND of the two wildcard calls and whose postSolve and separate make both
wildcard calls. -/
theorem wildcard_mode_of_registration_calls (w0 : World) (cs : List HandlerCall) :
    (cs.foldl HandlerCall.run (cpSpaceInit w0)).space.usesWildcards =
      cs.any HandlerCall.engagesWildcards ∧
    ((cs.foldl HandlerCall.run (cpSpaceInit w0)).space.usesWildcards = false →
      (cs.foldl HandlerCall.run (cpSpaceInit w0)).space.defaultHandler =
        cpCollisionHandlerDoNothing) ∧
    ((cs.foldl HandlerCall.run (cpSpaceInit w0)).space.usesWildcards = true →
      (cs.foldl HandlerCall.run (cpSpaceInit w0)).space.defaultHandler =
        cpCollisionHandlerDefault) ∧
    (∀ (user : Nat → Ptr → Bool) (v : World) (arb : Ptr) (data : Option Ptr) (n : Nat),
      callBool user v (n + 1) cpCollisionHandlerDoNothing.beginFunc arb data = some (true, []) ∧
      callBool user v (n + 1) cpCollisionHandlerDoNothing.preSolveFunc arb data = some (true, []) ∧
      callVoid v (n + 1) cpCollisionHandlerDoNothing.postSolveFunc arb data = some [] ∧
      callVoid v (n + 1) cpCollisionHandlerDoNothing.separateFunc arb data = some []) ∧
    (∀ (user : Nat → Ptr → Bool) (v : World) (arb : Ptr) (data : Option Ptr) (n : Nat)
        (x y : Bool) (s t : List Invocation),
      cpArbiterCallWildcardBool v (fun f a d => callBool user v n f a d) Phase.begin Side.A arb =
        some (x, s) →
      cpArbiterCallWildcardBool v (fun f a d => callBool user v n f a d) Phase.begin Side.B arb =
        some (y, t) →
      (callBool user v (n + 1) cpCollisionHandlerDefault.beginFunc arb data).map Prod.fst =
        some (x && y)) ∧
    (∀ (user : Nat → Ptr → Bool) (v : World) (arb : Ptr) (data : Option Ptr) (n : Nat)
        (x y : Bool) (s t : List Invocation),
      cpArbiterCallWildcardBool v (fun f a d => callBool user v n f a d) Phase.preSolve Side.A arb =
        some (x, s) →
      cpArbiterCallWildcardBool v (fun f a d => callBool user v n f a d) Phase.preSolve Side.B arb =
        some (y, t) →
      (callBool user v (n + 1) cpCollisionHandlerDefault.preSolveFunc arb data).map Prod.fst =
        some (x && y)) ∧
    (∀ (v : World) (arb : Ptr) (data : Option Ptr) (n : Nat) (s t : List Invocation),
      cpArbiterCallWildcardVoid v (fun f a d => callVoid v n f a d) Phase.postSolve Side.A arb =
        some s →
      cpArbiterCallWildcardVoid v (fun f a d => callVoid v n f a d) Phase.postSolve Side.B arb =
        some t →
      callVoid v (n + 1) cpCollisionHandlerDefault.postSolveFunc arb data = some (s ++ t)) ∧
    (∀ (v : World) (arb : Ptr) (data : Option Ptr) (n : Nat) (s t : List Invocation),
      cpArbiterCallWildcardVoid v (fun f a d => callVoid v n f a d) Phase.separate Side.A arb =
        some s →
      cpArbiterCallWildcardVoid v (fun f a d => callVoid v n f a d) Phase.separate Side.B arb =
        some t →
      callVoid v (n + 1) cpCollisionHandlerDefault.separateFunc arb data = some (s ++ t)) := by
  have hinit : ((cpSpaceInit w0).space.usesWildcards = false ∧
      (cpSpaceInit w0).space.defaultHandler = cpCollisionHandlerDoNothing) ∨
      ((cpSpaceInit w0).space.usesWildcards = true ∧
        (cpSpaceInit w0).space.defaultHandler = cpCollisionHandlerDefault) :=
    Or.inl ⟨rfl, rfl⟩
  obtain ⟨h1, h2⟩ := foldl_run_mode cs (cpSpaceInit w0) hinit
  refine ⟨?_, ?_, ?_, ?_, ?_, ?_, ?_, ?_⟩
  · rw [h1]
    simp [cpSpaceInit]
  · intro hf
    rcases h2 with ⟨-, h4⟩ | ⟨h3, -⟩
    · exact h4
    · rw [hf] at h3
      exact absurd h3 (by decide)
  · intro ht
    rcases h2 with ⟨h3, -⟩ | ⟨-, h4⟩
    · rw [ht] at h3
      exact absurd h3 (by decide)
    · exact h4
  · intro user v arb data n
    exact ⟨rfl, rfl, rfl, rfl⟩
  · intro user v arb data n x y s t hA hB
    simp only [cpCollisionHandlerDefault, callBool, DefaultBegin, hA, hB]
    cases x <;> rfl
  · intro user v arb data n x y s t hA hB
    simp only [cpCollisionHandlerDefault, callBool, DefaultPreSolve, hA, hB]
    cases x <;> rfl
  · intro v arb data n s t hA hB
    simp only [cpCollisionHandlerDefault, callVoid, DefaultPostSolve, hA, hB]
    rfl
  · intro v arb data n s t hA hB
    simp only [cpCollisionHandlerDefault, callVoid, DefaultSeparate, hA, hB]
    rfl

/-! ## Filtering the arbiter cache -/

theorem emitted_of_trace_eq {w v : World} {es : List Event} (h : v.trace = w.trace ++ es) :
    emitted w v = es := by
  unfold emitted
  rw [h, List.drop_left]

theorem core_arbs {w v : World} (h : v.core = w.core) (p : Ptr) :
    (v.arbs p).a = (w.arbs p).a ∧ (v.arbs p).b = (w.arbs p).b ∧
    (v.arbs p).body_a = (w.arbs p).body_a ∧ (v.arbs p).body_b = (w.arbs p).body_b ∧
    (v.arbs p).handler = (w.arbs p).handler := by
  have := congrArg (fun u => u.arbs p) h
  simp only [World.core, cpArbiter.mk.injEq] at this
  tauto

theorem core_arbiterMatches {w v : World} (h : v.core = w.core) (p : Ptr)
    (context : arbiterFilterContext) :
    arbiterMatches (v.arbs p) context = arbiterMatches (w.arbs p) context := by
  obtain ⟨h1, h2, h3, h4, -⟩ := core_arbs h p
  simp only [arbiterMatches, h1, h2, h3, h4]

theorem core_handlerAt {w v : World} (h : v.core = w.core) (r : HandlerRef) :
    v.handlerAt r = w.handlerAt r := by
  have h1 : v.handlers = w.handlers := congrArg (fun u => u.handlers) h
  have h2 : v.space.defaultHandler = w.space.defaultHandler :=
    congrArg (fun u => u.space.defaultHandler) h
  cases r <;> simp [World.handlerAt, h1, h2]

theorem cachedArbitersFilter_fst (w : World) (arb : Ptr) (context : arbiterFilterContext) :
    (cachedArbitersFilter w arb context).1 = !arbiterMatches (w.arbs arb) context := by
  unfold cachedArbitersFilter
  split_ifs with h <;> simp [h]

theorem cachedArbitersFilter_trace (w : World) (arb : Ptr) (context : arbiterFilterContext) :
    (cachedArbitersFilter w arb context).2.trace = w.trace ++ filterEvents w context arb := by
  unfold cachedArbitersFilter filterEvents
  split_ifs with h1 h2
  · simp [World.emit, cpArbiterUnthread, World.handlerAt]
  · simp [World.emit, cpArbiterUnthread]
  · simp

theorem cachedArbitersFilter_arbs (w : World) (arb : Ptr) (context : arbiterFilterContext)
    (p : Ptr) (hp : p ≠ arb) : (cachedArbitersFilter w arb context).2.arbs p = w.arbs p := by
  unfold cachedArbitersFilter
  split_ifs with h1 h2
  · simp [World.emit, cpArbiterUnthread, Function.update_noteq hp]
  · simp [World.emit, cpArbiterUnthread]
  · rfl

theorem filterEvents_congr {w v : World} (h : v.core = w.core) (context : arbiterFilterContext)
    (p : Ptr) (hp : v.arbs p = w.arbs p) : filterEvents v context p = filterEvents w context p := by
  unfold filterEvents
  rw [hp, core_handlerAt h, core_locked h]

/-- The bins `cpHashSetFilter` keeps are those whose arbiter does not match. -/
theorem cpHashSetFilter_kept (context : arbiterFilterContext) (set : cpHashSet) (w : World) :
    (cpHashSetFilter (fun v arb => cachedArbitersFilter v arb context) w set).2 =
      set.filter (fun bin => !arbiterMatches (w.arbs bin.elt) context) := by
  induction set generalizing w with
  | nil => rfl
  | cons bin rest ih =>
    simp only [cpHashSetFilter, List.filter_cons]
    rw [ih, cachedArbitersFilter_fst]
    have hc := cachedArbitersFilter_core w bin.elt context
    have : (fun b : cpHashSetBin =>
        !arbiterMatches ((cachedArbitersFilter w bin.elt context).2.arbs b.elt) context) =
        (fun b : cpHashSetBin => !arbiterMatches (w.arbs b.elt) context) := by
      funext b
      rw [core_arbiterMatches hc]
    rw [this]

/-- Every `separate` event of a filter run was made with a filter shape, on an
arbiter already marked invalidated, under the lock counter of the run. -/
theorem cpHashSetFilter_separate (context : arbiterFilterContext) (set : cpHashSet) (w : World) :
    ∃ es, (cpHashSetFilter (fun v arb => cachedArbitersFilter v arb context) w set).1.trace =
        w.trace ++ es ∧
      ∀ f arb d st l, Event.separate f arb d st l ∈ es →
        context.shape ≠ none ∧ st = cpArbiterState.CP_ARBITER_STATE_INVALIDATED ∧
        l = w.space.locked := by
  induction set generalizing w with
  | nil => exact ⟨[], by simp [cpHashSetFilter], by simp⟩
  | cons bin rest ih =>
    obtain ⟨es, h1, h2⟩ := ih (cachedArbitersFilter w bin.elt context).2
    have hc := cachedArbitersFilter_core w bin.elt context
    refine ⟨filterEvents w context bin.elt ++ es, ?_, ?_⟩
    · simp only [cpHashSetFilter]
      rw [h1, cachedArbitersFilter_trace, List.append_assoc]
    · intro f arb d st l hmem
      rcases List.mem_append.mp hmem with hm | hm
      · unfold filterEvents at hm
        split_ifs at hm with c1 c2
        · simp at hm
          exact ⟨c2.1, hm.2.2.2.1, hm.2.2.2.2⟩
        · simp at hm
        · simp at hm
      · have := h2 f arb d st l hm
        rw [core_locked hc] at this
        exact this

/-- On a cache without repeated arbiters, the trace of a filter run is the
concatenation of the events of each bin, read off the state before the run. -/
theorem cpHashSetFilter_trace (context : arbiterFilterContext) (set : cpHashSet) (w : World)
    (hnd : (set.map cpHashSetBin.elt).Nodup) :
    (cpHashSetFilter (fun v arb => cachedArbitersFilter v arb context) w set).1.trace =
      w.trace ++ set.flatMap (fun bin => filterEvents w context bin.elt) := by
  induction set generalizing w with
  | nil => simp [cpHashSetFilter]
  | cons bin rest ih =>
    rw [List.map_cons, List.nodup_cons] at hnd
    have hc := cachedArbitersFilter_core w bin.elt context
    simp only [cpHashSetFilter, List.flatMap_cons]
    rw [ih _ hnd.2, cachedArbitersFilter_trace, List.append_assoc]
    congr 2
    apply List.flatMap_congr
    intro b hb
    apply filterEvents_congr hc
    apply cachedArbitersFilter_arbs
    intro heq
    exact hnd.1 (List.mem_map.mpr ⟨b, hb, heq⟩)

theorem separateCalls_append (xs ys : List Event) :
    separateCalls (xs ++ ys) = separateCalls xs ++ separateCalls ys := by
  simp [separateCalls]

theorem separateCalls_postStep (cs : List Ptr) : separateCalls (cs.map Event.postStep) = [] := by
  induction cs with
  | nil => rfl
  | cons x xs ih =>
    simp only [separateCalls, List.map_cons, List.filterMap_cons, Event.separatedArbiter] at ih ⊢
    exact ih

theorem separateCalls_filterEvents (w : World) (context : arbiterFilterContext) (arb : Ptr) :
    separateCalls (filterEvents w context arb) =
      if separateDue w context arb then [arb] else [] := by
  unfold filterEvents separateDue
  by_cases h1 : arbiterMatches (w.arbs arb) context = true
  · by_cases h2 : context.shape = none
    · simp [h1, h2, separateCalls, Event.separatedArbiter]
    · by_cases h3 : (w.arbs arb).state = cpArbiterState.CP_ARBITER_STATE_CACHED
      · simp [h1, h2, h3, separateCalls, Event.separatedArbiter]
      · have h4 : context.shape.isSome = true := Option.isSome_iff_ne_none.mpr h2
        simp [h1, h2, h3, h4, separateCalls, Event.separatedArbiter]
  · simp [h1, separateCalls]

theorem separateCalls_flatMap (w : World) (context : arbiterFilterContext) (set : cpHashSet) :
    separateCalls (set.flatMap (fun bin => filterEvents w context bin.elt)) =
      (set.filter (fun bin => separateDue w context bin.elt)).map cpHashSetBin.elt := by
  induction set with
  | nil => rfl
  | cons bin rest ih =>
    rw [List.flatMap_cons, separateCalls_append, ih, separateCalls_filterEvents, List.filter_cons]
    cases separateDue w context bin.elt <;> simp

theorem cpSpaceUnlock_trace (w : World) (run : Bool) :
    ∃ cs : List Ptr, (cpSpaceUnlock w run).trace = w.trace ++ cs.map Event.postStep := by
  simp only [cpSpaceUnlock]
  split_ifs
  · exact ⟨w.space.postStepCallbacks, rfl⟩
  · exact ⟨[], by simp⟩

theorem cpSpaceUnlock_arbiters (w : World) (run : Bool) :
    (cpSpaceUnlock w run).arbs = w.arbs ∧
    (cpSpaceUnlock w run).space.cachedArbiters = w.space.cachedArbiters ∧
    (cpSpaceUnlock w run).space.arbiters = w.space.arbiters ∧
    (cpSpaceUnlock w run).space.pooledArbiters = w.space.pooledArbiters := by
  simp only [cpSpaceUnlock]
  split_ifs <;> exact ⟨rfl, rfl, rfl, rfl⟩

/-- The cache after `cpSpaceFilterArbiters` holds the bins whose arbiter does
not match, in their old order. -/
theorem cpSpaceFilterArbiters_cachedArbiters (w : World) (body : Ptr) (filter : Option Ptr) :
    (cpSpaceFilterArbiters w body filter).space.cachedArbiters =
      w.space.cachedArbiters.filter
        (fun bin => !arbiterMatches (w.arbs bin.elt) { body := body, shape := filter }) := by
  simp only [cpSpaceFilterArbiters]
  rw [(cpSpaceUnlock_arbiters _ _).2.1]
  exact cpHashSetFilter_kept _ _ _

/-- The trace of `cpSpaceFilterArbiters`: the events of the filter run, then
the drained post-step callbacks. -/
theorem cpSpaceFilterArbiters_trace (w : World) (body : Ptr) (filter : Option Ptr) :
    ∃ (es : List Event) (cs : List Ptr),
      (cpSpaceFilterArbiters w body filter).trace = w.trace ++ es ++ cs.map Event.postStep ∧
      (cpHashSetFilter (fun v arb => cachedArbitersFilter v arb { body := body, shape := filter })
        (cpSpaceLock w) w.space.cachedArbiters).1.trace = w.trace ++ es := by
  obtain ⟨es, h1, -⟩ := cpHashSetFilter_separate { body := body, shape := filter }
    w.space.cachedArbiters (cpSpaceLock w)
  simp only [cpSpaceFilterArbiters]
  obtain ⟨cs, h2⟩ := cpSpaceUnlock_trace
    { (cpHashSetFilter (fun v arb => cachedArbitersFilter v arb { body := body, shape := filter })
        (cpSpaceLock w) (cpSpaceLock w).space.cachedArbiters).1 with
      space := { (cpHashSetFilter
          (fun v arb => cachedArbitersFilter v arb { body := body, shape := filter })
          (cpSpaceLock w) (cpSpaceLock w).space.cachedArbiters).1.space with
        cachedArbiters := (cpHashSetFilter
          (fun v arb => cachedArbitersFilter v arb { body := body, shape := filter })
          (cpSpaceLock w) (cpSpaceLock w).space.cachedArbiters).2 } } true
  refine ⟨es, cs, ?_, h1⟩
  rw [h2]
  exact congrArg (· ++ cs.map Event.postStep) h1

/-- Every `separate` call of `cpSpaceFilterArbiters` is made with a filter
shape, on an arbiter already marked invalidated, inside the lock bracket. -/
theorem cpSpaceFilterArbiters_separate (w : World) (body : Ptr) (filter : Option Ptr)
    (f : cpCollisionVoidFunc) (arb : Ptr) (d : Option Ptr) (st : cpArbiterState) (l : Nat)
    (h : Event.separate f arb d st l ∈ emitted w (cpSpaceFilterArbiters w body filter)) :
    filter ≠ none ∧ st = cpArbiterState.CP_ARBITER_STATE_INVALIDATED ∧ l = w.space.locked + 1 := by
  obtain ⟨es, cs, h1, h2⟩ := cpSpaceFilterArbiters_trace w body filter
  obtain ⟨es', h3, h4⟩ := cpHashSetFilter_separate { body := body, shape := filter }
    w.space.cachedArbiters (cpSpaceLock w)
  have hes : es' = es := List.append_cancel_left (h3.symm.trans h2)
  subst hes
  rw [List.append_assoc] at h1
  rw [emitted_of_trace_eq h1] at h
  rcases List.mem_append.mp h with hm | hm
  · exact h4 f arb d st l hm
  · simp at hm

/-- On a cache without repeated arbiters, `cpSpaceFilterArbiters` calls
`separate` once for each bin that is due one, in cache order. -/
theorem cpSpaceFilterArbiters_separateCalls (w : World) (body : Ptr) (filter : Option Ptr)
    (hnd : (w.space.cachedArbiters.map cpHashSetBin.elt).Nodup) :
    separateCalls (emitted w (cpSpaceFilterArbiters w body filter)) =
      (w.space.cachedArbiters.filter
        (fun bin => separateDue w { body := body, shape := filter } bin.elt)).map
          cpHashSetBin.elt := by
  obtain ⟨es, cs, h1, h2⟩ := cpSpaceFilterArbiters_trace w body filter
  have h3 := cpHashSetFilter_trace { body := body, shape := filter } w.space.cachedArbiters
    (cpSpaceLock w) hnd
  have hes : es = w.space.cachedArbiters.flatMap
      (fun bin => filterEvents (cpSpaceLock w) { body := body, shape := filter } bin.elt) :=
    List.append_cancel_left (h2.symm.trans h3)
  rw [List.append_assoc] at h1
  rw [emitted_of_trace_eq h1, separateCalls_append, separateCalls_postStep, List.append_nil, hes,
    separateCalls_flatMap]
  rfl

theorem count_map_filter_elt (set : cpHashSet) (c : cpHashSetBin → Bool)
    (hnd : (set.map cpHashSetBin.elt).Nodup) (bin : cpHashSetBin) (hbin : bin ∈ set) :
    ((set.filter c).map cpHashSetBin.elt).count bin.elt = if c bin then 1 else 0 := by
  have hsub : ((set.filter c).map cpHashSetBin.elt).Sublist (set.map cpHashSetBin.elt) :=
    (List.filter_sublist set).map _
  by_cases hc : c bin = true
  · rw [if_pos hc]
    exact List.count_eq_one_of_mem (hnd.sublist hsub)
      (List.mem_map.mpr ⟨bin, List.mem_filter.mpr ⟨hbin, hc⟩, rfl⟩)
  · rw [if_neg hc]
    apply List.count_eq_zero_of_not_mem
    intro hmem
    obtain ⟨b, hb, hbe⟩ := List.mem_map.mp hmem
    have hb' := List.mem_filter.mp hb
    have : b = bin := List.inj_on_of_nodup_map hnd hb'.1 hbin hbe
    rw [this] at hb'
    exact hc hb'.2

theorem mem_separateCalls {es : List Event} {p : Ptr} (h : p ∈ separateCalls es) :
    ∃ f d st l, Event.separate f p d st l ∈ es := by
  unfold separateCalls at h
  obtain ⟨e, he, hev⟩ := List.mem_filterMap.mp h
  cases e <;> simp [Event.separatedArbiter] at hev
  subst hev
  exact ⟨_, _, _, _, he⟩

theorem cpSpaceFilterArbiters_arbs (w : World) (body : Ptr) (filter : Option Ptr) (p : Ptr) :
    ((cpSpaceFilterArbiters w body filter).arbs p).a = (w.arbs p).a ∧
    ((cpSpaceFilterArbiters w body filter).arbs p).b = (w.arbs p).b ∧
    ((cpSpaceFilterArbiters w body filter).arbs p).body_a = (w.arbs p).body_a ∧
    ((cpSpaceFilterArbiters w body filter).arbs p).body_b = (w.arbs p).body_b ∧
    ((cpSpaceFilterArbiters w body filter).arbs p).handler = (w.arbs p).handler :=
  core_arbs (cpSpaceFilterArbiters_core w body filter) p

/-- C7: after `cpSpaceFilterArbiters(space, body, NULL)` no arbiter left in
`cachedArbiters` has `body_a = body` or `body_b = body`, every cached arbiter
that touches `body` on neither side is still cached, and no `separate` callback
was invoked on an arbiter that was in the cached state (none was invoked at
all). -/
theorem cpSpaceFilterArbiters_null_filter (w : World) (body : Ptr) :
    (∀ bin ∈ (cpSpaceFilterArbiters w body none).space.cachedArbiters,
      ((cpSpaceFilterArbiters w body none).arbs bin.elt).body_a ≠ body ∧
      ((cpSpaceFilterArbiters w body none).arbs bin.elt).body_b ≠ body) ∧
    (∀ bin ∈ w.space.cachedArbiters,
      (w.arbs bin.elt).body_a ≠ body → (w.arbs bin.elt).body_b ≠ body →
        bin ∈ (cpSpaceFilterArbiters w body none).space.cachedArbiters) ∧
    (∀ arb, (w.arbs arb).state = cpArbiterState.CP_ARBITER_STATE_CACHED →
      arb ∉ separateCalls (emitted w (cpSpaceFilterArbiters w body none))) ∧
    separateCalls (emitted w (cpSpaceFilterArbiters w body none)) = [] := by
  have hnone : separateCalls (emitted w (cpSpaceFilterArbiters w body none)) = [] := by
    apply List.eq_nil_iff_forall_not_mem.mpr
    intro p hp
    obtain ⟨f, d, st, l, hmem⟩ := mem_separateCalls hp
    exact (cpSpaceFilterArbiters_separate w body none f p d st l hmem).1 rfl
  refine ⟨?_, ?_, ?_, hnone⟩
  · intro bin hbin
    rw [cpSpaceFilterArbiters_cachedArbiters] at hbin
    obtain ⟨-, hm⟩ := List.mem_filter.mp hbin
    obtain ⟨-, -, h3, h4, -⟩ := cpSpaceFilterArbiters_arbs w body none bin.elt
    rw [h3, h4]
    simp only [arbiterMatches, Bool.not_eq_true', Bool.or_eq_false_iff, Bool.and_eq_false_imp,
      beq_iff_eq, beq_self_eq_true, Bool.or_true] at hm
    constructor
    · intro h
      exact absurd (hm.1 h.symm) (by decide)
    · intro h
      exact absurd (hm.2 h.symm) (by decide)
  · intro bin hbin ha hb
    rw [cpSpaceFilterArbiters_cachedArbiters]
    apply List.mem_filter.mpr
    refine ⟨hbin, ?_⟩
    have h1 : (body == (w.arbs bin.elt).body_a) = false := beq_false_of_ne (Ne.symm ha)
    have h2 : (body == (w.arbs bin.elt).body_b) = false := beq_false_of_ne (Ne.symm hb)
    simp [arbiterMatches, h1, h2]
  · intro arb _
    rw [hnone]
    exact List.not_mem_nil _

/-- C8 (as the code has it): on a cache without repeated arbiters, an arbiter
that `cpSpaceFilterArbiters(space, body, filterShape)` matches is evicted, and
its `separate` callback is invoked once if `filterShape` is non-null and the
arbiter's state is not `CP_ARBITER_STATE_CACHED`, and not at all otherwise. -/
theorem cpSpaceFilterArbiters_separate_count (w : World) (body : Ptr) (filter : Option Ptr)
    (hnd : (w.space.cachedArbiters.map cpHashSetBin.elt).Nodup)
    (bin : cpHashSetBin) (hbin : bin ∈ w.space.cachedArbiters)
    (hm : arbiterMatches (w.arbs bin.elt) { body := body, shape := filter } = true) :
    bin ∉ (cpSpaceFilterArbiters w body filter).space.cachedArbiters ∧
    (separateCalls (emitted w (cpSpaceFilterArbiters w body filter))).count bin.elt =
      if filter ≠ none ∧ (w.arbs bin.elt).state ≠ cpArbiterState.CP_ARBITER_STATE_CACHED then 1
      else 0 := by
  constructor
  · rw [cpSpaceFilterArbiters_cachedArbiters]
    intro h
    have := (List.mem_filter.mp h).2
    rw [hm] at this
    exact absurd this (by decide)
  · rw [cpSpaceFilterArbiters_separateCalls w body filter hnd,
      count_map_filter_elt _ _ hnd bin hbin]
    simp only [separateDue, hm, Bool.true_and, Bool.and_eq_true, decide_eq_true_eq,
      Option.isSome_iff_ne_none]

theorem cpSpaceFilterArbiters_separate_count_witness :
    (cacheWorld.space.cachedArbiters.map cpHashSetBin.elt).Nodup ∧
    ({ hash := 0, elt := 1 } : cpHashSetBin) ∈ cacheWorld.space.cachedArbiters ∧
    arbiterMatches (cacheWorld.arbs 1) { body := 11, shape := some 1 } = true ∧
    ({ hash := 0, elt := 1 } : cpHashSetBin) ∉
      (cpSpaceFilterArbiters cacheWorld 11 (some 1)).space.cachedArbiters ∧
    (separateCalls (emitted cacheWorld (cpSpaceFilterArbiters cacheWorld 11 (some 1)))).count 1 =
      if (some 1 : Option Ptr) ≠ none ∧
          (cacheWorld.arbs 1).state ≠ cpArbiterState.CP_ARBITER_STATE_CACHED then 1
      else 0 :=
  ⟨by decide, by decide, by decide,
    cpSpaceFilterArbiters_separate_count cacheWorld 11 (some 1) (by decide)
      { hash := 0, elt := 1 } (by decide) (by decide)⟩

/-- C8 (counterexample to the claim as stated): in `cacheWorld`, filtering on
body 11 with a null filter shape matches and evicts arbiter 1, whose state is
not cached, without a `separate` call; filtering on body 13 with the filter
shape 3 matches and evicts arbiter 3, which is in the cached state, without a
`separate` call either.  The callback is skipped when the filter shape is null
or the arbiter is cached, not only when both hold. -/
theorem cpSpaceFilterArbiters_separate_skipped :
    (arbiterMatches (cacheWorld.arbs 1) { body := 11, shape := none } = true ∧
      (cacheWorld.arbs 1).state ≠ cpArbiterState.CP_ARBITER_STATE_CACHED ∧
      ({ hash := 0, elt := 1 } : cpHashSetBin) ∈ cacheWorld.space.cachedArbiters ∧
      ({ hash := 0, elt := 1 } : cpHashSetBin) ∉
        (cpSpaceFilterArbiters cacheWorld 11 none).space.cachedArbiters ∧
      1 ∉ separateCalls (emitted cacheWorld (cpSpaceFilterArbiters cacheWorld 11 none))) ∧
    (arbiterMatches (cacheWorld.arbs 3) { body := 13, shape := some 3 } = true ∧
      (some 3 : Option Ptr) ≠ none ∧
      ({ hash := 1, elt := 3 } : cpHashSetBin) ∈ cacheWorld.space.cachedArbiters ∧
      ({ hash := 1, elt := 3 } : cpHashSetBin) ∉
        (cpSpaceFilterArbiters cacheWorld 13 (some 3)).space.cachedArbiters ∧
      3 ∉ separateCalls (emitted cacheWorld (cpSpaceFilterArbiters cacheWorld 13 (some 3)))) := by
  decide

/-! ## Removing a shape evicts its arbiters -/

/-- The arbiter side of a successful `cpSpaceRemoveShape`: the body is woken
(through the static path when it is static), the shape is detached, and the
cache, the arbiters and the rest of the trace are those of
`cpSpaceFilterArbiters` run with the shape as filter. -/
theorem cpSpaceRemoveShape_filter (w : World) (S : Ptr) (hlock : w.space.locked = 0)
    (hS : (w.shapes S).space = some w.self) :
    ∃ v w2 e, cpSpaceRemoveShape w S = Res.ok () w2 ∧
      v.arbs = w.arbs ∧ v.space = w.space ∧ v.handlers = w.handlers ∧
      (e = Event.bodyActivate (w.shapes S).body ∨
        e = Event.bodyActivateStatic (w.shapes S).body (some S)) ∧
      v.trace = w.trace ++ [e, Event.bodyRemoveShape (w.shapes S).body S] ∧
      w2.arbs = (cpSpaceFilterArbiters v (w.shapes S).body (some S)).arbs ∧
      w2.space.cachedArbiters =
        (cpSpaceFilterArbiters v (w.shapes S).body (some S)).space.cachedArbiters ∧
      w2.trace = (cpSpaceFilterArbiters v (w.shapes S).body (some S)).trace := by
  by_cases hst : cpBodyIsStatic w (w.shapes S).body = true
  · have hres : cpSpaceRemoveShape w S = Res.ok () (cpSpaceRemoveShape w S).world := by
      simp only [cpSpaceRemoveShape, cpSpaceContainsShape, hS, hlock, hst, beq_self_eq_true,
        Bool.not_true, Bool.false_eq_true, if_false, if_true, ne_eq, not_true_eq_false, Res.world]
    refine ⟨cpBodyRemoveShape (cpBodyActivateStatic w (w.shapes S).body (some S))
        (w.shapes S).body S, (cpSpaceRemoveShape w S).world,
      Event.bodyActivateStatic (w.shapes S).body (some S),
      hres, rfl, rfl, rfl, Or.inr rfl, ?_, ?_, ?_, ?_⟩
    · simp [cpBodyRemoveShape, cpBodyActivateStatic, World.emit]
    all_goals
      simp only [cpSpaceRemoveShape, cpSpaceContainsShape, hS, hlock, hst, beq_self_eq_true,
        Bool.not_true, Bool.false_eq_true, if_false, if_true, ne_eq, not_true_eq_false, Res.world]
  · have hres : cpSpaceRemoveShape w S = Res.ok () (cpSpaceRemoveShape w S).world := by
      simp only [cpSpaceRemoveShape, cpSpaceContainsShape, hS, hlock, hst, beq_self_eq_true,
        Bool.not_true, Bool.false_eq_true, if_false, if_true, ne_eq, not_true_eq_false, Res.world]
    refine ⟨cpBodyRemoveShape (cpBodyActivate w (w.shapes S).body) (w.shapes S).body S,
      (cpSpaceRemoveShape w S).world, Event.bodyActivate (w.shapes S).body,
      hres, rfl, rfl, rfl, Or.inl rfl, ?_, ?_, ?_, ?_⟩
    · simp [cpBodyRemoveShape, cpBodyActivate, World.emit]
    all_goals
      simp only [cpSpaceRemoveShape, cpSpaceContainsShape, hS, hlock, hst, beq_self_eq_true,
        Bool.not_true, Bool.false_eq_true, if_false, if_true, ne_eq, not_true_eq_false, Res.world]

theorem cpSpaceFilterArbiters_trace_emitted (w : World) (body : Ptr) (filter : Option Ptr) :
    (cpSpaceFilterArbiters w body filter).trace =
      w.trace ++ emitted w (cpSpaceFilterArbiters w body filter) := by
  obtain ⟨es, cs, h1, -⟩ := cpSpaceFilterArbiters_trace w body filter
  rw [List.append_assoc] at h1
  rw [emitted_of_trace_eq h1, h1]

/-- C9: in an unlocked space whose cache holds no arbiter twice and whose
cached arbiters carry the bodies of their shapes, removing a member shape `S`
succeeds and leaves no cached arbiter with `a = S` or `b = S`; every cached
arbiter that did not reference `S` is still cached; an evicted arbiter gets its
`separate` callback exactly once if its state was not cached and not at all if
it was; and every such call sees the arbiter already marked
`CP_ARBITER_STATE_INVALIDATED`. -/
theorem cpSpaceRemoveShape_evicts_arbiters (w : World) (S : Ptr)
    (hlock : w.space.locked = 0) (hS : (w.shapes S).space = some w.self)
    (hbodies : ∀ bin ∈ w.space.cachedArbiters,
      (w.arbs bin.elt).body_a = (w.shapes (w.arbs bin.elt).a).body ∧
      (w.arbs bin.elt).body_b = (w.shapes (w.arbs bin.elt).b).body)
    (hnd : (w.space.cachedArbiters.map cpHashSetBin.elt).Nodup) :
    ∃ w2, cpSpaceRemoveShape w S = Res.ok () w2 ∧
      (∀ bin ∈ w2.space.cachedArbiters, (w2.arbs bin.elt).a ≠ S ∧ (w2.arbs bin.elt).b ≠ S) ∧
      (∀ bin ∈ w.space.cachedArbiters, (w.arbs bin.elt).a ≠ S → (w.arbs bin.elt).b ≠ S →
        bin ∈ w2.space.cachedArbiters) ∧
      (∀ bin ∈ w.space.cachedArbiters, ((w.arbs bin.elt).a = S ∨ (w.arbs bin.elt).b = S) →
        bin ∉ w2.space.cachedArbiters ∧
        (separateCalls (emitted w w2)).count bin.elt =
          if (w.arbs bin.elt).state = cpArbiterState.CP_ARBITER_STATE_CACHED then 0 else 1) ∧
      (∀ f arb d st l, Event.separate f arb d st l ∈ emitted w w2 →
        st = cpArbiterState.CP_ARBITER_STATE_INVALIDATED) := by
  obtain ⟨v, w2, e, hrem, harbs, hspace, -, he, htr, h2arbs, h2cache, h2trace⟩ :=
    cpSpaceRemoveShape_filter w S hlock hS
  have hcache : w2.space.cachedArbiters = w.space.cachedArbiters.filter
      (fun bin => !arbiterMatches (w.arbs bin.elt)
        { body := (w.shapes S).body, shape := some S }) := by
    rw [h2cache, cpSpaceFilterArbiters_cachedArbiters, harbs, hspace]
  have hvnd : (v.space.cachedArbiters.map cpHashSetBin.elt).Nodup := by rw [hspace]; exact hnd
  have hem : emitted w w2 = [e, Event.bodyRemoveShape (w.shapes S).body S] ++
      emitted v (cpSpaceFilterArbiters v (w.shapes S).body (some S)) := by
    apply emitted_of_trace_eq
    rw [h2trace, cpSpaceFilterArbiters_trace_emitted, htr, List.append_assoc]
  have hpre : separateCalls [e, Event.bodyRemoveShape (w.shapes S).body S] = [] := by
    rcases he with he | he <;> subst he <;> rfl
  have hmatch : ∀ bin ∈ w.space.cachedArbiters,
      (arbiterMatches (w.arbs bin.elt) { body := (w.shapes S).body, shape := some S } = true ↔
        ((w.arbs bin.elt).a = S ∨ (w.arbs bin.elt).b = S)) := by
    intro bin hbin
    obtain ⟨ha, hb⟩ := hbodies bin hbin
    simp only [arbiterMatches, Bool.or_eq_true, Bool.and_eq_true, beq_iff_eq, Option.some.injEq,
      reduceCtorEq, or_false]
    constructor
    · rintro (⟨-, h⟩ | ⟨-, h⟩)
      · exact Or.inl h.symm
      · exact Or.inr h.symm
    · rintro (h | h)
      · exact Or.inl ⟨by rw [ha, h], h.symm⟩
      · exact Or.inr ⟨by rw [hb, h], h.symm⟩
  refine ⟨w2, hrem, ?_, ?_, ?_, ?_⟩
  · intro bin hbin
    rw [hcache] at hbin
    obtain ⟨hb1, hb2⟩ := List.mem_filter.mp hbin
    obtain ⟨h1, h2, -, -, -⟩ := cpSpaceFilterArbiters_arbs v (w.shapes S).body (some S) bin.elt
    rw [h2arbs, h1, h2, harbs]
    have hno : ¬ ((w.arbs bin.elt).a = S ∨ (w.arbs bin.elt).b = S) := by
      intro h
      rw [(hmatch bin hb1).mpr h] at hb2
      exact absurd hb2 (by decide)
    exact ⟨fun h => hno (Or.inl h), fun h => hno (Or.inr h)⟩
  · intro bin hbin ha hb
    rw [hcache]
    apply List.mem_filter.mpr
    refine ⟨hbin, ?_⟩
    have hno : ¬ arbiterMatches (w.arbs bin.elt)
        { body := (w.shapes S).body, shape := some S } = true := by
      intro h
      rcases (hmatch bin hbin).mp h with h | h
      · exact ha h
      · exact hb h
    simpa using hno
  · intro bin hbin href
    have hm := (hmatch bin hbin).mpr href
    constructor
    · rw [hcache]
      intro h
      have := (List.mem_filter.mp h).2
      rw [hm] at this
      exact absurd this (by decide)
    · rw [hem, separateCalls_append, hpre, List.nil_append,
        cpSpaceFilterArbiters_separateCalls v _ _ hvnd, hspace,
        count_map_filter_elt _ _ hnd bin hbin]
      simp only [separateDue, harbs, hm, Option.isSome_some, Bool.and_self, Bool.true_and,
        decide_eq_true_eq]
      by_cases hst : (w.arbs bin.elt).state = cpArbiterState.CP_ARBITER_STATE_CACHED
      · simp [hst]
      · simp [hst]
  · intro f arb d st l hmem
    rw [hem] at hmem
    rcases List.mem_append.mp hmem with hm | hm
    · rcases he with he | he <;> subst he <;> simp at hm
    · exact (cpSpaceFilterArbiters_separate v _ _ f arb d st l hm).2.1

theorem cpSpaceRemoveShape_evicts_arbiters_witness :
    cacheWorld.space.locked = 0 ∧ (cacheWorld.shapes 1).space = some cacheWorld.self ∧
    (∀ bin ∈ cacheWorld.space.cachedArbiters,
      (cacheWorld.arbs bin.elt).body_a = (cacheWorld.shapes (cacheWorld.arbs bin.elt).a).body ∧
      (cacheWorld.arbs bin.elt).body_b = (cacheWorld.shapes (cacheWorld.arbs bin.elt).b).body) ∧
    (cacheWorld.space.cachedArbiters.map cpHashSetBin.elt).Nodup ∧
    ∃ w2, cpSpaceRemoveShape cacheWorld 1 = Res.ok () w2 ∧
      (∀ bin ∈ w2.space.cachedArbiters, (w2.arbs bin.elt).a ≠ 1 ∧ (w2.arbs bin.elt).b ≠ 1) ∧
      (∀ bin ∈ cacheWorld.space.cachedArbiters,
        (cacheWorld.arbs bin.elt).a ≠ 1 → (cacheWorld.arbs bin.elt).b ≠ 1 →
          bin ∈ w2.space.cachedArbiters) ∧
      (∀ bin ∈ cacheWorld.space.cachedArbiters,
        ((cacheWorld.arbs bin.elt).a = 1 ∨ (cacheWorld.arbs bin.elt).b = 1) →
          bin ∉ w2.space.cachedArbiters ∧
          (separateCalls (emitted cacheWorld w2)).count bin.elt =
            if (cacheWorld.arbs bin.elt).state = cpArbiterState.CP_ARBITER_STATE_CACHED then 0
            else 1) ∧
      (∀ f arb d st l, Event.separate f arb d st l ∈ emitted cacheWorld w2 →
        st = cpArbiterState.CP_ARBITER_STATE_INVALIDATED) :=
  ⟨by decide, by decide, by decide, by decide,
    cpSpaceRemoveShape_evicts_arbiters cacheWorld 1 (by decide) (by decide) (by decide)
      (by decide)⟩

/-! ## The designated static body -/

theorem cpArrayDeleteObj_head (arr : List Ptr) (x obj : Ptr) (hx : arr.head? = some x)
    (hne : obj ≠ x) : (cpArrayDeleteObj arr obj).head? = some x := by
  cases arr with
  | nil => simp at hx
  | cons y rest =>
    simp only [List.head?_cons, Option.some.injEq] at hx
    subst hx
    unfold cpArrayDeleteObj
    simp only
    split_ifs with hi
    · have hidx : List.indexOf obj (y :: rest) = List.indexOf obj rest + 1 :=
        List.indexOf_cons_ne _ (Ne.symm hne)
      rw [hidx] at hi ⊢
      simp only [List.length_cons, Nat.add_lt_add_iff_right] at hi
      rw [List.set_cons_succ]
      cases hrest : rest.set (List.indexOf obj rest) ((y :: rest).getLast?.getD obj) with
      | nil =>
        have := congrArg List.length hrest
        simp only [List.length_set, List.length_nil] at this
        omega
      | cons z zs => simp [List.dropLast]
    · rfl

theorem cpBodyIsStatic_cpBodyActivate (w : World) (body p : Ptr) :
    cpBodyIsStatic (cpBodyActivate w body) p = cpBodyIsStatic w p := rfl

/-- What a successful `cpSpaceAddBody` required and did. -/
theorem cpSpaceAddBody_ok (w w1 : World) (body r : Ptr) (h : cpSpaceAddBody w body = Res.ok r w1) :
    (w.bodies body).space = none ∧ w.space.locked = 0 ∧
    w1 = { w with
      space := { w.space with
        otherBodies :=
          if cpBodyIsStatic w body then cpArrayPush w.space.otherBodies body
          else w.space.otherBodies
        dynamicBodies :=
          if cpBodyIsStatic w body then w.space.dynamicBodies
          else cpArrayPush w.space.dynamicBodies body }
      bodies := Function.update w.bodies body { w.bodies body with space := some w.self } } := by
  unfold cpSpaceAddBody at h
  split_ifs at h with c1 c2 c3 c4
  · simp only [Res.ok.injEq] at h
    refine ⟨not_not.mp c2, not_not.mp c3, ?_⟩
    rw [← h.2]
    simp [c4]
  · simp only [Res.ok.injEq] at h
    refine ⟨not_not.mp c2, not_not.mp c3, ?_⟩
    rw [← h.2]
    simp [c4]

/-- What a successful `cpSpaceRemoveBody` required and did. -/
theorem cpSpaceRemoveBody_ok (w w1 : World) (body : Ptr)
    (h : cpSpaceRemoveBody w body = Res.ok () w1) :
    some body ≠ cpSpaceGetStaticBody w ∧ (w.bodies body).space = some w.self ∧
    w.space.locked = 0 ∧
    w1 = { w with
      space := { w.space with
        otherBodies :=
          if cpBodyIsStatic w body then cpArrayDeleteObj w.space.otherBodies body
          else w.space.otherBodies
        dynamicBodies :=
          if cpBodyIsStatic w body then w.space.dynamicBodies
          else cpArrayDeleteObj w.space.dynamicBodies body }
      bodies := Function.update w.bodies body { w.bodies body with space := none }
      trace := w.trace ++ [Event.bodyActivate body] } := by
  unfold cpSpaceRemoveBody at h
  split_ifs at h with c1 c2 c3
  simp only [Res.ok.injEq, true_and] at h
  have hmem : (w.bodies body).space = some w.self := by
    simpa [cpSpaceContainsBody] using c2
  refine ⟨c1, hmem, not_not.mp c3, ?_⟩
  rw [← h]
  by_cases hs : cpBodyIsStatic w body = true
  · simp only [cpBodyIsStatic_cpBodyActivate, hs, if_true]
    rfl
  · simp only [cpBodyIsStatic_cpBodyActivate, hs]
    rfl

/-- Along successful `cpSpaceAddBody` / `cpSpaceRemoveBody` calls the embedded
static body stays in slot 0 of `otherBodies` and stays a member. -/
theorem reachable_static_body (w : World) (h : ReachableByBodyCalls w) :
    w.space.otherBodies.head? = some w.staticBody ∧
    (w.bodies w.staticBody).space = some w.self := by
  induction h with
  | init w0 => simp [cpSpaceInit, cpArrayPush, cpBodyInitStatic]
  | @addBody w w1 body _ hadd ih =>
    obtain ⟨ih1, ih2⟩ := ih
    obtain ⟨hnone, -, hw1⟩ := cpSpaceAddBody_ok w w1 body body hadd
    have hb : body ≠ w.staticBody := by
      intro hb
      rw [hb, ih2] at hnone
      exact Option.noConfusion hnone
    subst hw1
    refine ⟨?_, ?_⟩
    · simp only
      split_ifs
      · cases hob : w.space.otherBodies with
        | nil => rw [hob] at ih1; simp at ih1
        | cons y rest =>
          rw [hob] at ih1
          simpa [cpArrayPush] using ih1
      · exact ih1
    · simp [Function.update_noteq (Ne.symm hb), ih2]
  | @removeBody w w1 body _ hrem ih =>
    obtain ⟨ih1, ih2⟩ := ih
    obtain ⟨hns, -, -, hw1⟩ := cpSpaceRemoveBody_ok w w1 body hrem
    have hb : body ≠ w.staticBody := by
      intro hb
      apply hns
      rw [hb, cpSpaceGetStaticBody, ih1]
    subst hw1
    refine ⟨?_, ?_⟩
    · simp only
      split_ifs
      · exact cpArrayDeleteObj_head _ _ _ ih1 hb
      · exact ih1
    · simp [Function.update_noteq (Ne.symm hb), ih2]

/-- C10: in every state reached from `cpSpaceInit` by successful
`cpSpaceAddBody` and `cpSpaceRemoveBody` calls, slot 0 of `otherBodies` is the
space's own static body, `cpSpaceGetStaticBody` returns it, it is still a
member, and `cpSpaceRemoveBody` on it aborts with the state unchanged. -/
theorem designated_static_body_is_never_removed (w : World) (h : ReachableByBodyCalls w) :
    w.space.otherBodies[0]? = some w.staticBody ∧
    cpSpaceGetStaticBody w = some w.staticBody ∧
    cpSpaceContainsBody w w.staticBody = true ∧
    (∀ body, cpSpaceGetStaticBody w = some body →
      cpSpaceRemoveBody w body = Res.fatal Fatal.designatedStaticBody w) := by
  obtain ⟨h1, h2⟩ := reachable_static_body w h
  refine ⟨?_, h1, ?_, ?_⟩
  · rw [← List.head?_eq_getElem?]
    exact h1
  · simp [cpSpaceContainsBody, h2]
  · intro body hbody
    unfold cpSpaceRemoveBody
    rw [if_pos hbody.symm]

theorem reachable_bodyWorld : ReachableByBodyCalls bodyWorld :=
  ReachableByBodyCalls.removeBody 5
    (ReachableByBodyCalls.addBody 5 (ReachableByBodyCalls.init blankWorld) rfl) rfl

theorem designated_static_body_is_never_removed_witness :
    ReachableByBodyCalls bodyWorld ∧
    bodyWorld.space.otherBodies[0]? = some bodyWorld.staticBody ∧
    cpSpaceGetStaticBody bodyWorld = some bodyWorld.staticBody ∧
    cpSpaceContainsBody bodyWorld bodyWorld.staticBody = true ∧
    (∀ body, cpSpaceGetStaticBody bodyWorld = some body →
      cpSpaceRemoveBody bodyWorld body = Res.fatal Fatal.designatedStaticBody bodyWorld) :=
  ⟨reachable_bodyWorld, designated_static_body_is_never_removed bodyWorld reachable_bodyWorld⟩

/-! ## Shapes and the two spatial indices -/

theorem cpSpaceAddShape_inv (w w1 : World) (S r : Ptr) (h : cpSpaceAddShape w S = Res.ok r w1) :
    w.space.locked = 0 ∧ (w.shapes S).space = none := by
  unfold cpSpaceAddShape at h
  split_ifs at h with c1 c2 c3
  exact ⟨not_not.mp c3, not_not.mp c2⟩

theorem cpSpaceRemoveShape_inv (w w1 : World) (S : Ptr) (h : cpSpaceRemoveShape w S = Res.ok () w1) :
    w.space.locked = 0 ∧ (w.shapes S).space = some w.self := by
  unfold cpSpaceRemoveShape at h
  split_ifs at h with c1 c2
  refine ⟨not_not.mp c2, ?_⟩
  simpa [cpSpaceContainsShape] using c1

theorem shapesIndexed_cpSpaceInit (w0 : World)
    (fresh : ∀ shape, (w0.shapes shape).space ≠ some w0.self) : ShapesIndexed (cpSpaceInit w0) := by
  refine ⟨?_, ?_, ?_⟩
  · intro e he
    simp [cpSpaceInit] at he
  · intro e he
    simp [cpSpaceInit] at he
  · intro shape hs
    exact absurd hs (fresh shape)

theorem mem_cpSpatialIndexInsert (index : cpSpatialIndex) (S : Ptr) (id : Nat) (e : Ptr × Nat) :
    e ∈ (cpSpatialIndexInsert index S id).entries ↔ e ∈ index.entries ∨ e = (S, id) := by
  unfold cpSpatialIndexInsert
  split_ifs with h
  · constructor
    · exact Or.inl
    · rintro (h1 | h1)
      · exact h1
      · rw [h1]; exact h
  · simp

theorem mem_cpSpatialIndexRemove (index : cpSpatialIndex) (S : Ptr) (id : Nat) (e : Ptr × Nat) :
    e ∈ (cpSpatialIndexRemove index S id).entries ↔ e ∈ index.entries ∧ e ≠ (S, id) := by
  unfold cpSpatialIndexRemove
  simp only [List.mem_filter, Bool.not_eq_true', Bool.and_eq_false_imp, beq_iff_eq,
    beq_eq_false_iff_ne, ne_eq, and_congr_right_iff]
  intro _
  constructor
  · intro h heq
    rw [heq] at h
    exact h rfl rfl
  · intro h h1 h2
    exact h (Prod.ext h1 h2)

theorem shapesIndexed_cpSpaceAddShape (w w1 : World) (S : Ptr) (hinv : ShapesIndexed w)
    (hadd : cpSpaceAddShape w S = Res.ok S w1) : ShapesIndexed w1 := by
  obtain ⟨hlock, hS⟩ := cpSpaceAddShape_inv w w1 S S hadd
  obtain ⟨w1', hadd', hself, hbod, -, hS1, hoth, -, hsta, hdyn⟩ := cpSpaceAddShape_ok w S hlock hS
  have hw : w1 = w1' := by
    rw [hadd] at hadd'
    injection hadd'
  subst hw
  obtain ⟨i1, i2, i3⟩ := hinv
  have hnd : ∀ e ∈ w.space.dynamicShapes.entries, e.1 ≠ S := by
    intro e he heq
    have := (i1 e he).1
    rw [heq, hS] at this
    exact Option.noConfusion this
  have hns : ∀ e ∈ w.space.staticShapes.entries, e.1 ≠ S := by
    intro e he heq
    have := (i2 e he).1
    rw [heq, hS] at this
    exact Option.noConfusion this
  have hst : ∀ p, cpBodyIsStatic w1 p = cpBodyIsStatic w p := by
    intro p
    simp [cpBodyIsStatic, hbod]
  have hbodyS : (w1.shapes S).body = (w.shapes S).body := by rw [hS1]
  have hidS : (w1.shapes S).hashid = w.space.shapeIDCounter := by rw [hS1]
  have hspS : (w1.shapes S).space = some w1.self := by rw [hS1, hself]
  have hold1 : ∀ e ∈ w.space.dynamicShapes.entries,
      (w1.shapes e.1).space = some w1.self ∧ e.2 = (w1.shapes e.1).hashid ∧
      cpBodyIsStatic w1 (w1.shapes e.1).body = false := by
    intro e he
    rw [hoth e.1 (hnd e he), hself, hst]
    exact i1 e he
  have hold2 : ∀ e ∈ w.space.staticShapes.entries,
      (w1.shapes e.1).space = some w1.self ∧ e.2 = (w1.shapes e.1).hashid ∧
      cpBodyIsStatic w1 (w1.shapes e.1).body = true := by
    intro e he
    rw [hoth e.1 (hns e he), hself, hst]
    exact i2 e he
  by_cases hs : cpBodyIsStatic w (w.shapes S).body = true
  · rw [if_pos hs] at hsta hdyn
    refine ⟨?_, ?_, ?_⟩
    · intro e he
      rw [hdyn] at he
      exact hold1 e he
    · intro e he
      rw [hsta] at he
      rcases (mem_cpSpatialIndexInsert _ _ _ _).mp he with h1 | h1
      · exact hold2 e h1
      · subst h1
        exact ⟨hspS, hidS.symm, by rw [hst, hbodyS]; exact hs⟩
    · intro shape hsp
      rw [hst, hsta, hdyn]
      by_cases hsh : shape = S
      · subst hsh
        rw [hbodyS, if_pos hs, hidS]
        exact (mem_cpSpatialIndexInsert _ _ _ _).mpr (Or.inr rfl)
      · rw [hoth shape hsh] at hsp ⊢
        rw [hself] at hsp
        have h3 := i3 shape hsp
        split_ifs at h3 ⊢ with c
        · exact (mem_cpSpatialIndexInsert _ _ _ _).mpr (Or.inl h3)
        · exact h3
  · rw [if_neg hs] at hsta hdyn
    refine ⟨?_, ?_, ?_⟩
    · intro e he
      rw [hdyn] at he
      rcases (mem_cpSpatialIndexInsert _ _ _ _).mp he with h1 | h1
      · exact hold1 e h1
      · subst h1
        exact ⟨hspS, hidS.symm, by rw [hst, hbodyS]; simpa using hs⟩
    · intro e he
      rw [hsta] at he
      exact hold2 e he
    · intro shape hsp
      rw [hst, hsta, hdyn]
      by_cases hsh : shape = S
      · subst hsh
        rw [hbodyS, if_neg hs, hidS]
        exact (mem_cpSpatialIndexInsert _ _ _ _).mpr (Or.inr rfl)
      · rw [hoth shape hsh] at hsp ⊢
        rw [hself] at hsp
        have h3 := i3 shape hsp
        split_ifs at h3 ⊢ with c
        · exact h3
        · exact (mem_cpSpatialIndexInsert _ _ _ _).mpr (Or.inl h3)

theorem shapesIndexed_cpSpaceRemoveShape (w w1 : World) (S : Ptr) (hinv : ShapesIndexed w)
    (hrem : cpSpaceRemoveShape w S = Res.ok () w1) : ShapesIndexed w1 := by
  obtain ⟨hlock, hS⟩ := cpSpaceRemoveShape_inv w w1 S hrem
  obtain ⟨w1', hrem', hself, hbod, -, hS1, hoth, -, hsta, hdyn⟩ :=
    cpSpaceRemoveShape_ok w S hlock hS
  have hw : w1 = w1' := by
    rw [hrem] at hrem'
    injection hrem'
  subst hw
  obtain ⟨i1, i2, i3⟩ := hinv
  have hst : ∀ p, cpBodyIsStatic w1 p = cpBodyIsStatic w p := by
    intro p
    simp [cpBodyIsStatic, hbod]
  have hspS : (w1.shapes S).space = none := by rw [hS1]
  have hkeep1 : ∀ e ∈ w.space.dynamicShapes.entries, e.1 ≠ S →
      (w1.shapes e.1).space = some w1.self ∧ e.2 = (w1.shapes e.1).hashid ∧
      cpBodyIsStatic w1 (w1.shapes e.1).body = false := by
    intro e he hne
    rw [hoth e.1 hne, hself, hst]
    exact i1 e he
  have hkeep2 : ∀ e ∈ w.space.staticShapes.entries, e.1 ≠ S →
      (w1.shapes e.1).space = some w1.self ∧ e.2 = (w1.shapes e.1).hashid ∧
      cpBodyIsStatic w1 (w1.shapes e.1).body = true := by
    intro e he hne
    rw [hoth e.1 hne, hself, hst]
    exact i2 e he
  by_cases hs : cpBodyIsStatic w (w.shapes S).body = true
  · rw [if_pos hs] at hsta hdyn
    refine ⟨?_, ?_, ?_⟩
    · intro e he
      rw [hdyn] at he
      apply hkeep1 e he
      intro heq
      have := (i1 e he).2.2
      rw [heq, hs] at this
      exact absurd this (by decide)
    · intro e he
      rw [hsta] at he
      obtain ⟨h1, h2⟩ := (mem_cpSpatialIndexRemove _ _ _ _).mp he
      apply hkeep2 e h1
      intro heq
      apply h2
      have := (i2 e h1).2.1
      rw [heq] at this
      exact Prod.ext heq this
    · intro shape hsp
      have hsh : shape ≠ S := by
        intro hsh
        rw [hsh, hspS] at hsp
        exact Option.noConfusion hsp
      rw [hst, hsta, hdyn]
      rw [hoth shape hsh] at hsp ⊢
      rw [hself] at hsp
      have h3 := i3 shape hsp
      split_ifs at h3 ⊢ with c
      · refine (mem_cpSpatialIndexRemove _ _ _ _).mpr ⟨h3, ?_⟩
        intro heq
        exact hsh (congrArg Prod.fst heq)
      · exact h3
  · rw [if_neg hs] at hsta hdyn
    refine ⟨?_, ?_, ?_⟩
    · intro e he
      rw [hdyn] at he
      obtain ⟨h1, h2⟩ := (mem_cpSpatialIndexRemove _ _ _ _).mp he
      apply hkeep1 e h1
      intro heq
      apply h2
      have := (i1 e h1).2.1
      rw [heq] at this
      exact Prod.ext heq this
    · intro e he
      rw [hsta] at he
      apply hkeep2 e he
      intro heq
      have := (i2 e he).2.2
      rw [heq] at this
      exact hs this
    · intro shape hsp
      have hsh : shape ≠ S := by
        intro hsh
        rw [hsh, hspS] at hsp
        exact Option.noConfusion hsp
      rw [hst, hsta, hdyn]
      rw [hoth shape hsh] at hsp ⊢
      rw [hself] at hsp
      have h3 := i3 shape hsp
      split_ifs at h3 ⊢ with c
      · exact h3
      · refine (mem_cpSpatialIndexRemove _ _ _ _).mpr ⟨h3, ?_⟩
        intro heq
        exact hsh (congrArg Prod.fst heq)

theorem reachable_shapesIndexed (n : Nat) (w : World) (h : ReachableByShapeCalls n w) :
    ShapesIndexed w := by
  induction h with
  | init w0 fresh => exact shapesIndexed_cpSpaceInit w0 fresh
  | addShape shape _ hadd ih => exact shapesIndexed_cpSpaceAddShape _ _ shape ih hadd
  | removeShape shape _ hrem ih => exact shapesIndexed_cpSpaceRemoveShape _ _ shape ih hrem

/-- C11: in every state reached from `cpSpaceInit` (run on memory in which no
shape names the space) by successful `cpSpaceAddShape` and `cpSpaceRemoveShape`
calls, a shape whose `space` field is the space is stored in the static index
and not in the dynamic one if its body is static, in the dynamic index and not
in the static one otherwise; a shape that is not a member, in particular one
that was just removed, is stored in neither. -/
theorem member_shape_in_exactly_one_index (n : Nat) (w : World)
    (h : ReachableByShapeCalls n w) (S : Ptr) :
    ((w.shapes S).space = some w.self →
      (cpBodyIsStatic w (w.shapes S).body = true →
        S ∈ cpSpatialIndexEach w.space.staticShapes ∧
        S ∉ cpSpatialIndexEach w.space.dynamicShapes) ∧
      (cpBodyIsStatic w (w.shapes S).body = false →
        S ∈ cpSpatialIndexEach w.space.dynamicShapes ∧
        S ∉ cpSpatialIndexEach w.space.staticShapes)) ∧
    ((w.shapes S).space ≠ some w.self →
      S ∉ cpSpatialIndexEach w.space.staticShapes ∧
      S ∉ cpSpatialIndexEach w.space.dynamicShapes) ∧
    (∀ w1, cpSpaceRemoveShape w S = Res.ok () w1 →
      S ∉ cpSpatialIndexEach w1.space.staticShapes ∧
      S ∉ cpSpatialIndexEach w1.space.dynamicShapes) := by
  have key : ∀ v : World, ShapesIndexed v →
      ((v.shapes S).space = some v.self →
        (cpBodyIsStatic v (v.shapes S).body = true →
          S ∈ cpSpatialIndexEach v.space.staticShapes ∧
          S ∉ cpSpatialIndexEach v.space.dynamicShapes) ∧
        (cpBodyIsStatic v (v.shapes S).body = false →
          S ∈ cpSpatialIndexEach v.space.dynamicShapes ∧
          S ∉ cpSpatialIndexEach v.space.staticShapes)) ∧
      ((v.shapes S).space ≠ some v.self →
        S ∉ cpSpatialIndexEach v.space.staticShapes ∧
        S ∉ cpSpatialIndexEach v.space.dynamicShapes) := by
    intro v hv
    obtain ⟨i1, i2, i3⟩ := hv
    have hnd : cpBodyIsStatic v (v.shapes S).body = true →
        S ∉ cpSpatialIndexEach v.space.dynamicShapes := by
      intro hs hmem
      obtain ⟨e, he, heq⟩ := List.mem_map.mp hmem
      have := (i1 e he).2.2
      rw [heq, hs] at this
      exact absurd this (by decide)
    have hns : cpBodyIsStatic v (v.shapes S).body = false →
        S ∉ cpSpatialIndexEach v.space.staticShapes := by
      intro hs hmem
      obtain ⟨e, he, heq⟩ := List.mem_map.mp hmem
      have := (i2 e he).2.2
      rw [heq, hs] at this
      exact absurd this (by decide)
    refine ⟨?_, ?_⟩
    · intro hsp
      have h3 := i3 S hsp
      refine ⟨?_, ?_⟩
      · intro hs
        rw [if_pos hs] at h3
        exact ⟨List.mem_map.mpr ⟨_, h3, rfl⟩, hnd hs⟩
      · intro hs
        rw [hs] at h3
        exact ⟨List.mem_map.mpr ⟨_, h3, rfl⟩, hns hs⟩
    · intro hsp
      refine ⟨?_, ?_⟩
      · intro hmem
        obtain ⟨e, he, heq⟩ := List.mem_map.mp hmem
        have := (i2 e he).1
        rw [heq] at this
        exact hsp this
      · intro hmem
        obtain ⟨e, he, heq⟩ := List.mem_map.mp hmem
        have := (i1 e he).1
        rw [heq] at this
        exact hsp this
  have hinv := reachable_shapesIndexed n w h
  refine ⟨(key w hinv).1, (key w hinv).2, ?_⟩
  intro w1 hrem
  have hinv1 := shapesIndexed_cpSpaceRemoveShape w w1 S hinv hrem
  obtain ⟨hlock, hS⟩ := cpSpaceRemoveShape_inv w w1 S hrem
  obtain ⟨w1', hrem', -, -, -, hS1, -⟩ := cpSpaceRemoveShape_ok w S hlock hS
  have hw : w1 = w1' := by
    rw [hrem] at hrem'
    injection hrem'
  subst hw
  apply (key w1 hinv1).2
  rw [hS1]
  exact fun hc => Option.noConfusion hc

theorem fresh_blankWorld_shapes :
    ∀ shape, (blankWorld.shapes shape).space ≠ some blankWorld.self := by
  intro shape
  simp [blankWorld]

theorem reachable_shapeWorld : ReachableByShapeCalls 2 shapeWorld :=
  ReachableByShapeCalls.removeShape 3
    (ReachableByShapeCalls.addShape 4
      (ReachableByShapeCalls.addShape 3
        (ReachableByShapeCalls.init blankWorld fresh_blankWorld_shapes) rfl) rfl) rfl

theorem member_shape_in_exactly_one_index_witness :
    ReachableByShapeCalls 2 shapeWorld ∧
    ((shapeWorld.shapes 4).space = some shapeWorld.self →
      (cpBodyIsStatic shapeWorld (shapeWorld.shapes 4).body = true →
        4 ∈ cpSpatialIndexEach shapeWorld.space.staticShapes ∧
        4 ∉ cpSpatialIndexEach shapeWorld.space.dynamicShapes) ∧
      (cpBodyIsStatic shapeWorld (shapeWorld.shapes 4).body = false →
        4 ∈ cpSpatialIndexEach shapeWorld.space.dynamicShapes ∧
        4 ∉ cpSpatialIndexEach shapeWorld.space.staticShapes)) ∧
    ((shapeWorld.shapes 4).space ≠ some shapeWorld.self →
      4 ∉ cpSpatialIndexEach shapeWorld.space.staticShapes ∧
      4 ∉ cpSpatialIndexEach shapeWorld.space.dynamicShapes) ∧
    (∀ w1, cpSpaceRemoveShape shapeWorld 4 = Res.ok () w1 →
      4 ∉ cpSpatialIndexEach w1.space.staticShapes ∧
      4 ∉ cpSpatialIndexEach w1.space.dynamicShapes) :=
  ⟨reachable_shapeWorld, member_shape_in_exactly_one_index 2 shapeWorld reachable_shapeWorld 4⟩

/-! ## Shape identifiers -/

theorem reachable_hashids (n : Nat) (w : World) (h : ReachableByShapeCalls n w)
    (hn : n < 2 ^ cpHashValueBits) :
    w.space.shapeIDCounter = n ∧
    (∀ S, (w.shapes S).space = some w.self → (w.shapes S).hashid < n) ∧
    (∀ S T, (w.shapes S).space = some w.self → (w.shapes T).space = some w.self → S ≠ T →
      (w.shapes S).hashid ≠ (w.shapes T).hashid) := by
  induction h with
  | init w0 fresh =>
    refine ⟨rfl, ?_, ?_⟩
    · intro S hS
      exact absurd hS (fresh S)
    · intro S T hS
      exact absurd hS (fresh S)
  | @addShape n w w1 shape _ hadd ih =>
    obtain ⟨ih1, ih2, ih3⟩ := ih (by omega)
    obtain ⟨hlock, hS⟩ := cpSpaceAddShape_inv w w1 shape shape hadd
    obtain ⟨w1', hadd', hself, -, -, hS1, hoth, hcnt, -, -⟩ := cpSpaceAddShape_ok w shape hlock hS
    have hw : w1 = w1' := by
      rw [hadd] at hadd'
      injection hadd'
    subst hw
    have hid : (w1.shapes shape).hashid = n := by rw [hS1, ← ih1]
    have hmem : ∀ T, T ≠ shape → (w1.shapes T).space = some w1.self →
        (w.shapes T).space = some w.self ∧ (w1.shapes T).hashid = (w.shapes T).hashid := by
      intro T hT hsp
      rw [hoth T hT, hself] at hsp
      exact ⟨hsp, by rw [hoth T hT]⟩
    refine ⟨?_, ?_, ?_⟩
    · rw [hcnt, ih1]
      exact Nat.mod_eq_of_lt hn
    · intro S hsp
      by_cases hSs : S = shape
      · rw [hSs, hid]
        omega
      · obtain ⟨h1, h2⟩ := hmem S hSs hsp
        rw [h2]
        have := ih2 S h1
        omega
    · intro S T hS' hT' hne
      by_cases hSs : S = shape
      · have hTs : T ≠ shape := fun hT => hne (hSs.trans hT.symm)
        obtain ⟨h1, h2⟩ := hmem T hTs hT'
        rw [hSs, hid, h2]
        have := ih2 T h1
        omega
      · obtain ⟨h1, h2⟩ := hmem S hSs hS'
        by_cases hTs : T = shape
        · rw [hTs, hid, h2]
          have := ih2 S h1
          omega
        · obtain ⟨h3, h4⟩ := hmem T hTs hT'
          rw [h2, h4]
          exact ih3 S T h1 h3 hne
  | @removeShape n w w1 shape _ hrem ih =>
    obtain ⟨ih1, ih2, ih3⟩ := ih hn
    obtain ⟨hlock, hS⟩ := cpSpaceRemoveShape_inv w w1 shape hrem
    obtain ⟨w1', hrem', hself, -, -, hS1, hoth, hcnt, -, -⟩ := cpSpaceRemoveShape_ok w shape hlock hS
    have hw : w1 = w1' := by
      rw [hrem] at hrem'
      injection hrem'
    subst hw
    have hmem : ∀ T, (w1.shapes T).space = some w1.self →
        T ≠ shape ∧ (w.shapes T).space = some w.self ∧
        (w1.shapes T).hashid = (w.shapes T).hashid := by
      intro T hsp
      have hT : T ≠ shape := by
        intro hT
        rw [hT, hS1] at hsp
        exact Option.noConfusion hsp
      rw [hoth T hT, hself] at hsp
      exact ⟨hT, hsp, by rw [hoth T hT]⟩
    refine ⟨by rw [hcnt, ih1], ?_, ?_⟩
    · intro S hsp
      obtain ⟨-, h1, h2⟩ := hmem S hsp
      rw [h2]
      exact ih2 S h1
    · intro S T hS' hT' hne
      obtain ⟨-, h1, h2⟩ := hmem S hS'
      obtain ⟨-, h3, h4⟩ := hmem T hT'
      rw [h2, h4]
      exact ih3 S T h1 h3 hne

/-- C13: `cpSpaceAddShape` gives the shape the current `shapeIDCounter` as
`hashid` and advances the counter by one; so in every state reached from
`cpSpaceInit` by successful `cpSpaceAddShape` and `cpSpaceRemoveShape` calls,
with fewer than `2 ^ cpHashValueBits` adds, every member shape has a `hashid`
below `shapeIDCounter`, two distinct member shapes have distinct `hashid`s, and
a shape added next gets a `hashid` strictly above those of all members. -/
theorem hashid_unique_and_increasing (n : Nat) (w : World) (h : ReachableByShapeCalls n w)
    (hn : n < 2 ^ cpHashValueBits) :
    (∀ S, (w.shapes S).space = some w.self → (w.shapes S).hashid < w.space.shapeIDCounter) ∧
    (∀ S T, (w.shapes S).space = some w.self → (w.shapes T).space = some w.self → S ≠ T →
      (w.shapes S).hashid ≠ (w.shapes T).hashid) ∧
    (∀ S w1, cpSpaceAddShape w S = Res.ok S w1 →
      (w1.shapes S).hashid = w.space.shapeIDCounter ∧
      (n + 1 < 2 ^ cpHashValueBits → w1.space.shapeIDCounter = w.space.shapeIDCounter + 1) ∧
      (∀ T, (w.shapes T).space = some w.self →
        (w1.shapes T).space = some w1.self ∧ (w1.shapes T).hashid < (w1.shapes S).hashid)) := by
  obtain ⟨h1, h2, h3⟩ := reachable_hashids n w h hn
  refine ⟨?_, h3, ?_⟩
  · intro S hS
    rw [h1]
    exact h2 S hS
  · intro S w1 hadd
    obtain ⟨hlock, hS⟩ := cpSpaceAddShape_inv w w1 S S hadd
    obtain ⟨w1', hadd', hself, -, -, hS1, hoth, hcnt, -, -⟩ := cpSpaceAddShape_ok w S hlock hS
    have hw : w1 = w1' := by
      rw [hadd] at hadd'
      injection hadd'
    subst hw
    refine ⟨by rw [hS1], ?_, ?_⟩
    · intro hn1
      rw [hcnt, h1]
      exact Nat.mod_eq_of_lt hn1
    · intro T hT
      have hTS : T ≠ S := by
        intro hTS
        rw [hTS, hS] at hT
        exact Option.noConfusion hT
      rw [hoth T hTS, hself, hS1]
      refine ⟨hT, ?_⟩
      have := h2 T hT
      simp only
      omega

theorem hashid_unique_and_increasing_witness :
    ReachableByShapeCalls 2 shapeWorld ∧ 2 < 2 ^ cpHashValueBits ∧
    (∀ S, (shapeWorld.shapes S).space = some shapeWorld.self →
      (shapeWorld.shapes S).hashid < shapeWorld.space.shapeIDCounter) ∧
    (∀ S T, (shapeWorld.shapes S).space = some shapeWorld.self →
      (shapeWorld.shapes T).space = some shapeWorld.self → S ≠ T →
        (shapeWorld.shapes S).hashid ≠ (shapeWorld.shapes T).hashid) ∧
    (∀ S w1, cpSpaceAddShape shapeWorld S = Res.ok S w1 →
      (w1.shapes S).hashid = shapeWorld.space.shapeIDCounter ∧
      (2 + 1 < 2 ^ cpHashValueBits →
        w1.space.shapeIDCounter = shapeWorld.space.shapeIDCounter + 1) ∧
      (∀ T, (shapeWorld.shapes T).space = some shapeWorld.self →
        (w1.shapes T).space = some w1.self ∧ (w1.shapes T).hashid < (w1.shapes S).hashid)) :=
  ⟨reachable_shapeWorld, by decide,
    hashid_unique_and_increasing 2 shapeWorld reachable_shapeWorld (by decide)⟩

/-! ## Swapping the spatial indices -/

theorem copyShapes_foldl_mem (w : World) (shapes : List Ptr) (index : cpSpatialIndex)
    (e : Ptr × Nat) :
    e ∈ (shapes.foldl (fun index shape => copyShapes w shape index) index).entries ↔
      e ∈ index.entries ∨ e ∈ shapes.map (fun shape => (shape, (w.shapes shape).hashid)) := by
  induction shapes generalizing index with
  | nil => simp
  | cons x xs ih =>
    rw [List.foldl_cons, ih, copyShapes, mem_cpSpatialIndexInsert, List.map_cons, List.mem_cons]
    tauto

theorem cpSpatialIndexInsert_nodup (index : cpSpatialIndex) (S : Ptr) (id : Nat)
    (h : index.entries.Nodup) : (cpSpatialIndexInsert index S id).entries.Nodup := by
  unfold cpSpatialIndexInsert
  split_ifs with hin
  · exact h
  · exact List.Nodup.append h (List.nodup_singleton _) (by simpa using hin)

theorem copyShapes_foldl_nodup (w : World) (shapes : List Ptr) (index : cpSpatialIndex)
    (h : index.entries.Nodup) :
    (shapes.foldl (fun index shape => copyShapes w shape index) index).entries.Nodup := by
  induction shapes generalizing index with
  | nil => exact h
  | cons x xs ih =>
    rw [List.foldl_cons]
    exact ih _ (cpSpatialIndexInsert_nodup _ _ _ h)

theorem map_hashid_of_keyed (w : World) (index : cpSpatialIndex)
    (h : ∀ e ∈ index.entries, e.2 = (w.shapes e.1).hashid) :
    (cpSpatialIndexEach index).map (fun shape => (shape, (w.shapes shape).hashid)) =
      index.entries := by
  unfold cpSpatialIndexEach
  rw [List.map_map]
  conv_rhs => rw [← List.map_id index.entries]
  apply List.map_congr_left
  intro e he
  simp only [Function.comp_apply, id_eq]
  exact Prod.ext rfl (h e he).symm

/-- C12: in a space whose index entries are stored under the `hashid` of their
shape, `cpSpaceUseSpatialHash` leaves each of the two indices with the same set
of (shape, hashid) entries as before, none of them twice: no shape is lost,
added, duplicated or moved between the static and the dynamic index; nothing
else in the state changes. -/
theorem cpSpaceUseSpatialHash_preserves_entries (w : World) (dim : Rat) (count : Int)
    (hkey : IndexedByHashid w) :
    (∀ e, e ∈ (cpSpaceUseSpatialHash w dim count).space.staticShapes.entries ↔
      e ∈ w.space.staticShapes.entries) ∧
    (∀ e, e ∈ (cpSpaceUseSpatialHash w dim count).space.dynamicShapes.entries ↔
      e ∈ w.space.dynamicShapes.entries) ∧
    (cpSpaceUseSpatialHash w dim count).space.staticShapes.entries.Nodup ∧
    (cpSpaceUseSpatialHash w dim count).space.dynamicShapes.entries.Nodup ∧
    (cpSpaceUseSpatialHash w dim count).shapes = w.shapes ∧
    (cpSpaceUseSpatialHash w dim count).trace = w.trace := by
  refine ⟨?_, ?_, ?_, ?_, rfl, rfl⟩
  · intro e
    simp only [cpSpaceUseSpatialHash, cpSpaceHashNew]
    rw [copyShapes_foldl_mem, map_hashid_of_keyed w _ hkey.2]
    simp
  · intro e
    simp only [cpSpaceUseSpatialHash, cpSpaceHashNew]
    rw [copyShapes_foldl_mem, map_hashid_of_keyed w _ hkey.1]
    simp
  · simp only [cpSpaceUseSpatialHash, cpSpaceHashNew]
    exact copyShapes_foldl_nodup _ _ _ List.nodup_nil
  · simp only [cpSpaceUseSpatialHash, cpSpaceHashNew]
    exact copyShapes_foldl_nodup _ _ _ List.nodup_nil

theorem indexedByHashid_of_shapesIndexed (w : World) (h : ShapesIndexed w) : IndexedByHashid w :=
  ⟨fun e he => (h.1 e he).2.1, fun e he => (h.2.1 e he).2.1⟩

theorem cpSpaceUseSpatialHash_preserves_entries_witness :
    IndexedByHashid shapeWorld ∧
    (∀ e, e ∈ (cpSpaceUseSpatialHash shapeWorld 5 100).space.staticShapes.entries ↔
      e ∈ shapeWorld.space.staticShapes.entries) ∧
    (∀ e, e ∈ (cpSpaceUseSpatialHash shapeWorld 5 100).space.dynamicShapes.entries ↔
      e ∈ shapeWorld.space.dynamicShapes.entries) ∧
    (cpSpaceUseSpatialHash shapeWorld 5 100).space.staticShapes.entries.Nodup ∧
    (cpSpaceUseSpatialHash shapeWorld 5 100).space.dynamicShapes.entries.Nodup ∧
    (cpSpaceUseSpatialHash shapeWorld 5 100).shapes = shapeWorld.shapes ∧
    (cpSpaceUseSpatialHash shapeWorld 5 100).trace = shapeWorld.trace :=
  ⟨indexedByHashid_of_shapesIndexed _ (reachable_shapesIndexed 2 shapeWorld reachable_shapeWorld),
    cpSpaceUseSpatialHash_preserves_entries shapeWorld 5 100
      (indexedByHashid_of_shapesIndexed _
        (reachable_shapesIndexed 2 shapeWorld reachable_shapeWorld))⟩

/-! ## Removing a body leaves the arbiters alone -/

/-- C14: in an unlocked space, removing a member body other than the
designated static body succeeds and leaves `cachedArbiters`, `arbiters`,
`pooledArbiters` and every arbiter record exactly as they were, invokes no
`separate` callback, and makes `cpSpaceContainsBody` false; so a cached arbiter
with `body_a = body` or `body_b = body` is still cached. -/
theorem cpSpaceRemoveBody_keeps_arbiters (w : World) (body : Ptr)
    (hlock : w.space.locked = 0) (hmem : (w.bodies body).space = some w.self)
    (hnot : some body ≠ cpSpaceGetStaticBody w) :
    ∃ w1, cpSpaceRemoveBody w body = Res.ok () w1 ∧
      w1.space.cachedArbiters = w.space.cachedArbiters ∧
      w1.space.arbiters = w.space.arbiters ∧
      w1.space.pooledArbiters = w.space.pooledArbiters ∧
      w1.arbs = w.arbs ∧
      separateCalls (emitted w w1) = [] ∧
      cpSpaceContainsBody w1 body = false ∧
      (∀ bin ∈ w.space.cachedArbiters,
        ((w.arbs bin.elt).body_a = body ∨ (w.arbs bin.elt).body_b = body) →
          bin ∈ w1.space.cachedArbiters ∧
          ((w1.arbs bin.elt).body_a = body ∨ (w1.arbs bin.elt).body_b = body)) := by
  have hres : cpSpaceRemoveBody w body = Res.ok () (cpSpaceRemoveBody w body).world := by
    simp only [cpSpaceRemoveBody, cpSpaceContainsBody, hmem, hlock, if_neg hnot, beq_self_eq_true,
      Bool.not_true, Bool.false_eq_true, if_false, ne_eq, not_true_eq_false, Res.world]
  obtain ⟨-, -, -, hw1⟩ := cpSpaceRemoveBody_ok w _ body hres
  refine ⟨_, hres, ?_, ?_, ?_, ?_, ?_, ?_, ?_⟩
  · rw [hw1]
  · rw [hw1]
  · rw [hw1]
  · rw [hw1]
  · have ht : (cpSpaceRemoveBody w body).world.trace = w.trace ++ [Event.bodyActivate body] := by
      rw [hw1]
    rw [emitted_of_trace_eq ht]
    rfl
  · rw [hw1]
    simp [cpSpaceContainsBody]
  · intro bin hbin href
    rw [hw1]
    exact ⟨hbin, href⟩

theorem cpSpaceRemoveBody_keeps_arbiters_witness :
    cachedBodyWorld.space.locked = 0 ∧
    (cachedBodyWorld.bodies 11).space = some cachedBodyWorld.self ∧
    some 11 ≠ cpSpaceGetStaticBody cachedBodyWorld ∧
    ∃ w1, cpSpaceRemoveBody cachedBodyWorld 11 = Res.ok () w1 ∧
      w1.space.cachedArbiters = cachedBodyWorld.space.cachedArbiters ∧
      w1.space.arbiters = cachedBodyWorld.space.arbiters ∧
      w1.space.pooledArbiters = cachedBodyWorld.space.pooledArbiters ∧
      w1.arbs = cachedBodyWorld.arbs ∧
      separateCalls (emitted cachedBodyWorld w1) = [] ∧
      cpSpaceContainsBody w1 11 = false ∧
      (∀ bin ∈ cachedBodyWorld.space.cachedArbiters,
        ((cachedBodyWorld.arbs bin.elt).body_a = 11 ∨
          (cachedBodyWorld.arbs bin.elt).body_b = 11) →
          bin ∈ w1.space.cachedArbiters ∧
          ((w1.arbs bin.elt).body_a = 11 ∨ (w1.arbs bin.elt).body_b = 11)) :=
  ⟨by decide, by decide, by decide,
    cpSpaceRemoveBody_keeps_arbiters cachedBodyWorld 11 (by decide) (by decide) (by decide)⟩

/-! ## Adding a constraint -/

/-- C15 (as the code has it): for a constraint that belongs to no space, the
call aborts and changes nothing if an endpoint is `NULL`; in an unlocked space,
with two non-null and distinct endpoints `a` and `b`, it succeeds, the
constraint is the last element of `constraints`, it heads the constraint list
of `a` with `next_a` the former head of `a`, it heads the constraint list of
`b` with `next_b` the former head of `b`, and its `space` field is the
space. -/
theorem cpSpaceAddConstraint_threads (w : World) (c : Ptr)
    (hS : (w.joints c).space = none) :
    (((w.joints c).a = none ∨ (w.joints c).b = none) →
      cpSpaceAddConstraint w c = Res.fatal Fatal.nullBody w) ∧
    (∀ a b, w.space.locked = 0 → (w.joints c).a = some a → (w.joints c).b = some b → a ≠ b →
      ∃ w1, cpSpaceAddConstraint w c = Res.ok c w1 ∧
        w1.space.constraints.getLast? = some c ∧
        (w1.bodies a).constraintList = some c ∧
        (w1.joints c).next_a = (w.bodies a).constraintList ∧
        (w1.bodies b).constraintList = some c ∧
        (w1.joints c).next_b = (w.bodies b).constraintList ∧
        (w1.joints c).space = some w.self) := by
  have hne : (w.joints c).space ≠ some w.self := by
    rw [hS]
    exact fun h => Option.noConfusion h
  refine ⟨?_, ?_⟩
  · intro hnull
    unfold cpSpaceAddConstraint
    rw [if_neg hne, if_neg (not_not.mpr hS)]
    rcases hnull with h | h
    · rw [h]
    · rw [h]
      cases (w.joints c).a <;> rfl
  · intro a b hlock ha hb hab
    have hres : cpSpaceAddConstraint w c = Res.ok c (cpSpaceAddConstraint w c).world := by
      unfold cpSpaceAddConstraint
      rw [if_neg hne, if_neg (not_not.mpr hS), ha, hb]
      simp only [hlock, ne_eq, not_true_eq_false, if_false, Res.world]
    refine ⟨_, hres, ?_⟩
    unfold cpSpaceAddConstraint
    rw [if_neg hne, if_neg (not_not.mpr hS), ha, hb]
    simp only [hlock, ne_eq, not_true_eq_false, if_false, Res.world, cpBodyActivate, World.emit,
      cpArrayPush, Function.update_same, Function.update_noteq hab, Function.update_noteq hab.symm,
      and_self, and_true, true_and]
    simp

theorem cpSpaceAddConstraint_threads_witness :
    (freshWorld.joints 2).space = none ∧
    freshWorld.space.locked = 0 ∧ (freshWorld.joints 2).a = some 12 ∧
    (freshWorld.joints 2).b = some 13 ∧ (12 : Ptr) ≠ 13 ∧
    ∃ w1, cpSpaceAddConstraint freshWorld 2 = Res.ok 2 w1 ∧
      w1.space.constraints.getLast? = some 2 ∧
      (w1.bodies 12).constraintList = some 2 ∧
      (w1.joints 2).next_a = (freshWorld.bodies 12).constraintList ∧
      (w1.bodies 13).constraintList = some 2 ∧
      (w1.joints 2).next_b = (freshWorld.bodies 13).constraintList ∧
      (w1.joints 2).space = some freshWorld.self :=
  ⟨rfl, rfl, rfl, rfl, by decide,
    (cpSpaceAddConstraint_threads freshWorld 2 rfl).2 12 13 rfl rfl rfl (by decide)⟩

theorem cpSpaceAddConstraint_null_endpoint_example :
    (loopWorld.joints 4).space = none ∧ (loopWorld.joints 4).b = none ∧
    cpSpaceAddConstraint loopWorld 4 = Res.fatal Fatal.nullBody loopWorld :=
  ⟨rfl, rfl, rfl⟩

/-- C15 (counterexample to the claim as stated): constraint 2 of `loopWorld`
belongs to no space and has two non-null endpoints, both body 12; the call
succeeds, but `next_b` ends up being the constraint itself, not the head that
body 12 had before the call (which was `NULL`). -/
theorem cpSpaceAddConstraint_same_body :
    loopWorld.space.locked = 0 ∧ (loopWorld.joints 2).space = none ∧
    (loopWorld.joints 2).a = some 12 ∧ (loopWorld.joints 2).b = some 12 ∧
    (loopWorld.bodies 12).constraintList = none ∧
    (∃ w1, cpSpaceAddConstraint loopWorld 2 = Res.ok 2 w1) ∧
    ((cpSpaceAddConstraint loopWorld 2).world.joints 2).next_b = some 2 ∧
    ((cpSpaceAddConstraint loopWorld 2).world.joints 2).next_b ≠
      (loopWorld.bodies 12).constraintList :=
  ⟨rfl, rfl, rfl, rfl, rfl, ⟨_, rfl⟩, by decide, by decide⟩

/-! ## Removing a shape of a static body -/

theorem filterEvents_no_activation (w : World) (context : arbiterFilterContext) (arb : Ptr) :
    activations (filterEvents w context arb) = [] := by
  unfold filterEvents
  split_ifs <;> rfl

theorem activations_append (xs ys : List Event) :
    activations (xs ++ ys) = activations xs ++ activations ys := by
  simp [activations]

theorem activations_postStep (cs : List Ptr) : activations (cs.map Event.postStep) = [] := by
  induction cs with
  | nil => rfl
  | cons x xs ih =>
    simp only [activations, List.map_cons] at ih ⊢
    rw [List.filter_cons_of_neg (by simp [Event.isActivation])]
    exact ih

theorem cpHashSetFilter_no_activation (context : arbiterFilterContext) (set : cpHashSet)
    (w : World) :
    ∃ es, (cpHashSetFilter (fun v arb => cachedArbitersFilter v arb context) w set).1.trace =
        w.trace ++ es ∧ activations es = [] := by
  induction set generalizing w with
  | nil => exact ⟨[], by simp [cpHashSetFilter], rfl⟩
  | cons bin rest ih =>
    obtain ⟨es, h1, h2⟩ := ih (cachedArbitersFilter w bin.elt context).2
    refine ⟨filterEvents w context bin.elt ++ es, ?_, ?_⟩
    · simp only [cpHashSetFilter]
      rw [h1, cachedArbitersFilter_trace, List.append_assoc]
    · rw [activations_append, filterEvents_no_activation, h2]
      rfl

/-- A run of `cpSpaceFilterArbiters` wakes no body. -/
theorem cpSpaceFilterArbiters_no_activation (w : World) (body : Ptr) (filter : Option Ptr) :
    activations (emitted w (cpSpaceFilterArbiters w body filter)) = [] := by
  obtain ⟨es, cs, h1, h2⟩ := cpSpaceFilterArbiters_trace w body filter
  obtain ⟨es', h3, h4⟩ := cpHashSetFilter_no_activation { body := body, shape := filter }
    w.space.cachedArbiters (cpSpaceLock w)
  have hes : es' = es := List.append_cancel_left (h3.symm.trans h2)
  subst hes
  rw [List.append_assoc] at h1
  rw [emitted_of_trace_eq h1, activations_append, h4, activations_postStep]
  rfl

/-- The trace of a successful `cpSpaceRemoveShape` on a shape of a static
body. -/
theorem cpSpaceRemoveShape_static_trace (w : World) (S : Ptr) (hlock : w.space.locked = 0)
    (hS : (w.shapes S).space = some w.self)
    (hst : cpBodyIsStatic w (w.shapes S).body = true) :
    ∃ v w2, cpSpaceRemoveShape w S = Res.ok () w2 ∧
      v.trace = w.trace ++ [Event.bodyActivateStatic (w.shapes S).body (some S),
        Event.bodyRemoveShape (w.shapes S).body S] ∧
      w2.trace = (cpSpaceFilterArbiters v (w.shapes S).body (some S)).trace := by
  have hres : cpSpaceRemoveShape w S = Res.ok () (cpSpaceRemoveShape w S).world := by
    simp only [cpSpaceRemoveShape, cpSpaceContainsShape, hS, hlock, hst, beq_self_eq_true,
      Bool.not_true, Bool.false_eq_true, if_false, if_true, ne_eq, not_true_eq_false, Res.world]
  refine ⟨cpBodyRemoveShape (cpBodyActivateStatic w (w.shapes S).body (some S))
      (w.shapes S).body S, (cpSpaceRemoveShape w S).world, hres, ?_, ?_⟩
  · simp [cpBodyRemoveShape, cpBodyActivateStatic, World.emit]
  · simp only [cpSpaceRemoveShape, cpSpaceContainsShape, hS, hlock, hst, beq_self_eq_true,
      Bool.not_true, Bool.false_eq_true, if_false, if_true, ne_eq, not_true_eq_false, Res.world]

/-- C16: in an unlocked space, removing a member shape `S` whose body is
static succeeds and makes exactly one activation call, the static path
`cpBodyActivateStatic(body, S)` with `S` as the filter, and never the general
`cpBodyActivate`; the bodies that call wakes are dynamic bodies on the other
side of a cached arbiter against exactly `S`, so a body whose cached arbiters
with the static body are all against other shapes is not woken. -/
theorem cpSpaceRemoveShape_static_wakes_only_contacts (w : World) (S : Ptr)
    (hlock : w.space.locked = 0) (hS : (w.shapes S).space = some w.self)
    (hst : cpBodyIsStatic w (w.shapes S).body = true) :
    ∃ w2, cpSpaceRemoveShape w S = Res.ok () w2 ∧
      activations (emitted w w2) = [Event.bodyActivateStatic (w.shapes S).body (some S)] ∧
      (∀ p, Event.bodyActivate p ∉ emitted w w2) ∧
      (∀ p ∈ cpBodyActivateStaticWakes w (w.shapes S).body (some S),
        (w.bodies p).type = cpBodyType.CP_BODY_TYPE_DYNAMIC ∧
        ∃ bin ∈ w.space.cachedArbiters,
          ((w.arbs bin.elt).a = S ∨ (w.arbs bin.elt).b = S) ∧
          (((w.arbs bin.elt).body_a = (w.shapes S).body ∧ (w.arbs bin.elt).body_b = p) ∨
            ((w.arbs bin.elt).body_b = (w.shapes S).body ∧ (w.arbs bin.elt).body_a = p))) ∧
      (∀ p, (∀ bin ∈ w.space.cachedArbiters,
          (((w.arbs bin.elt).body_a = (w.shapes S).body ∧ (w.arbs bin.elt).body_b = p) ∨
            ((w.arbs bin.elt).body_b = (w.shapes S).body ∧ (w.arbs bin.elt).body_a = p)) →
          (w.arbs bin.elt).a ≠ S ∧ (w.arbs bin.elt).b ≠ S) →
        p ∉ cpBodyActivateStaticWakes w (w.shapes S).body (some S)) := by
  obtain ⟨v, w2, hrem, htr, h2trace⟩ := cpSpaceRemoveShape_static_trace w S hlock hS hst
  have hem : emitted w w2 = [Event.bodyActivateStatic (w.shapes S).body (some S),
      Event.bodyRemoveShape (w.shapes S).body S] ++
      emitted v (cpSpaceFilterArbiters v (w.shapes S).body (some S)) := by
    apply emitted_of_trace_eq
    rw [h2trace, cpSpaceFilterArbiters_trace_emitted, htr, List.append_assoc]
  have hact : activations (emitted w w2) =
      [Event.bodyActivateStatic (w.shapes S).body (some S)] := by
    rw [hem, activations_append, cpSpaceFilterArbiters_no_activation]
    rfl
  have hwake : ∀ p ∈ cpBodyActivateStaticWakes w (w.shapes S).body (some S),
      (w.bodies p).type = cpBodyType.CP_BODY_TYPE_DYNAMIC ∧
      ∃ bin ∈ w.space.cachedArbiters,
        ((w.arbs bin.elt).a = S ∨ (w.arbs bin.elt).b = S) ∧
        (((w.arbs bin.elt).body_a = (w.shapes S).body ∧ (w.arbs bin.elt).body_b = p) ∨
          ((w.arbs bin.elt).body_b = (w.shapes S).body ∧ (w.arbs bin.elt).body_a = p)) := by
    intro p hp
    unfold cpBodyActivateStaticWakes at hp
    obtain ⟨hp1, hp2⟩ := List.mem_filter.mp hp
    obtain ⟨bin, hbin, hbp⟩ := List.mem_map.mp hp1
    obtain ⟨hb1, hb2⟩ := List.mem_filter.mp hbin
    simp only [Bool.and_eq_true, Bool.or_eq_true, beq_iff_eq, Option.some.injEq, reduceCtorEq,
      false_or] at hb2
    refine ⟨by simpa using hp2, bin, hb1, ?_, ?_⟩
    · rcases hb2.2 with h | h
      · exact Or.inl h.symm
      · exact Or.inr h.symm
    · by_cases ha : (w.arbs bin.elt).body_a = (w.shapes S).body
      · rw [if_pos ha] at hbp
        exact Or.inl ⟨ha, hbp⟩
      · rw [if_neg ha] at hbp
        rcases hb2.1 with h | h
        · exact absurd h ha
        · exact Or.inr ⟨h, hbp⟩
  refine ⟨w2, hrem, hact, ?_, hwake, ?_⟩
  · intro p hp
    have : Event.bodyActivate p ∈ activations (emitted w w2) :=
      List.mem_filter.mpr ⟨hp, rfl⟩
    rw [hact] at this
    simp at this
  · intro p hall hp
    obtain ⟨-, bin, hbin, href, hside⟩ := hwake p hp
    obtain ⟨h1, h2⟩ := hall bin hbin hside
    rcases href with h | h
    · exact h1 h
    · exact h2 h

theorem cpSpaceRemoveShape_static_wakes_only_contacts_witness :
    staticShapeWorld.space.locked = 0 ∧
    (staticShapeWorld.shapes 1).space = some staticShapeWorld.self ∧
    cpBodyIsStatic staticShapeWorld (staticShapeWorld.shapes 1).body = true ∧
    cpBodyActivateStaticWakes staticShapeWorld 11 (some 1) = [12] ∧
    cpBodyActivateStaticWakes staticShapeWorld 11 none = [12, 16] ∧
    ∃ w2, cpSpaceRemoveShape staticShapeWorld 1 = Res.ok () w2 ∧
      activations (emitted staticShapeWorld w2) =
        [Event.bodyActivateStatic (staticShapeWorld.shapes 1).body (some 1)] ∧
      (∀ p, Event.bodyActivate p ∉ emitted staticShapeWorld w2) ∧
      (∀ p ∈ cpBodyActivateStaticWakes staticShapeWorld (staticShapeWorld.shapes 1).body (some 1),
        (staticShapeWorld.bodies p).type = cpBodyType.CP_BODY_TYPE_DYNAMIC ∧
        ∃ bin ∈ staticShapeWorld.space.cachedArbiters,
          ((staticShapeWorld.arbs bin.elt).a = 1 ∨ (staticShapeWorld.arbs bin.elt).b = 1) ∧
          (((staticShapeWorld.arbs bin.elt).body_a = (staticShapeWorld.shapes 1).body ∧
              (staticShapeWorld.arbs bin.elt).body_b = p) ∨
            ((staticShapeWorld.arbs bin.elt).body_b = (staticShapeWorld.shapes 1).body ∧
              (staticShapeWorld.arbs bin.elt).body_a = p))) ∧
      (∀ p, (∀ bin ∈ staticShapeWorld.space.cachedArbiters,
          (((staticShapeWorld.arbs bin.elt).body_a = (staticShapeWorld.shapes 1).body ∧
              (staticShapeWorld.arbs bin.elt).body_b = p) ∨
            ((staticShapeWorld.arbs bin.elt).body_b = (staticShapeWorld.shapes 1).body ∧
              (staticShapeWorld.arbs bin.elt).body_a = p)) →
          (staticShapeWorld.arbs bin.elt).a ≠ 1 ∧ (staticShapeWorld.arbs bin.elt).b ≠ 1) →
        p ∉ cpBodyActivateStaticWakes staticShapeWorld (staticShapeWorld.shapes 1).body
          (some 1)) :=
  ⟨by decide, by decide, by decide, by decide, by decide,
    cpSpaceRemoveShape_static_wakes_only_contacts staticShapeWorld 1 (by decide) (by decide)
      (by decide)⟩

/-! ## Iterating over the bodies -/

theorem callbackLocks_append (xs ys : List Event) :
    callbackLocks (xs ++ ys) = callbackLocks xs ++ callbackLocks ys := by
  simp [callbackLocks]

theorem callbackLocks_postStep (cs : List Ptr) : callbackLocks (cs.map Event.postStep) = [] := by
  induction cs with
  | nil => rfl
  | cons x xs ih =>
    simp only [callbackLocks, List.map_cons, List.filterMap_cons, Event.callbackLocked] at ih ⊢
    exact ih

theorem callbackLocks_map (g : Ptr → Event) (n : Nat) (xs : List Ptr)
    (hg : ∀ x, (g x).callbackLocked = some n) :
    ∀ l ∈ callbackLocks (xs.map g), l = n := by
  intro l hl
  unfold callbackLocks at hl
  obtain ⟨e, he, hev⟩ := List.mem_filterMap.mp hl
  obtain ⟨x, -, hx⟩ := List.mem_map.mp he
  rw [← hx, hg x] at hev
  exact (Option.some.inj hev).symm

theorem callbackLocks_filterEvents (w : World) (context : arbiterFilterContext) (arb : Ptr) :
    ∀ l ∈ callbackLocks (filterEvents w context arb), l = w.space.locked := by
  intro l hl
  unfold filterEvents at hl
  split_ifs at hl with h1 h2
  · simp [callbackLocks, Event.callbackLocked] at hl
    exact hl
  · simp [callbackLocks, Event.callbackLocked] at hl
  · simp [callbackLocks] at hl

theorem cpHashSetFilter_callbackLocks (context : arbiterFilterContext) (set : cpHashSet)
    (w : World) :
    ∃ es, (cpHashSetFilter (fun v arb => cachedArbitersFilter v arb context) w set).1.trace =
        w.trace ++ es ∧ ∀ l ∈ callbackLocks es, l = w.space.locked := by
  induction set generalizing w with
  | nil => exact ⟨[], by simp [cpHashSetFilter], by simp [callbackLocks]⟩
  | cons bin rest ih =>
    obtain ⟨es, h1, h2⟩ := ih (cachedArbitersFilter w bin.elt context).2
    have hc := cachedArbitersFilter_core w bin.elt context
    refine ⟨filterEvents w context bin.elt ++ es, ?_, ?_⟩
    · simp only [cpHashSetFilter]
      rw [h1, cachedArbitersFilter_trace, List.append_assoc]
    · intro l hl
      rw [callbackLocks_append] at hl
      rcases List.mem_append.mp hl with h | h
      · exact callbackLocks_filterEvents w context bin.elt l h
      · rw [← core_locked hc]
        exact h2 l h

/-- Every callback `cpSpaceFilterArbiters` invokes runs one lock level above
the caller, and the counter is back at the caller's level on return. -/
theorem cpSpaceFilterArbiters_callbackLocks (w : World) (body : Ptr) (filter : Option Ptr) :
    (∀ l ∈ callbackLocks (emitted w (cpSpaceFilterArbiters w body filter)),
      l = w.space.locked + 1) ∧
    (cpSpaceFilterArbiters w body filter).space.locked = w.space.locked := by
  refine ⟨?_, core_locked (cpSpaceFilterArbiters_core w body filter)⟩
  obtain ⟨es, cs, h1, h2⟩ := cpSpaceFilterArbiters_trace w body filter
  obtain ⟨es', h3, h4⟩ := cpHashSetFilter_callbackLocks { body := body, shape := filter }
    w.space.cachedArbiters (cpSpaceLock w)
  have hes : es' = es := List.append_cancel_left (h3.symm.trans h2)
  subst hes
  rw [List.append_assoc] at h1
  rw [emitted_of_trace_eq h1, callbackLocks_append, callbackLocks_postStep, List.append_nil]
  exact h4

theorem cpSpaceUnlock_cpSpaceLock_locked (w : World) (es : List Event) (run : Bool) :
    (cpSpaceUnlock { cpSpaceLock w with trace := w.trace ++ es } run).space.locked =
      w.space.locked := by
  simp only [cpSpaceUnlock, cpSpaceLock]
  split_ifs <;> simp

theorem callbackLocks_of_bracket (w : World) (g : Ptr → Event) (xs : List Ptr) (run : Bool)
    (hg : ∀ x, (g x).callbackLocked = some (w.space.locked + 1)) :
    ∀ l ∈ callbackLocks (emitted w
        (cpSpaceUnlock { cpSpaceLock w with trace := w.trace ++ xs.map g } run)),
      l = w.space.locked + 1 := by
  obtain ⟨cs, hcs⟩ := cpSpaceUnlock_trace { cpSpaceLock w with trace := w.trace ++ xs.map g } run
  have ht : (cpSpaceUnlock { cpSpaceLock w with trace := w.trace ++ xs.map g } run).trace =
      w.trace ++ (xs.map g ++ cs.map Event.postStep) := by
    rw [hcs, List.append_assoc]
  rw [emitted_of_trace_eq ht, callbackLocks_append, callbackLocks_postStep, List.append_nil]
  exact callbackLocks_map g _ xs hg

theorem cpSpaceEachShape_eq (w : World) (func : Nat) (data : Option Ptr) :
    cpSpaceEachShape w func data =
      cpSpaceUnlock
        { cpSpaceLock w with
          trace := w.trace ++
            (cpSpatialIndexEach w.space.dynamicShapes ++
              cpSpatialIndexEach w.space.staticShapes).map
              (fun shape => Event.shapeIter func shape data (w.space.locked + 1)) } true := by
  simp only [cpSpaceEachShape, emit_foldl_trace (fun s n => Event.shapeIter func s data n)]
  simp [cpSpaceLock, List.append_assoc]

theorem cpSpaceEachConstraint_eq (w : World) (func : Nat) (data : Option Ptr) :
    cpSpaceEachConstraint w func data =
      cpSpaceUnlock
        { cpSpaceLock w with
          trace := w.trace ++ w.space.constraints.map
            (fun constraint =>
              Event.constraintIter func constraint data (w.space.locked + 1)) } true := by
  simp only [cpSpaceEachConstraint, emit_foldl_trace (fun s n => Event.constraintIter func s data n)]
  simp [cpSpaceLock]

theorem eachBodyComponent_some (func : Nat) (data : Option Ptr) (fuel : Nat) :
    ∀ (v v1 : World) (start : Option Ptr), eachBodyComponent func data fuel v start = some v1 →
      ∃ l : List Ptr, v1 = { v with
        trace := v.trace ++ l.map (fun body => Event.bodyIter func body data v.space.locked) } := by
  induction fuel with
  | zero =>
    intro v v1 start h
    cases start with
    | none =>
      simp only [eachBodyComponent, Option.some.injEq] at h
      exact ⟨[], by simp [← h]⟩
    | some b => simp [eachBodyComponent] at h
  | succ n ih =>
    intro v v1 start h
    cases start with
    | none =>
      simp only [eachBodyComponent, Option.some.injEq] at h
      exact ⟨[], by simp [← h]⟩
    | some b =>
      simp only [eachBodyComponent] at h
      obtain ⟨l, hl⟩ := ih _ _ _ h
      refine ⟨b :: l, ?_⟩
      rw [hl]
      simp [World.emit]

theorem eachBodyComponents_some (func : Nat) (data : Option Ptr) (fuel : Nat)
    (roots : List Ptr) :
    ∀ (v v1 : World),
      roots.foldl (fun (acc : Option World) (root : Ptr) =>
          acc.bind (fun u => eachBodyComponent func data fuel u (some root))) (some v) = some v1 →
      ∃ l : List Ptr, v1 = { v with
        trace := v.trace ++ l.map (fun body => Event.bodyIter func body data v.space.locked) } := by
  induction roots with
  | nil =>
    intro v v1 h
    simp only [List.foldl_nil, Option.some.injEq] at h
    exact ⟨[], by simp [← h]⟩
  | cons root roots ih =>
    intro v v1 h
    rw [List.foldl_cons, Option.some_bind] at h
    cases hroot : eachBodyComponent func data fuel v (some root) with
    | none =>
      rw [hroot] at h
      have hnone : ∀ rs : List Ptr, rs.foldl (fun (acc : Option World) (root : Ptr) =>
          acc.bind (fun u => eachBodyComponent func data fuel u (some root))) none = none := by
        intro rs
        induction rs with
        | nil => rfl
        | cons r rs ihr => rw [List.foldl_cons, Option.none_bind, ihr]
      rw [hnone] at h
      exact Option.noConfusion h
    | some u =>
      rw [hroot] at h
      obtain ⟨l1, hl1⟩ := eachBodyComponent_some func data fuel v u (some root) hroot
      obtain ⟨l2, hl2⟩ := ih u v1 h
      refine ⟨l1 ++ l2, ?_⟩
      rw [hl2, hl1]
      simp [List.append_assoc]

theorem cpSpaceEachBody_some (fuel : Nat) (w w1 : World) (func : Nat) (data : Option Ptr)
    (h : cpSpaceEachBody fuel w func data = some w1) :
    ∃ l : List Ptr, w1 = cpSpaceUnlock
      { cpSpaceLock w with
        trace := w.trace ++ l.map
          (fun body => Event.bodyIter func body data (w.space.locked + 1)) } true := by
  simp only [cpSpaceEachBody, emit_foldl_trace (fun s n => Event.bodyIter func s data n),
    Option.map_eq_some'] at h
  obtain ⟨v, hv, hw1⟩ := h
  obtain ⟨l, hl⟩ := eachBodyComponents_some func data fuel _ _ _ hv
  refine ⟨w.space.dynamicBodies ++ l, ?_⟩
  rw [← hw1, hl]
  simp [cpSpaceLock, List.append_assoc]

/-- With the lock counter above zero every mutating entry point aborts and
leaves the state as it is. -/
theorem locked_mutations_abort (v : World) (hl : 0 < v.space.locked) :
    (∀ shape, ∃ err, cpSpaceAddShape v shape = Res.fatal err v) ∧
    (∀ body, ∃ err, cpSpaceAddBody v body = Res.fatal err v) ∧
    (∀ constraint, ∃ err, cpSpaceAddConstraint v constraint = Res.fatal err v) ∧
    (∀ shape, ∃ err, cpSpaceRemoveShape v shape = Res.fatal err v) ∧
    (∀ body, ∃ err, cpSpaceRemoveBody v body = Res.fatal err v) ∧
    (∀ constraint, ∃ err, cpSpaceRemoveConstraint v constraint = Res.fatal err v) ∧
    cpSpaceReindexStatic v = Res.fatal Fatal.spaceLocked v ∧
    (∀ shape, cpSpaceReindexShape v shape = Res.fatal Fatal.spaceLocked v) := by
  have hne : v.space.locked ≠ 0 := Nat.pos_iff_ne_zero.mp hl
  refine ⟨?_, ?_, ?_, ?_, ?_, ?_, ?_, ?_⟩
  · intro shape
    unfold cpSpaceAddShape
    split_ifs <;> exact ⟨_, rfl⟩
  · intro body
    unfold cpSpaceAddBody
    split_ifs <;> exact ⟨_, rfl⟩
  · intro constraint
    unfold cpSpaceAddConstraint
    split_ifs
    · exact ⟨_, rfl⟩
    · exact ⟨_, rfl⟩
    · split <;> exact ⟨_, rfl⟩
  · intro shape
    unfold cpSpaceRemoveShape
    split_ifs <;> exact ⟨_, rfl⟩
  · intro body
    unfold cpSpaceRemoveBody
    split_ifs <;> exact ⟨_, rfl⟩
  · intro constraint
    unfold cpSpaceRemoveConstraint
    split_ifs <;> exact ⟨_, rfl⟩
  · unfold cpSpaceReindexStatic
    rw [if_pos hne]
  · intro shape
    unfold cpSpaceReindexShape
    rw [if_pos hne]

/-- C18: with lock counter `n` on entry, every callback invoked by
`cpSpaceEachShape`, `cpSpaceEachConstraint`, `cpSpaceEachBody` (when it
returns), `cpSpaceFilterArbiters` and a successful `cpSpaceRemoveShape` runs
under `locked = n + 1`, and the counter is `n` again when the operation
returns; in any state with `locked = n + 1` each of the eight mutating entry
points aborts and leaves the state unchanged, so a callback cannot change the
collections being walked by calling them directly. -/
theorem callbacks_run_locked (w : World) :
    (∀ func data,
      (∀ l ∈ callbackLocks (emitted w (cpSpaceEachShape w func data)), l = w.space.locked + 1) ∧
      (cpSpaceEachShape w func data).space.locked = w.space.locked) ∧
    (∀ func data,
      (∀ l ∈ callbackLocks (emitted w (cpSpaceEachConstraint w func data)),
        l = w.space.locked + 1) ∧
      (cpSpaceEachConstraint w func data).space.locked = w.space.locked) ∧
    (∀ fuel func data w1, cpSpaceEachBody fuel w func data = some w1 →
      (∀ l ∈ callbackLocks (emitted w w1), l = w.space.locked + 1) ∧
      w1.space.locked = w.space.locked) ∧
    (∀ body filter,
      (∀ l ∈ callbackLocks (emitted w (cpSpaceFilterArbiters w body filter)),
        l = w.space.locked + 1) ∧
      (cpSpaceFilterArbiters w body filter).space.locked = w.space.locked) ∧
    (∀ shape w2, cpSpaceRemoveShape w shape = Res.ok () w2 →
      (∀ l ∈ callbackLocks (emitted w w2), l = w.space.locked + 1) ∧
      w2.space.locked = w.space.locked) ∧
    (∀ v : World, v.space.locked = w.space.locked + 1 →
      (∀ shape, ∃ err, cpSpaceAddShape v shape = Res.fatal err v) ∧
      (∀ body, ∃ err, cpSpaceAddBody v body = Res.fatal err v) ∧
      (∀ constraint, ∃ err, cpSpaceAddConstraint v constraint = Res.fatal err v) ∧
      (∀ shape, ∃ err, cpSpaceRemoveShape v shape = Res.fatal err v) ∧
      (∀ body, ∃ err, cpSpaceRemoveBody v body = Res.fatal err v) ∧
      (∀ constraint, ∃ err, cpSpaceRemoveConstraint v constraint = Res.fatal err v) ∧
      cpSpaceReindexStatic v = Res.fatal Fatal.spaceLocked v ∧
      (∀ shape, cpSpaceReindexShape v shape = Res.fatal Fatal.spaceLocked v)) := by
  refine ⟨?_, ?_, ?_, ?_, ?_, ?_⟩
  · intro func data
    rw [cpSpaceEachShape_eq]
    exact ⟨callbackLocks_of_bracket w _ _ true (fun _ => rfl),
      cpSpaceUnlock_cpSpaceLock_locked w _ true⟩
  · intro func data
    rw [cpSpaceEachConstraint_eq]
    exact ⟨callbackLocks_of_bracket w _ _ true (fun _ => rfl),
      cpSpaceUnlock_cpSpaceLock_locked w _ true⟩
  · intro fuel func data w1 h
    obtain ⟨l, hl⟩ := cpSpaceEachBody_some fuel w w1 func data h
    rw [hl]
    exact ⟨callbackLocks_of_bracket w _ _ true (fun _ => rfl),
      cpSpaceUnlock_cpSpaceLock_locked w _ true⟩
  · intro body filter
    exact cpSpaceFilterArbiters_callbackLocks w body filter
  · intro shape w2 hrem
    obtain ⟨hlock, hS⟩ := cpSpaceRemoveShape_inv w w2 shape hrem
    obtain ⟨v, w2', e, hrem', -, hspace, -, he, htr, -, -, h2trace⟩ :=
      cpSpaceRemoveShape_filter w shape hlock hS
    obtain ⟨w2'', hrem'', -, -, hl2, -⟩ := cpSpaceRemoveShape_ok w shape hlock hS
    have hw : w2 = w2' := by
      rw [hrem] at hrem'
      injection hrem'
    have hw' : w2 = w2'' := by
      rw [hrem] at hrem''
      injection hrem''
    subst hw
    subst hw'
    refine ⟨?_, by rw [hl2, hlock]⟩
    have hem : emitted w w2 = [e, Event.bodyRemoveShape (w.shapes shape).body shape] ++
        emitted v (cpSpaceFilterArbiters v (w.shapes shape).body (some shape)) := by
      apply emitted_of_trace_eq
      rw [h2trace, cpSpaceFilterArbiters_trace_emitted, htr, List.append_assoc]
    have hpre : callbackLocks [e, Event.bodyRemoveShape (w.shapes shape).body shape] = [] := by
      rcases he with he | he <;> subst he <;> rfl
    rw [hem, callbackLocks_append, hpre, List.nil_append, ← hspace]
    exact (cpSpaceFilterArbiters_callbackLocks v _ _).1
  · intro v hv
    exact locked_mutations_abort v (by omega)

theorem callbacks_run_locked_example :
    callbackLocks (emitted shapeWorld (cpSpaceEachShape shapeWorld 7 none)) = [1] ∧
    callbackLocks (emitted (cpSpaceLock shapeWorld)
      (cpSpaceEachShape (cpSpaceLock shapeWorld) 7 none)) = [2] ∧
    callbackLocks (emitted cacheWorld (cpSpaceRemoveShape cacheWorld 1).world) = [1] ∧
    (cpSpaceRemoveShape cacheWorld 1).world.space.locked = 0 ∧
    (cpSpaceEachBody 3 sleepyWorld 7 none).map
      (fun v => callbackLocks (emitted sleepyWorld v)) = some [1, 1, 1, 1, 1, 1] := by
  decide

theorem callbacks_run_locked_witness :
    cpSpaceRemoveShape cacheWorld 1 = Res.ok () (cpSpaceRemoveShape cacheWorld 1).world ∧
    cpSpaceEachBody 3 sleepyWorld 7 none =
      some ((cpSpaceEachBody 3 sleepyWorld 7 none).getD sleepyWorld) ∧
    (cpSpaceLock cacheWorld).space.locked = cacheWorld.space.locked + 1 ∧
    ((∀ l ∈ callbackLocks (emitted cacheWorld (cpSpaceRemoveShape cacheWorld 1).world),
        l = cacheWorld.space.locked + 1) ∧
      (cpSpaceRemoveShape cacheWorld 1).world.space.locked = cacheWorld.space.locked) ∧
    ((∀ l ∈ callbackLocks
          (emitted sleepyWorld ((cpSpaceEachBody 3 sleepyWorld 7 none).getD sleepyWorld)),
        l = sleepyWorld.space.locked + 1) ∧
      ((cpSpaceEachBody 3 sleepyWorld 7 none).getD sleepyWorld).space.locked =
        sleepyWorld.space.locked) ∧
    (∃ err, cpSpaceRemoveShape (cpSpaceLock cacheWorld) 1 =
      Res.fatal err (cpSpaceLock cacheWorld)) :=
  ⟨rfl, rfl, rfl, (callbacks_run_locked cacheWorld).2.2.2.2.1 1 _ rfl,
    (callbacks_run_locked sleepyWorld).2.2.1 3 7 none _ rfl,
    ((callbacks_run_locked cacheWorld).2.2.2.2.2 (cpSpaceLock cacheWorld) rfl).2.2.2.1 1⟩

/-! ## Containment queries and the collections -/

theorem cpArrayDeleteObj_cons_ne (x obj : Ptr) (rest : List Ptr) (hne : x ≠ obj) :
    cpArrayDeleteObj (x :: rest) obj = x :: cpArrayDeleteObj rest obj := by
  have hidx : List.indexOf obj (x :: rest) = List.indexOf obj rest + 1 :=
    List.indexOf_cons_ne _ hne
  unfold cpArrayDeleteObj
  simp only [hidx, List.length_cons, Nat.add_lt_add_iff_right]
  split_ifs with hi
  · rw [List.set_cons_succ]
    cases rest with
    | nil => simp at hi
    | cons y ys =>
      have hlast : (x :: y :: ys).getLast?.getD obj = (y :: ys).getLast?.getD obj := by
        simp [List.getLast?_cons_cons]
      rw [hlast]
      cases hset : (y :: ys).set (List.indexOf obj (y :: ys)) ((y :: ys).getLast?.getD obj) with
      | nil =>
        have := congrArg List.length hset
        simp at this
      | cons z zs => simp [List.dropLast]
  · rfl

theorem cpArrayDeleteObj_cons_self (x : Ptr) (rest : List Ptr) :
    (cpArrayDeleteObj (x :: rest) x).Perm rest := by
  unfold cpArrayDeleteObj
  simp only [List.indexOf_cons_self, List.length_cons, Nat.zero_lt_succ, if_true, List.set_cons_zero]
  cases hrest : rest with
  | nil => simp
  | cons y ys =>
    have hne : (y :: ys) ≠ [] := List.cons_ne_nil _ _
    have hlast : (x :: y :: ys).getLast?.getD x = (y :: ys).getLast hne := by
      simp [List.getLast?_cons_cons, List.getLast?_eq_getLast _ hne]
    rw [hlast]
    have hd : ((y :: ys).getLast hne :: y :: ys).dropLast =
        (y :: ys).getLast hne :: (y :: ys).dropLast := by
      simp [List.dropLast]
    rw [hd]
    have hsplit := List.dropLast_append_getLast hne
    calc ((y :: ys).getLast hne :: (y :: ys).dropLast).Perm
          ((y :: ys).dropLast ++ [(y :: ys).getLast hne]) := by
            exact (List.perm_append_singleton _ _).symm
      _ = (y :: ys) := hsplit

theorem cpArrayDeleteObj_perm (arr : List Ptr) (obj : Ptr) :
    (cpArrayDeleteObj arr obj).Perm (arr.erase obj) := by
  induction arr with
  | nil => simp [cpArrayDeleteObj]
  | cons x rest ih =>
    by_cases hx : x = obj
    · subst hx
      rw [List.erase_cons_head]
      exact cpArrayDeleteObj_cons_self x rest
    · rw [cpArrayDeleteObj_cons_ne x obj rest hx, List.erase_cons_tail (by simpa using hx)]
      exact List.Perm.cons x ih

theorem cpArrayDeleteObj_nodup (arr : List Ptr) (obj : Ptr) (h : arr.Nodup) :
    (cpArrayDeleteObj arr obj).Nodup :=
  (cpArrayDeleteObj_perm arr obj).nodup_iff.mpr (h.erase obj)

theorem mem_cpArrayDeleteObj (arr : List Ptr) (obj x : Ptr) (h : arr.Nodup) :
    x ∈ cpArrayDeleteObj arr obj ↔ x ∈ arr ∧ x ≠ obj := by
  rw [(cpArrayDeleteObj_perm arr obj).mem_iff, h.mem_erase_iff]
  tauto

theorem cpArrayPush_nodup (arr : List Ptr) (obj : Ptr) (h : arr.Nodup) (hn : obj ∉ arr) :
    (cpArrayPush arr obj).Nodup := by
  unfold cpArrayPush
  exact List.Nodup.append h (List.nodup_singleton _) (by simpa using hn)

theorem mem_cpArrayPush (arr : List Ptr) (obj x : Ptr) :
    x ∈ cpArrayPush arr obj ↔ x ∈ arr ∨ x = obj := by
  simp [cpArrayPush]

/-- What a successful `cpSpaceAddConstraint` required, and what it left
alone. -/
theorem cpSpaceAddConstraint_ok (w w1 : World) (c r : Ptr)
    (h : cpSpaceAddConstraint w c = Res.ok r w1) :
    (w.joints c).space = none ∧ w1.self = w.self ∧
    (∀ p, (w1.bodies p).space = (w.bodies p).space ∧ (w1.bodies p).type = (w.bodies p).type) ∧
    w1.space.otherBodies = w.space.otherBodies ∧
    w1.space.dynamicBodies = w.space.dynamicBodies ∧
    w1.space.constraints = cpArrayPush w.space.constraints c ∧
    (w1.joints c).space = some w.self ∧
    (∀ p, p ≠ c → (w1.joints p).space = (w.joints p).space) := by
  have c1 : ¬ (w.joints c).space = some w.self := by
    intro e
    unfold cpSpaceAddConstraint at h
    rw [if_pos e] at h
    exact Res.noConfusion h
  have c2 : (w.joints c).space = none := by
    by_contra e
    unfold cpSpaceAddConstraint at h
    rw [if_neg c1, if_pos e] at h
    exact Res.noConfusion h
  unfold cpSpaceAddConstraint at h
  rw [if_neg c1, if_neg (not_not.mpr c2)] at h
  cases ha : (w.joints c).a with
  | none =>
    rw [ha] at h
    exact Res.noConfusion h
  | some a =>
    cases hb : (w.joints c).b with
    | none =>
      rw [ha, hb] at h
      exact Res.noConfusion h
    | some b =>
      rw [ha, hb] at h
      dsimp only at h
      by_cases c3 : w.space.locked ≠ 0
      · rw [if_pos c3] at h
        exact Res.noConfusion h
      · rw [if_neg c3] at h
        simp only [Res.ok.injEq] at h
        obtain ⟨_, rfl⟩ := h
        refine ⟨c2, rfl, ?_, rfl, rfl, rfl, ?_, ?_⟩
        · intro p
          simp only [cpBodyActivate, World.emit, Function.update_apply]
          split_ifs <;> simp_all
        · simp [cpBodyActivate, World.emit]
        · intro p hp
          simp [cpBodyActivate, World.emit, Function.update_noteq hp]

theorem cpBodyRemoveConstraint_frame (w : World) (body c : Ptr) :
    (cpBodyRemoveConstraint w body c).self = w.self ∧
    (cpBodyRemoveConstraint w body c).space = w.space ∧
    (∀ p, ((cpBodyRemoveConstraint w body c).bodies p).space = (w.bodies p).space ∧
      ((cpBodyRemoveConstraint w body c).bodies p).type = (w.bodies p).type) ∧
    (∀ p, ((cpBodyRemoveConstraint w body c).joints p).space = (w.joints p).space) := by
  refine ⟨rfl, rfl, ?_, ?_⟩
  · intro p
    simp only [cpBodyRemoveConstraint]
    split_ifs <;> exact ⟨rfl, rfl⟩
  · intro p
    simp only [cpBodyRemoveConstraint]
    split_ifs <;> rfl

/-- What a successful `cpSpaceRemoveConstraint` required, and what it left
alone. -/
theorem cpSpaceRemoveConstraint_ok (w w1 : World) (c : Ptr)
    (h : cpSpaceRemoveConstraint w c = Res.ok () w1) :
    (w.joints c).space = some w.self ∧ w1.self = w.self ∧
    (∀ p, (w1.bodies p).space = (w.bodies p).space ∧ (w1.bodies p).type = (w.bodies p).type) ∧
    w1.space.otherBodies = w.space.otherBodies ∧
    w1.space.dynamicBodies = w.space.dynamicBodies ∧
    w1.space.constraints = cpArrayDeleteObj w.space.constraints c ∧
    (w1.joints c).space = none ∧
    (∀ p, p ≠ c → (w1.joints p).space = (w.joints p).space) := by
  unfold cpSpaceRemoveConstraint at h
  split_ifs at h with c1 c2
  simp only [Res.ok.injEq, true_and] at h
  have hmem : (w.joints c).space = some w.self := by
    simpa [cpSpaceContainsConstraint] using c1
  subst h
  cases ha : (w.joints c).a <;> cases hb : (w.joints c).b
  all_goals
    refine ⟨hmem, rfl, ?_, rfl, rfl, rfl, ?_, ?_⟩
    · intro p
      simp [cpBodyActivate, World.emit, (cpBodyRemoveConstraint_frame _ _ _).2.2.1]
    · simp
    · intro p hp
      simp only [Function.update_noteq hp, cpBodyActivate, World.emit,
        (cpBodyRemoveConstraint_frame _ _ _).2.2.2]

theorem cpSpaceContainsBody_iff (w : World) (b : Ptr) :
    cpSpaceContainsBody w b = true ↔ (w.bodies b).space = some w.self := by
  simp [cpSpaceContainsBody]

theorem cpSpaceContainsConstraint_iff (w : World) (c : Ptr) :
    cpSpaceContainsConstraint w c = true ↔ (w.joints c).space = some w.self := by
  simp [cpSpaceContainsConstraint]

theorem cpSpaceAddBody_frame (w w1 : World) (body r : Ptr)
    (h : cpSpaceAddBody w body = Res.ok r w1) :
    (w.bodies body).space = none ∧ w1.self = w.self ∧
    (∀ p, cpBodyIsStatic w1 p = cpBodyIsStatic w p) ∧
    (w1.bodies body).space = some w.self ∧
    (∀ p, p ≠ body → (w1.bodies p).space = (w.bodies p).space) ∧
    w1.joints = w.joints ∧ w1.space.constraints = w.space.constraints ∧
    w1.space.otherBodies =
      (if cpBodyIsStatic w body then cpArrayPush w.space.otherBodies body
        else w.space.otherBodies) ∧
    w1.space.dynamicBodies =
      (if cpBodyIsStatic w body then w.space.dynamicBodies
        else cpArrayPush w.space.dynamicBodies body) := by
  obtain ⟨hnone, _, rfl⟩ := cpSpaceAddBody_ok w w1 body r h
  refine ⟨hnone, rfl, ?_, by simp, ?_, rfl, rfl, rfl, rfl⟩
  · intro p
    simp only [cpBodyIsStatic, Function.update_apply]
    split_ifs with e
    · subst e
      rfl
    · rfl
  · intro p hp
    simp [Function.update_noteq hp]

theorem cpSpaceRemoveBody_frame (w w1 : World) (body : Ptr)
    (h : cpSpaceRemoveBody w body = Res.ok () w1) :
    (w.bodies body).space = some w.self ∧ w1.self = w.self ∧
    (∀ p, cpBodyIsStatic w1 p = cpBodyIsStatic w p) ∧
    (w1.bodies body).space = none ∧
    (∀ p, p ≠ body → (w1.bodies p).space = (w.bodies p).space) ∧
    w1.joints = w.joints ∧ w1.space.constraints = w.space.constraints ∧
    w1.space.otherBodies =
      (if cpBodyIsStatic w body then cpArrayDeleteObj w.space.otherBodies body
        else w.space.otherBodies) ∧
    w1.space.dynamicBodies =
      (if cpBodyIsStatic w body then w.space.dynamicBodies
        else cpArrayDeleteObj w.space.dynamicBodies body) := by
  obtain ⟨_, hmem, _, rfl⟩ := cpSpaceRemoveBody_ok w w1 body h
  refine ⟨hmem, rfl, ?_, by simp, ?_, rfl, rfl, rfl, rfl⟩
  · intro p
    simp only [cpBodyIsStatic, Function.update_apply]
    split_ifs with e
    · subst e
      rfl
    · rfl
  · intro p hp
    simp [Function.update_noteq hp]

theorem collectionsAgree_cpSpaceInit (w0 : World)
    (freshBodies : ∀ body, (w0.bodies body).space ≠ some w0.self)
    (freshJoints : ∀ constraint, (w0.joints constraint).space ≠ some w0.self) :
    CollectionsAgree (cpSpaceInit w0) := by
  refine ⟨?_, ?_, ?_, ?_, ?_⟩
  · intro b
    rw [cpSpaceContainsBody_iff]
    by_cases hb : b = w0.staticBody
    · subst hb
      simp [cpSpaceInit, cpBodyIsStatic, cpBodyInitStatic, cpArrayPush]
    · have hsp : ((cpSpaceInit w0).bodies b).space = (w0.bodies b).space := by
        simp [cpSpaceInit, Function.update_noteq hb]
      have hf := freshBodies b
      rw [hsp]
      simp only [cpSpaceInit, cpArrayPush, List.nil_append, List.mem_singleton, List.not_mem_nil,
        hb, ite_self]
      exact iff_of_false hf (fun x => x)
  · intro c
    rw [cpSpaceContainsConstraint_iff]
    have hf := freshJoints c
    simpa [cpSpaceInit] using hf
  · simp [cpSpaceInit, cpArrayPush]
  · simp [cpSpaceInit]
  · simp [cpSpaceInit]

theorem collectionsAgree_cpSpaceAddBody (w w1 : World) (body r : Ptr)
    (h : cpSpaceAddBody w body = Res.ok r w1) (ih : CollectionsAgree w) :
    CollectionsAgree w1 := by
  obtain ⟨hnone, hself, hst, hsp, hoth, hj, hc, ho, hd⟩ := cpSpaceAddBody_frame w w1 body r h
  obtain ⟨ib, ic, no, nd, nc⟩ := ih
  have hnot : ¬ (w.bodies body).space = some w.self := by
    rw [hnone]
    exact fun e => Option.noConfusion e
  have hbody := (ib body).not.mp (by rw [cpSpaceContainsBody_iff]; exact hnot)
  refine ⟨?_, ?_, ?_, ?_, ?_⟩
  · intro b
    rw [cpSpaceContainsBody_iff, hst, hself, ho, hd]
    by_cases hb : b = body
    · subst hb
      rw [hsp]
      by_cases hs : cpBodyIsStatic w b = true
      · simp [hs, mem_cpArrayPush]
      · simp [hs, mem_cpArrayPush]
    · rw [hoth b hb, ← cpSpaceContainsBody_iff, ib b]
      by_cases hs : cpBodyIsStatic w b = true <;>
        by_cases hs2 : cpBodyIsStatic w body = true <;>
        simp [hs, hs2, mem_cpArrayPush, hb]
  · intro c
    rw [cpSpaceContainsConstraint_iff, hself, hj, hc, ← cpSpaceContainsConstraint_iff]
    exact ic c
  · rw [ho]
    by_cases hs : cpBodyIsStatic w body = true
    · rw [if_pos hs]
      rw [if_pos hs] at hbody
      exact cpArrayPush_nodup _ _ no hbody
    · rw [if_neg hs]
      exact no
  · rw [hd]
    by_cases hs : cpBodyIsStatic w body = true
    · rw [if_pos hs]
      exact nd
    · rw [if_neg hs]
      rw [if_neg hs] at hbody
      exact cpArrayPush_nodup _ _ nd hbody
  · rw [hc]
    exact nc

theorem collectionsAgree_cpSpaceRemoveBody (w w1 : World) (body : Ptr)
    (h : cpSpaceRemoveBody w body = Res.ok () w1) (ih : CollectionsAgree w) :
    CollectionsAgree w1 := by
  obtain ⟨hmem, hself, hst, hsp, hoth, hj, hc, ho, hd⟩ := cpSpaceRemoveBody_frame w w1 body h
  obtain ⟨ib, ic, no, nd, nc⟩ := ih
  refine ⟨?_, ?_, ?_, ?_, ?_⟩
  · intro b
    rw [cpSpaceContainsBody_iff, hst, hself, ho, hd]
    by_cases hb : b = body
    · subst hb
      rw [hsp]
      by_cases hs : cpBodyIsStatic w b = true
      · simp [hs, mem_cpArrayDeleteObj _ _ _ no]
      · simp [hs, mem_cpArrayDeleteObj _ _ _ nd]
    · rw [hoth b hb, ← cpSpaceContainsBody_iff, ib b]
      by_cases hs : cpBodyIsStatic w b = true <;>
        by_cases hs2 : cpBodyIsStatic w body = true <;>
        simp [hs, hs2, mem_cpArrayDeleteObj _ _ _ no, mem_cpArrayDeleteObj _ _ _ nd, hb]
  · intro c
    rw [cpSpaceContainsConstraint_iff, hself, hj, hc, ← cpSpaceContainsConstraint_iff]
    exact ic c
  · rw [ho]
    by_cases hs : cpBodyIsStatic w body = true
    · rw [if_pos hs]
      exact cpArrayDeleteObj_nodup _ _ no
    · rw [if_neg hs]
      exact no
  · rw [hd]
    by_cases hs : cpBodyIsStatic w body = true
    · rw [if_pos hs]
      exact nd
    · rw [if_neg hs]
      exact cpArrayDeleteObj_nodup _ _ nd
  · rw [hc]
    exact nc

theorem collectionsAgree_of_bodies_kept (w w1 : World) (hself : w1.self = w.self)
    (hb : ∀ p, (w1.bodies p).space = (w.bodies p).space ∧ (w1.bodies p).type = (w.bodies p).type)
    (ho : w1.space.otherBodies = w.space.otherBodies)
    (hd : w1.space.dynamicBodies = w.space.dynamicBodies)
    (ib : ∀ body, cpSpaceContainsBody w body = true ↔
      if cpBodyIsStatic w body then body ∈ w.space.otherBodies
      else body ∈ w.space.dynamicBodies) :
    ∀ body, cpSpaceContainsBody w1 body = true ↔
      if cpBodyIsStatic w1 body then body ∈ w1.space.otherBodies
      else body ∈ w1.space.dynamicBodies := by
  intro b
  have hst : cpBodyIsStatic w1 b = cpBodyIsStatic w b := by
    simp only [cpBodyIsStatic, (hb b).2]
  rw [cpSpaceContainsBody_iff, hst, hself, ho, hd, (hb b).1, ← cpSpaceContainsBody_iff]
  exact ib b

theorem collectionsAgree_cpSpaceAddConstraint (w w1 : World) (c r : Ptr)
    (h : cpSpaceAddConstraint w c = Res.ok r w1) (ih : CollectionsAgree w) :
    CollectionsAgree w1 := by
  obtain ⟨hnone, hself, hb, ho, hd, hc, hsp, hoth⟩ := cpSpaceAddConstraint_ok w w1 c r h
  obtain ⟨ib, ic, no, nd, nc⟩ := ih
  have hnot : ¬ (w.joints c).space = some w.self := by
    rw [hnone]
    exact fun e => Option.noConfusion e
  have hcn : c ∉ w.space.constraints :=
    (ic c).not.mp (by rw [cpSpaceContainsConstraint_iff]; exact hnot)
  refine ⟨collectionsAgree_of_bodies_kept w w1 hself hb ho hd ib, ?_, ?_, ?_, ?_⟩
  · intro x
    rw [cpSpaceContainsConstraint_iff, hself, hc, mem_cpArrayPush]
    by_cases hx : x = c
    · subst hx
      simp [hsp]
    · rw [hoth x hx, ← cpSpaceContainsConstraint_iff, ic x]
      simp [hx]
  · rw [ho]
    exact no
  · rw [hd]
    exact nd
  · rw [hc]
    exact cpArrayPush_nodup _ _ nc hcn

theorem collectionsAgree_cpSpaceRemoveConstraint (w w1 : World) (c : Ptr)
    (h : cpSpaceRemoveConstraint w c = Res.ok () w1) (ih : CollectionsAgree w) :
    CollectionsAgree w1 := by
  obtain ⟨hmem, hself, hb, ho, hd, hc, hsp, hoth⟩ := cpSpaceRemoveConstraint_ok w w1 c h
  obtain ⟨ib, ic, no, nd, nc⟩ := ih
  refine ⟨collectionsAgree_of_bodies_kept w w1 hself hb ho hd ib, ?_, ?_, ?_, ?_⟩
  · intro x
    rw [cpSpaceContainsConstraint_iff, hself, hc, mem_cpArrayDeleteObj _ _ _ nc]
    by_cases hx : x = c
    · subst hx
      simp [hsp]
    · rw [hoth x hx, ← cpSpaceContainsConstraint_iff, ic x]
      simp [hx]
  · rw [ho]
    exact no
  · rw [hd]
    exact nd
  · rw [hc]
    exact cpArrayDeleteObj_nodup _ _ nc

theorem reachable_collectionsAgree (w : World) (h : ReachableByBodyAndConstraintCalls w) :
    CollectionsAgree w := by
  induction h with
  | init w0 fb fj => exact collectionsAgree_cpSpaceInit w0 fb fj
  | addBody body _ hcall ih => exact collectionsAgree_cpSpaceAddBody _ _ body body hcall ih
  | removeBody body _ hcall ih => exact collectionsAgree_cpSpaceRemoveBody _ _ body hcall ih
  | addConstraint c _ hcall ih => exact collectionsAgree_cpSpaceAddConstraint _ _ c c hcall ih
  | removeConstraint c _ hcall ih => exact collectionsAgree_cpSpaceRemoveConstraint _ _ c hcall ih

/-- C19: in every state reached from `cpSpaceInit` (run on memory in which no
body and no constraint already names the space) by successful `cpSpaceAddBody`,
`cpSpaceRemoveBody`, `cpSpaceAddConstraint` and `cpSpaceRemoveConstraint`
calls, `cpSpaceContainsBody` is true of a body exactly when the body occurs in
`otherBodies` (static body) or `dynamicBodies` (any other body),
`cpSpaceContainsConstraint` is true of a constraint exactly when it occurs in
`constraints`, and none of the three arrays holds an object twice. -/
theorem containment_queries_agree_with_collections (w : World)
    (h : ReachableByBodyAndConstraintCalls w) :
    (∀ body, cpSpaceContainsBody w body = true ↔
      if cpBodyIsStatic w body then body ∈ w.space.otherBodies
      else body ∈ w.space.dynamicBodies) ∧
    (∀ constraint, cpSpaceContainsConstraint w constraint = true ↔
      constraint ∈ w.space.constraints) ∧
    w.space.otherBodies.Nodup ∧ w.space.dynamicBodies.Nodup ∧ w.space.constraints.Nodup :=
  reachable_collectionsAgree w h

theorem fresh_staticBlankWorld_bodies :
    ∀ body, (staticBlankWorld.bodies body).space ≠ some staticBlankWorld.self := by
  intro body
  simp only [staticBlankWorld, Function.update_apply]
  split_ifs <;> simp [blankWorld]

theorem fresh_staticBlankWorld_joints :
    ∀ constraint, (staticBlankWorld.joints constraint).space ≠ some staticBlankWorld.self := by
  intro constraint
  simp [staticBlankWorld, blankWorld]

theorem reachable_jointWorld : ReachableByBodyAndConstraintCalls jointWorld :=
  ReachableByBodyAndConstraintCalls.removeBody 12
    (ReachableByBodyAndConstraintCalls.removeConstraint 2
      (ReachableByBodyAndConstraintCalls.addConstraint 3
        (ReachableByBodyAndConstraintCalls.addConstraint 2
          (ReachableByBodyAndConstraintCalls.addBody 14
            (ReachableByBodyAndConstraintCalls.addBody 13
              (ReachableByBodyAndConstraintCalls.addBody 12
                (ReachableByBodyAndConstraintCalls.init staticBlankWorld
                  fresh_staticBlankWorld_bodies fresh_staticBlankWorld_joints)
                rfl) rfl) rfl) rfl) rfl) rfl) rfl

theorem containment_queries_agree_with_collections_witness :
    ReachableByBodyAndConstraintCalls jointWorld ∧
    jointWorld.space.otherBodies = [0, 14] ∧ jointWorld.space.dynamicBodies = [13] ∧
    jointWorld.space.constraints = [3] ∧
    ((∀ body, cpSpaceContainsBody jointWorld body = true ↔
      if cpBodyIsStatic jointWorld body then body ∈ jointWorld.space.otherBodies
      else body ∈ jointWorld.space.dynamicBodies) ∧
    (∀ constraint, cpSpaceContainsConstraint jointWorld constraint = true ↔
      constraint ∈ jointWorld.space.constraints) ∧
    jointWorld.space.otherBodies.Nodup ∧ jointWorld.space.dynamicBodies.Nodup ∧
    jointWorld.space.constraints.Nodup) :=
  ⟨reachable_jointWorld, by decide, by decide, by decide,
    containment_queries_agree_with_collections jointWorld reachable_jointWorld⟩

/-! ## The switch to wildcard mode -/

theorem cpSpaceUseWildcardDefaultHandler_on (w : World) :
    (cpSpaceUseWildcardDefaultHandler w).space.usesWildcards = true := by
  unfold cpSpaceUseWildcardDefaultHandler
  cases h : w.space.usesWildcards <;> simp [h]

theorem cpSpaceUseWildcardDefaultHandler_idle (w : World) (h : w.space.usesWildcards = true) :
    cpSpaceUseWildcardDefaultHandler w = w := by
  unfold cpSpaceUseWildcardDefaultHandler
  simp [h]

/-- C20: `cpSpaceAddDefaultCollisionHandler` and `cpSpaceAddWildcardHandler`
both leave `usesWildcards` set, whatever the state they are called in; called
in a state in which `usesWildcards` is set, each of them leaves `usesWildcards`
and the whole `defaultHandler` record as they were
(`cpSpaceAddDefaultCollisionHandler` changes nothing at all), so what the
caller stored in that record survives; and `cpSpaceAddDefaultCollisionHandler`
always returns the `defaultHandler` record of the space. -/
theorem wildcard_switch_happens_once (w : World) (h : w.space.usesWildcards = true) :
    (cpSpaceAddDefaultCollisionHandler w).2 = w ∧
    (∀ type, (cpSpaceAddWildcardHandler w type).2.space.usesWildcards = true ∧
      (cpSpaceAddWildcardHandler w type).2.space.defaultHandler = w.space.defaultHandler) ∧
    (∀ v : World, (cpSpaceAddDefaultCollisionHandler v).1 = HandlerRef.spaceDefault ∧
      (cpSpaceAddDefaultCollisionHandler v).2.space.usesWildcards = true ∧
      ∀ type, (cpSpaceAddWildcardHandler v type).2.space.usesWildcards = true) := by
  refine ⟨cpSpaceUseWildcardDefaultHandler_idle w h, ?_, ?_⟩
  · intro type
    have hm := cpSpaceAddWildcardHandler_mode w type
    rw [cpSpaceUseWildcardDefaultHandler_idle w h] at hm
    exact ⟨hm.1.trans h, hm.2⟩
  · intro v
    refine ⟨rfl, cpSpaceUseWildcardDefaultHandler_on v, ?_⟩
    intro type
    exact (cpSpaceAddWildcardHandler_mode v type).1.trans (cpSpaceUseWildcardDefaultHandler_on v)

theorem wildcard_switch_happens_once_witness :
    editedWorld.space.usesWildcards = true ∧
    editedWorld.space.defaultHandler.beginFunc = cpCollisionBoolFunc.user 7 ∧
    editedWorld.space.defaultHandler.userData = some 9 ∧
    ((cpSpaceAddDefaultCollisionHandler editedWorld).2 = editedWorld ∧
    (∀ type, (cpSpaceAddWildcardHandler editedWorld type).2.space.usesWildcards = true ∧
      (cpSpaceAddWildcardHandler editedWorld type).2.space.defaultHandler =
        editedWorld.space.defaultHandler) ∧
    (∀ v : World, (cpSpaceAddDefaultCollisionHandler v).1 = HandlerRef.spaceDefault ∧
      (cpSpaceAddDefaultCollisionHandler v).2.space.usesWildcards = true ∧
      ∀ type, (cpSpaceAddWildcardHandler v type).2.space.usesWildcards = true)) :=
  ⟨rfl, rfl, rfl, wildcard_switch_happens_once editedWorld rfl⟩

/-! ## What `cpSpaceEachBody` visits -/

end Chipmunk
